import Mathlib

/-!
# Clock Signal: Amiga chipset helpers, Enterprise Nick, TZX tapes, CPC analyser, M68k

A shallow embedding of parts of `Machines/Amiga/Chipset.hpp`,
`Machines/Enterprise/Nick.cpp`, `Storage/Tape/Formats/TZX.cpp`,
`StaticAnalyser/AmstradCPC/StaticAnalyser.cpp` and
`InstructionSets/M68k/Instruction.cpp`.

Conventions: fixed-width unsigned integers are natural numbers reduced modulo
`2^w` wherever the source can overflow them; `int` values are integers, with
`Int.tdiv` and `Int.tmod` for the truncating `/` and `%` of the source; the
definitions come first and the theorems about them follow.
-/

/-! ## Definitions: Amiga chipset (`Chipset.hpp`) -/

namespace Amiga

/-- The enumeration `DMAFlag` of `Chipset.hpp`. -/
inductive DMAFlag
  | AudioChannel0
  | AudioChannel1
  | AudioChannel2
  | AudioChannel3
  | Disk
  | Sprites
  | Blitter
  | Copper
  | Bitplane
  | AllBelow
  | BlitterPriority
  | BlitterZero
  | BlitterBusy
  deriving DecidableEq, Repr

/-- The `uint16_t` enumerator value of each `DMAFlag`, as written in the source. -/
def DMAFlag.value : DMAFlag → Nat
  | .AudioChannel0 => 1 <<< 0
  | .AudioChannel1 => 1 <<< 1
  | .AudioChannel2 => 1 <<< 2
  | .AudioChannel3 => 1 <<< 3
  | .Disk => 1 <<< 4
  | .Sprites => 1 <<< 5
  | .Blitter => 1 <<< 6
  | .Copper => 1 <<< 7
  | .Bitplane => 1 <<< 8
  | .AllBelow => 1 <<< 9
  | .BlitterPriority => 1 <<< 10
  | .BlitterZero => 1 <<< 13
  | .BlitterBusy => 1 <<< 14

/-- Bit positions of the DMACON register as the claim lists them (audio 0-3,
disk, sprites, blitter, copper, bitplane, master enable, blitter priority,
blitter zero, blitter busy). -/
def DMAFlag.dmacon_bit : DMAFlag → Nat
  | .AudioChannel0 => 0
  | .AudioChannel1 => 1
  | .AudioChannel2 => 2
  | .AudioChannel3 => 3
  | .Disk => 4
  | .Sprites => 5
  | .Blitter => 6
  | .Copper => 7
  | .Bitplane => 8
  | .AllBelow => 9
  | .BlitterPriority => 10
  | .BlitterZero => 13
  | .BlitterBusy => 14

/-- The struct `Chipset::Changes`: `interrupt_level` is an `int`, `duration` a
`HalfCycles`, whose `+=` adds the wrapped integer lengths. -/
structure Changes where
  interrupt_level : Int
  duration : Int
  deriving DecidableEq, Repr

/-- The operator `Changes::operator +=`, applied as `a += rhs`: the pair returned is
the left operand after the call and the (const) right operand after the call. -/
def Changes.add_assign (a rhs : Changes) : Changes × Changes :=
  ({ a with duration := a.duration + rhs.duration }, rhs)

/-- The class `Chipset::TwoSpriteShifter`: `data_` is a `uint64_t`, `overflow_` a
`uint8_t`. -/
structure TwoSpriteShifter where
  data_ : Nat
  overflow_ : Nat
  deriving DecidableEq, Repr

namespace TwoSpriteShifter

/-- The member `TwoSpriteShifter::shift`: `data_ <<= 8; data_ |= overflow_; overflow_ = 0;`. -/
def shift (s : TwoSpriteShifter) : TwoSpriteShifter :=
  let data := (s.data_ <<< 8) % 2 ^ 64
  let data := data ||| s.overflow_
  { data_ := data, overflow_ := 0 }

/-- The member `TwoSpriteShifter::get`: `uint8_t(data_ >> 56)`. -/
def get (s : TwoSpriteShifter) : Nat :=
  (s.data_ >>> 56) % 2 ^ 8

/-- Byte `i` of a 64-bit value, byte 0 being the least significant. -/
def byte (x i : Nat) : Nat := x / 256 ^ i % 256

end TwoSpriteShifter

/-- The class `Chipset::BitplaneShifter`: `data_` is a `std::array<uint64_t, 2>`. -/
structure BitplaneShifter where
  data_0 : Nat
  data_1 : Nat
  deriving DecidableEq, Repr

namespace BitplaneShifter

/-- The table `shifts[] = {16, 32}` indexed by `high_res`. -/
def shifts (high_res : Bool) : Nat := if high_res then 32 else 16

/-- The member `BitplaneShifter::shift`. -/
def shift (s : BitplaneShifter) (high_res : Bool) : BitplaneShifter :=
  let data_1 := ((s.data_1 <<< shifts high_res) % 2 ^ 64) ||| (s.data_0 >>> (64 - shifts high_res))
  let data_0 := (s.data_0 <<< shifts high_res) % 2 ^ 64
  { data_0 := data_0, data_1 := data_1 }

/-- The member `BitplaneShifter::get`, returning the `uint32_t` result together with
the shifter as the call leaves it. -/
def get (s : BitplaneShifter) (high_res : Bool) : Nat × BitplaneShifter :=
  if high_res then
    ((s.data_1 >>> 32) % 2 ^ 32, s)
  else
    let result := (s.data_1 >>> 48) % 2 ^ 16
    let result := (((result &&& 0xff00) <<< 8) % 2 ^ 32) ||| (result &&& 0x00ff)
    let result := result ||| ((result <<< 8) % 2 ^ 32)
    (result, s)

/-- The 128-bit register the two words form: `data_[1]` is the upper half. -/
def register (s : BitplaneShifter) : Nat := s.data_1 * 2 ^ 64 + s.data_0

/-- The state invariant of the type: both words are 64-bit values. -/
def WellFormed (s : BitplaneShifter) : Prop := s.data_0 < 2 ^ 64 ∧ s.data_1 < 2 ^ 64

end BitplaneShifter

end Amiga

/-! ## Definitions: Enterprise Nick (`Nick.cpp`) -/

namespace Enterprise

/-- The enumeration `Nick::OutputType`. -/
inductive OutputType
  | Sync
  | Blank
  | Pixels
  | Border
  | ColourBurst
  deriving DecidableEq, Repr

/-- The enumeration `Nick::Mode`, by the names `Nick.cpp` uses. -/
inductive Mode
  | Vsync
  | Pixel
  | Attr
  | CH256
  | CH128
  | CH64
  | Unused
  | LPixel
  deriving DecidableEq, Repr

/-- A colour as `mapped_colour` builds it: the bytes `parts[0]` and `parts[1]`, in
memory order, of the `uint16_t` it returns. -/
abbrev Colour := Nat × Nat

/-- The function `mapped_colour` of `Nick.cpp`, for a `uint8_t` source. -/
def mapped_colour (source : Nat) : Colour :=
  let red := ((source &&& 0x01) <<< 2) ||| ((source &&& 0x08) >>> 2) ||| ((source &&& 0x40) >>> 6)
  let green := ((source &&& 0x02) <<< 1) ||| ((source &&& 0x10) >>> 3) ||| ((source &&& 0x80) >>> 7)
  let blue := ((source &&& 0x04) >>> 1) ||| ((source &&& 0x20) >>> 5)
  (((red <<< 1) + ((red &&& 0x4) >>> 3)) % 256,
   ((green <<< 5) + ((green &&& 0x4) <<< 2) + (blue <<< 2) + blue) % 256)

/-- One run handed to the video sink `crt_`: the call made and its arguments. For
`output_level` the colour is the one stored through the pointer `begin_data(1)`
returned, when that pointer was not null. -/
inductive Run
  | output_level (number_of_cycles : Int) (colour : Option Colour)
  | output_data (number_of_cycles : Int) (number_of_samples : Int)
  | output_sync (number_of_cycles : Int)
  | output_blank (number_of_cycles : Int)
  | output_colour_burst (number_of_cycles : Int)
  deriving DecidableEq, Repr

/-- The output class a run belongs to. -/
def Run.type : Run → OutputType
  | .output_level _ _ => .Border
  | .output_data _ _ => .Pixels
  | .output_sync _ => .Sync
  | .output_blank _ => .Blank
  | .output_colour_burst _ => .ColourBurst

/-- The length of a run, in the units the sink is given. -/
def Run.length : Run → Int
  | .output_level n _ => n
  | .output_data n _ => n
  | .output_sync n => n
  | .output_blank n => n
  | .output_colour_burst n => n

/-- What `Nick.cpp` takes from outside itself: the RAM behind `ram_` (bytes are read
modulo 256), the pointer each successive call of `crt_.begin_data` returns (an
address, 0 standing for `nullptr`), the constant `allocation_size` and the numbering
of `enum class Mode` used by the cast `Mode(n)`; the last two are declared in
`Nick.hpp`. -/
structure Env where
  ram : Nat → Nat
  begin_data : Nat → Nat
  allocation_size : Int
  mode_of_int : Nat → Mode

/-- The read `ram_[i]` of a `uint8_t`. -/
def Env.read (env : Env) (i : Nat) : Nat := env.ram i % 256

/-- The member variables of `Nick` that `Nick.cpp` uses, followed by the record kept of
its effects: the runs sent to the sink so far, the number of `begin_data` calls made,
the number of times the end-of-line step has run, and whether the assertion of the
first line-parameter slot has ever been false. Pointers into the sink's buffers are
addresses counted in `uint16_t` units, 0 standing for `nullptr`; the entries of
`alt_ind_palettes` are offsets into `palette_`. -/
structure State where
  palette_ : List Colour
  alt_ind_palettes : List Nat
  two_colour_mask_ : Nat
  border_colour_ : Colour
  line_parameter_base_ : Nat
  line_parameter_control_ : Nat
  line_parameter_pointer_ : Nat
  lines_remaining_ : Nat
  should_reload_line_parameters_ : Bool
  reload_line_parameter_pointer_ : Bool
  horizontal_counter_ : Int
  interrupt_line_ : Bool
  mode_ : Mode
  bpp_ : Int
  column_size_ : Int
  line_data_per_column_increments_0 : Int
  line_data_per_column_increments_1 : Int
  vres_ : Bool
  left_margin_ : Int
  right_margin_ : Int
  is_sync_or_pixels_ : Bool
  start_line_data_pointer_0 : Nat
  start_line_data_pointer_1 : Nat
  line_data_pointer_0 : Nat
  line_data_pointer_1 : Nat
  pixel_pointer_ : Nat
  allocated_pointer_ : Nat
  output_type_ : OutputType
  output_duration_ : Int
  runs : List Run
  begin_data_calls : Nat
  end_of_line_steps : Nat
  assertion_failed : Bool
  deriving DecidableEq, Repr

/-- The constant `line_length` of `Nick::run_for`. -/
def line_length : Int := 912

/-- The body of `if(output_duration_) { switch(output_type_) ... }` in
`Nick::set_output_type`: the run of the current type is sent to the sink. -/
def flush_run (env : Env) (s : State) : State :=
  match s.output_type_ with
  | .Border =>
    let colour_pointer := env.begin_data s.begin_data_calls
    { s with
      begin_data_calls := s.begin_data_calls + 1
      runs := s.runs ++ [Run.output_level (s.output_duration_ * 16)
        (if colour_pointer ≠ 0 then some s.border_colour_ else none)] }
  | .Pixels =>
    { s with
      runs := s.runs ++ [Run.output_data (s.output_duration_ * 16)
        (s.output_duration_ * s.column_size_)]
      pixel_pointer_ := 0
      allocated_pointer_ := 0 }
  | .Sync => { s with runs := s.runs ++ [Run.output_sync (s.output_duration_ * 16)] }
  | .Blank => { s with runs := s.runs ++ [Run.output_blank (s.output_duration_ * 16)] }
  | .ColourBurst =>
    { s with runs := s.runs ++ [Run.output_colour_burst (s.output_duration_ * 16)] }

/-- The member `Nick::set_output_type(type, force_flush)`. -/
def set_output_type (env : Env) (type : OutputType) (force_flush : Bool) (s : State) : State :=
  if type = s.output_type_ ∧ force_flush = false then s
  else
    let s := if s.output_duration_ ≠ 0 then flush_run env s else s
    { s with output_duration_ := 0, output_type_ := type }

/-- The member `Nick::write(address, value)`, for a `uint8_t` value: the four cases
of `switch(address & 3)`. -/
def write (env : Env) (address value : Nat) (s : State) : State :=
  if address &&& 3 = 0 then
    { s with
      palette_ := (List.range 8).foldl
        (fun p c => p.set (c + 8) (mapped_colour ((((value &&& 0x1f) <<< 3) + c) % 256)))
        s.palette_ }
  else if address &&& 3 = 1 then
    let s := if s.output_type_ = .Border then set_output_type env .Border true s else s
    { s with border_colour_ := mapped_colour value }
  else if address &&& 3 = 2 then
    { s with
      line_parameter_base_ := ((s.line_parameter_base_ &&& 0xf000) ||| (value <<< 4)) % 65536 }
  else
    let s := { s with
      line_parameter_base_ := ((s.line_parameter_base_ &&& 0x0ff0) ||| (value <<< 12)) % 65536 }
    let s :=
      if ((value ^^^ s.line_parameter_control_) &&& value &&& 0x80) ≠ 0 then
        { s with lines_remaining_ := 0xff, should_reload_line_parameters_ := true }
      else s
    { s with line_parameter_control_ := value &&& 0xc0 }

/-- The macro `check_margins()` of `Nick::run_for`. -/
def check_margins (window : Int) (s : State) : State :=
  let s := if window = s.left_margin_ then { s with is_sync_or_pixels_ := true } else s
  if window = s.right_margin_ then { s with is_sync_or_pixels_ := false } else s

/-- The column size that the `switch(mode_)` of the first line-parameter slot sets. -/
def column_size_for (mode : Mode) (bpp : Int) : Int :=
  match mode with
  | .LPixel => Int.tdiv 8 bpp
  | .CH64 | .CH128 | .CH256 => 8
  | .Attr => 8
  | _ => Int.tdiv 16 bpp

/-- The values of `line_data_per_column_increments_` that the `switch(mode_)` of the first
line-parameter slot sets. -/
def increments_for (mode : Mode) : Int × Int :=
  match mode with
  | .LPixel => (1, 0)
  | .CH64 | .CH128 | .CH256 => (1, 0)
  | .Attr => (1, 1)
  | _ => (2, 0)

/-- First line-parameter slot (`case 0` of `switch(window)`): line count, mode and
interrupt flag. The byte `control` is the one every read of `ram_` after the first
increment of the pointer returns. The assertion is recorded, and execution continues
past it as it does when assertions are compiled out. -/
def load_slot_0 (env : Env) (s : State) : State :=
  let lines_remaining := env.read s.line_parameter_pointer_
  let pointer := (s.line_parameter_pointer_ + 1) % 65536
  let control := env.read pointer
  let mode := env.mode_of_int ((control >>> 1) &&& 7)
  let bpp : Int := ((1 <<< ((control >>> 5) &&& 3) : Nat) : Int)
  { s with
    assertion_failed := s.assertion_failed || decide (s.line_parameter_pointer_ &&& 0xf ≠ 0)
    lines_remaining_ := lines_remaining
    interrupt_line_ := decide (control &&& 0x80 ≠ 0)
    mode_ := mode
    bpp_ := bpp
    column_size_ := column_size_for mode bpp
    line_data_per_column_increments_0 := (increments_for mode).1
    line_data_per_column_increments_1 := (increments_for mode).2
    vres_ := decide (control &&& 0x10 ≠ 0)
    reload_line_parameter_pointer_ := decide (control &&& 0x01 ≠ 0)
    line_parameter_pointer_ := (pointer + 1) % 65536 }

/-- The value of `two_colour_mask_` the second slot sets in the pixel modes, and the one it
leaves in the others. -/
def two_colour_mask_for (mode : Mode) (flags : Nat) (current : Nat) : Nat :=
  match mode with
  | .Pixel | .LPixel =>
    0xff &&& (0xff ^^^ ((((flags &&& 0x80) >>> 7) ||| ((flags &&& 0x40) <<< 1)) &&& 0xff))
  | _ => current

/-- The entries of `alt_ind_palettes` the second slot sets, as offsets into `palette_`
in the order 0, 1, 2, 3: from MSBALT and LSBALT of the first byte in the pixel modes,
from ALTIND1 and ALTIND0 of the second byte in the character modes; the other modes
leave them. -/
def alt_ind_palettes_for (mode : Mode) (first second : Nat) (current : List Nat) : List Nat :=
  match mode with
  | .Pixel | .LPixel =>
    let a0 := 0
    let a2 := a0 + (if first &&& 0x80 ≠ 0 then 2 else 0)
    let a1 := a0 + (if first &&& 0x40 ≠ 0 then 4 else 0)
    let a3 := a2 + (if first &&& 0x40 ≠ 0 then 4 else 0)
    [a0, a1, a2, a3]
  | .CH64 | .CH128 | .CH256 =>
    let a0 := 0
    let a2 := a0 + (if second &&& 0x40 ≠ 0 then 2 else 0)
    let a1 := a0 + (if second &&& 0x80 ≠ 0 then 4 else 0)
    let a3 := a2 + (if second &&& 0x80 ≠ 0 then 4 else 0)
    [a0, a1, a2, a3]
  | _ => current

/-- Second line-parameter slot (`case 1`): margins and ALT/IND bits. -/
def load_slot_1 (env : Env) (s : State) : State :=
  let first := env.read s.line_parameter_pointer_
  let second := env.read ((s.line_parameter_pointer_ + 1) &&& 0xffff)
  { s with
    left_margin_ := ((first &&& 0x3f : Nat) : Int)
    right_margin_ := ((second &&& 0x3f : Nat) : Int)
    two_colour_mask_ := two_colour_mask_for s.mode_ first s.two_colour_mask_
    alt_ind_palettes := alt_ind_palettes_for s.mode_ first second s.alt_ind_palettes
    line_parameter_pointer_ := (s.line_parameter_pointer_ + 2) % 65536 }

/-- The 16-bit pointer the third and fourth slots read: low byte first, the pointer
incremented after each byte. -/
def read_line_data_pointer (env : Env) (s : State) : Nat :=
  (env.read s.line_parameter_pointer_
    ||| (env.read ((s.line_parameter_pointer_ + 1) % 65536) <<< 8)) % 65536

/-- Third line-parameter slot (`case 2`): line data pointer 1. -/
def load_slot_2 (env : Env) (s : State) : State :=
  { s with
    start_line_data_pointer_0 := read_line_data_pointer env s
    line_data_pointer_0 := read_line_data_pointer env s
    line_parameter_pointer_ := ((s.line_parameter_pointer_ + 1) % 65536 + 1) % 65536 }

/-- Fourth line-parameter slot (`case 3`): line data pointer 2. -/
def load_slot_3 (env : Env) (s : State) : State :=
  { s with
    start_line_data_pointer_1 := read_line_data_pointer env s
    line_data_pointer_1 := read_line_data_pointer env s
    line_parameter_pointer_ := ((s.line_parameter_pointer_ + 1) % 65536 + 1) % 65536 }

/-- The `switch(window)` inside `if(should_reload_line_parameters_)`. -/
def load_slot (env : Env) (window : Int) (s : State) : State :=
  if window = 0 then load_slot_0 env s
  else if window = 1 then load_slot_1 env s
  else if window = 2 then load_slot_2 env s
  else if window = 3 then load_slot_3 env s
  else s

/-- The body of the loop `while(window < 4 && window < end_window)`, entered with the
given value of `window`, which it leaves incremented. -/
def line_parameter_step (env : Env) (window : Int) (s : State) : State :=
  let s := if s.should_reload_line_parameters_ then load_slot env window s else s
  let s := { s with output_duration_ := s.output_duration_ + 1 }
  check_margins (window + 1) s

/-- The loop `while(window < 4 && window < end_window)`; the result is the final value
of the local `window` and the state. -/
def line_parameter_loop (env : Env) : Nat → Int → Int → State → Option (Int × State)
  | 0, _, _, _ => none
  | fuel + 1, window, end_window, s =>
    if window < 4 ∧ window < end_window then
      line_parameter_loop env fuel (window + 1) end_window (line_parameter_step env window s)
    else some (window, s)

/-- The block `if(window == 4) { ... }`. -/
def window_4 (env : Env) (window : Int) (s : State) : State :=
  if window = 4 then
    if s.mode_ = .Vsync then
      let s :=
        if s.should_reload_line_parameters_ then
          { s with line_parameter_pointer_ := (s.line_parameter_pointer_ + 8) % 65536 }
        else s
      let s := { s with should_reload_line_parameters_ := false }
      set_output_type env (if s.is_sync_or_pixels_ then .Sync else .Blank) false s
    else
      set_output_type env .Blank false s
  else s

/-- The value `next_event` computes in both event loops: the end window, or the nearer
margin still ahead. -/
def next_event (window end_window : Int) (s : State) : Int :=
  let next_event := end_window
  let next_event := if window < s.left_margin_ then min next_event s.left_margin_ else next_event
  if window < s.right_margin_ then min next_event s.right_margin_ else next_event

/-- The body of the loop `while(window < end_window)` of Vsync mode, which leaves `window`
at `next_event window end_window s`. -/
def vsync_step (env : Env) (window end_window : Int) (s : State) : State :=
  let next := next_event window end_window s
  let s := { s with output_duration_ := s.output_duration_ + (next - window) }
  let s := check_margins next s
  set_output_type env (if s.is_sync_or_pixels_ then .Sync else .Blank) false s

/-- The loop `while(window < end_window)` of Vsync mode. -/
def vsync_loop (env : Env) : Nat → Int → Int → State → Option State
  | 0, _, _, _ => none
  | fuel + 1, window, end_window, s =>
    if window < end_window then
      vsync_loop env fuel (next_event window end_window s) end_window
        (vsync_step env window end_window s)
    else some s

/-- The fetch of two palette entries in one of the windows 4 to 7: `palette_[base]` and
`palette_[base+1]` with `base = (window - 4) << 1`, from two successive bytes. -/
def load_palette_pair (env : Env) (window : Int) (s : State) : State :=
  let base := ((window - 4) * 2).toNat
  let first := mapped_colour (env.read s.line_parameter_pointer_)
  let second := mapped_colour (env.read ((s.line_parameter_pointer_ + 1) % 65536))
  { s with
    palette_ := (s.palette_.set base first).set (base + 1) second
    line_parameter_pointer_ := ((s.line_parameter_pointer_ + 1) % 65536 + 1) % 65536 }

/-- The body of the loop `while(window < 10 && window < end_window)`, entered with the
given value of `window`, which it leaves incremented. -/
def burst_step (env : Env) (window : Int) (s : State) : State :=
  let s := if window = 6 then set_output_type env .ColourBurst false s else s
  let s :=
    if s.should_reload_line_parameters_ = true ∧ window < 8 then load_palette_pair env window s
    else { s with should_reload_line_parameters_ := false }
  { s with output_duration_ := s.output_duration_ + 1 }

/-- The loop `while(window < 10 && window < end_window)`: colour burst from window 6 and
the fetch of the first eight palette entries. -/
def burst_loop (env : Env) : Nat → Int → Int → State → Option (Int × State)
  | 0, _, _, _ => none
  | fuel + 1, window, end_window, s =>
    if window < 10 ∧ window < end_window then
      burst_loop env fuel (window + 1) end_window (burst_step env window s)
    else some (window, s)

/-- The effect on `Nick` of the pixel outputters `output_pixel`, `output_character` and
`output_attributed` that `DispatchBpp` selects by `mode_`, run for `columns` columns:
the line data pointers advance once per column. The pixels themselves are written
into the sink's buffer at `pixel_pointer_`, which is not part of this state. -/
def output_columns (columns : Int) (s : State) : State :=
  match s.mode_ with
  | .LPixel =>
    { s with line_data_pointer_0 := (s.line_data_pointer_0 + 1 * columns.toNat) % 65536 }
  | .CH256 | .CH128 | .CH64 =>
    { s with line_data_pointer_0 := (s.line_data_pointer_0 + 1 * columns.toNat) % 65536 }
  | .Attr =>
    { s with
      line_data_pointer_0 := (s.line_data_pointer_0 + 1 * columns.toNat) % 65536
      line_data_pointer_1 := (s.line_data_pointer_1 + 1 * columns.toNat) % 65536 }
  | _ =>
    { s with line_data_pointer_0 := (s.line_data_pointer_0 + 2 * columns.toNat) % 65536 }

/-- The branch `else` of `if(allocated_pointer_)`: no buffer is to be had, and the line
data pointers advance as if there had been no back pressure. -/
def skip_columns (columns_remaining : Int) (s : State) : State :=
  { s with
    line_data_pointer_0 :=
      (((s.line_data_pointer_0 : Int)
        + columns_remaining * s.line_data_per_column_increments_0) % 65536).toNat
    line_data_pointer_1 :=
      (((s.line_data_pointer_1 : Int)
        + columns_remaining * s.line_data_per_column_increments_1) % 65536).toNat
    output_duration_ := s.output_duration_ + columns_remaining }

/-- The block `if(!pixel_pointer_) { ... }`: the run so far is flushed and a new buffer
is asked of the sink. -/
def allocate_pixels (env : Env) (s : State) : State :=
  if s.pixel_pointer_ = 0 then
    let s := if s.output_duration_ ≠ 0 then set_output_type env .Pixels true s else s
    let pointer := env.begin_data s.begin_data_calls
    { s with
      begin_data_calls := s.begin_data_calls + 1
      pixel_pointer_ := pointer
      allocated_pointer_ := pointer }
  else s

/-- The number of columns the branch `if(allocated_pointer_)` outputs: the local
`output_duration`. -/
def columns_to_output (env : Env) (columns_remaining : Int) (s : State) : Int :=
  min columns_remaining
    (Int.tdiv ((s.allocated_pointer_ : Int) + env.allocation_size - (s.pixel_pointer_ : Int))
      s.column_size_)

/-- The start of the branch `if(allocated_pointer_)` once the local `output_duration` is
computed: the columns are output, and `pixel_pointer_` and `output_duration_` advance. -/
def advance_pixels (output_duration : Int) (s : State) : State :=
  { output_columns output_duration s with
    pixel_pointer_ := ((s.pixel_pointer_ : Int) + output_duration * s.column_size_).toNat
    output_duration_ := s.output_duration_ + output_duration }

/-- The branch `if(allocated_pointer_)` once the local `output_duration` is computed: the
columns are output, and the buffer is flushed when it is full. -/
def output_pixels (env : Env) (output_duration : Int) (s : State) : State :=
  let s := advance_pixels output_duration s
  if (s.pixel_pointer_ : Int) - (s.allocated_pointer_ : Int) = env.allocation_size then
    set_output_type env .Pixels true s
  else s

/-- The loop `while(columns_remaining)` that outputs pixels. A division by a zero
`column_size_` has no result. -/
def pixel_loop (env : Env) : Nat → Int → State → Option State
  | 0, _, _ => none
  | fuel + 1, columns_remaining, s =>
    if columns_remaining ≠ 0 then
      let s := allocate_pixels env s
      if s.allocated_pointer_ ≠ 0 then
        if s.column_size_ = 0 then none
        else
          pixel_loop env fuel (columns_remaining - columns_to_output env columns_remaining s)
            (output_pixels env (columns_to_output env columns_remaining s) s)
      else pixel_loop env fuel 0 (skip_columns columns_remaining s)
    else some s

/-- The end of the body of the loop `while(window < end_window)` of the display modes:
`window = next_event; check_margins(); set_output_type(...)`. -/
def end_event (env : Env) (next : Int) (s : State) : State :=
  let s := check_margins next s
  set_output_type env (if s.is_sync_or_pixels_ then .Pixels else .Border) false s

/-- The loop `while(window < end_window)` of the display modes, from window 10 on. -/
def display_loop (env : Env) : Nat → Int → Int → State → Option State
  | 0, _, _, _ => none
  | fuel + 1, window, end_window, s =>
    if window < end_window then
      let next := next_event window end_window s
      let after_output :=
        if s.is_sync_or_pixels_ then pixel_loop env fuel (next - window) s
        else some { s with output_duration_ := s.output_duration_ + (next - window) }
      match after_output with
      | none => none
      | some s => display_loop env fuel next end_window (end_event env next s)
    else some s

/-- The part of the body of `while(clocks_remaining)` that follows
`if(window == end_window) continue;` and precedes the end-of-line check. -/
def run_windows (env : Env) (fuel : Nat) (window end_window : Int) (s : State) : Option State :=
  let s := if window = 0 then set_output_type env .Sync false s else s
  match line_parameter_loop env fuel window end_window s with
  | none => none
  | some (window, s) =>
    let s := window_4 env window s
    if s.mode_ = .Vsync then
      if window ≥ 4 then vsync_loop env fuel window end_window s else some s
    else
      match burst_loop env fuel window end_window s with
      | none => none
      | some (window, s) =>
        if window ≥ 10 then
          let s :=
            if window = 10 then
              set_output_type env (if s.is_sync_or_pixels_ then .Pixels else .Border) false s
            else s
          display_loop env fuel window end_window s
        else some s

/-- The value the `switch(mode_)` of the end-of-line step leaves in
`line_data_pointer_[0]`: reloaded in the character modes, in attribute mode when VRES is
set and in the pixel modes when VRES is clear. -/
def end_of_line_data_pointer_0 (s : State) : Nat :=
  match s.mode_ with
  | .CH64 | .CH128 | .CH256 => s.start_line_data_pointer_0
  | .Attr => if s.vres_ then s.start_line_data_pointer_0 else s.line_data_pointer_0
  | .Pixel | .LPixel => if ¬ s.vres_ then s.start_line_data_pointer_0 else s.line_data_pointer_0
  | _ => s.line_data_pointer_0

/-- The value the `switch(mode_)` of the end-of-line step leaves in
`line_data_pointer_[1]`: incremented in the character modes. -/
def end_of_line_data_pointer_1 (s : State) : Nat :=
  match s.mode_ with
  | .CH64 | .CH128 | .CH256 => (s.line_data_pointer_1 + 1) % 65536
  | _ => s.line_data_pointer_1

/-- The block `if(!horizontal_counter_) { ... }` that ends `while(clocks_remaining)`:
the end-of-line step. The line count is incremented as a `uint8_t`; when it reaches
zero the line parameters are to be reloaded, from `line_parameter_base_` if the reload
bit is set. -/
def end_of_line (s : State) : State :=
  if s.horizontal_counter_ = 0 then
    let lines_remaining := (s.lines_remaining_ + 1) % 256
    { s with
      lines_remaining_ := lines_remaining
      end_of_line_steps := s.end_of_line_steps + 1
      should_reload_line_parameters_ :=
        if lines_remaining = 0 then true else s.should_reload_line_parameters_
      line_parameter_pointer_ :=
        if lines_remaining = 0 ∧ s.reload_line_parameter_pointer_ = true then
          s.line_parameter_base_
        else s.line_parameter_pointer_
      line_data_pointer_0 := end_of_line_data_pointer_0 s
      line_data_pointer_1 := end_of_line_data_pointer_1 s }
  else s

/-- The loop `while(clocks_remaining)` of `Nick::run_for`. -/
def run_for_loop (env : Env) : Nat → Int → State → Option State
  | 0, _, _ => none
  | fuel + 1, clocks_remaining, s =>
    if clocks_remaining ≠ 0 then
      let clocks_this_line := min clocks_remaining (line_length - s.horizontal_counter_)
      let window := s.horizontal_counter_ >>> (4 : Nat)
      let end_window := (s.horizontal_counter_ + clocks_this_line) >>> (4 : Nat)
      let clocks_remaining := clocks_remaining - clocks_this_line
      let s := { s with
        horizontal_counter_ := Int.tmod (s.horizontal_counter_ + clocks_this_line) line_length }
      if window = end_window then run_for_loop env fuel clocks_remaining s
      else
        match run_windows env fuel window end_window s with
        | none => none
        | some s => run_for_loop env fuel clocks_remaining (end_of_line s)
    else some s

/-- The member `Nick::run_for(duration)`; `fuel` bounds the number of iterations of each
loop, and `none` is returned when a loop has not finished within it. -/
def run_for (env : Env) (fuel : Nat) (duration : Int) (s : State) : Option State :=
  run_for_loop env fuel duration s

/-- The condition on the pixel buffer that `Nick` keeps between the steps of a line: a
buffer is held only while a run of pixels is being accumulated, it is filled in whole
columns, and it is not yet full. -/
def BufferOK (env : Env) (s : State) : Prop :=
  s.pixel_pointer_ ≠ 0 →
    s.allocated_pointer_ ≠ 0 ∧ s.output_type_ = .Pixels ∧ 0 < s.output_duration_ ∧
    s.allocated_pointer_ ≤ s.pixel_pointer_ ∧
    (s.pixel_pointer_ : Int) - (s.allocated_pointer_ : Int) < env.allocation_size ∧
    s.column_size_ ∣ ((s.pixel_pointer_ : Int) - (s.allocated_pointer_ : Int))

/-- The column size is one that `load_slot_0` sets: positive and dividing the allocation. -/
def ColumnSizeOK (env : Env) (s : State) : Prop :=
  0 < s.column_size_ ∧ s.column_size_ ∣ env.allocation_size

/-- Whenever pixels are due, the output type is `Pixels`. -/
def PixelsDue (s : State) : Prop :=
  s.is_sync_or_pixels_ = true → s.output_type_ = .Pixels

/-- The conditions `Nick` keeps between its member calls, on which `run_for`
relies to finish: the horizontal counter is within the line; the pixel buffer is as
`BufferOK` says; the column size is a loaded one, unless the line parameters are still
to be loaded in window 0; and past window 10 of a display line the output type is
`Pixels` whenever pixels are due. -/
structure Consistent (env : Env) (s : State) : Prop where
  counter_nonneg : 0 ≤ s.horizontal_counter_
  counter_lt : s.horizontal_counter_ < line_length
  buffer : BufferOK env s
  column : ColumnSizeOK env s ∨
    (s.should_reload_line_parameters_ = true ∧ s.horizontal_counter_ < 16)
  pixels_due : 176 ≤ s.horizontal_counter_ → s.mode_ ≠ .Vsync → PixelsDue s

/-- The state of the pixel buffer inside the loop that outputs pixels, once a buffer is
held: as `BufferOK`, except that the run may still be empty. -/
def Filling (env : Env) (s : State) : Prop :=
  s.pixel_pointer_ ≠ 0 ∧ s.allocated_pointer_ ≠ 0 ∧ s.output_type_ = .Pixels ∧
    0 ≤ s.output_duration_ ∧ s.allocated_pointer_ ≤ s.pixel_pointer_ ∧
    (s.pixel_pointer_ : Int) - (s.allocated_pointer_ : Int) < env.allocation_size ∧
    s.column_size_ ∣ ((s.pixel_pointer_ : Int) - (s.allocated_pointer_ : Int))

/-- What no step of a line changes once the line's parameters are loaded: the horizontal
counter, the count of end-of-line steps, the column size and the mode. -/
structure SameLine (s s' : State) : Prop where
  counter : s'.horizontal_counter_ = s.horizontal_counter_
  steps : s'.end_of_line_steps = s.end_of_line_steps
  column : s'.column_size_ = s.column_size_
  mode : s'.mode_ = s.mode_

/-- What the theorems assume of `allocation_size`: a positive multiple of 16. -/
def Env.AllocationOK (env : Env) : Prop :=
  0 < env.allocation_size ∧ (16 : Int) ∣ env.allocation_size

/-- A state in which nothing has been output yet: the raster is at the start of a line
whose parameters are still to be loaded, and no buffer is held. -/
def start_state : State :=
  { palette_ := List.replicate 16 (0, 0)
    alt_ind_palettes := [0, 0, 0, 0]
    two_colour_mask_ := 0xff
    border_colour_ := (0, 0)
    line_parameter_base_ := 0
    line_parameter_control_ := 0xc0
    line_parameter_pointer_ := 0
    lines_remaining_ := 0
    should_reload_line_parameters_ := true
    reload_line_parameter_pointer_ := false
    horizontal_counter_ := 0
    interrupt_line_ := true
    mode_ := .Vsync
    bpp_ := 0
    column_size_ := 0
    line_data_per_column_increments_0 := 0
    line_data_per_column_increments_1 := 0
    vres_ := false
    left_margin_ := 0
    right_margin_ := 0
    is_sync_or_pixels_ := false
    start_line_data_pointer_0 := 0
    start_line_data_pointer_1 := 0
    line_data_pointer_0 := 0
    line_data_pointer_1 := 0
    pixel_pointer_ := 0
    allocated_pointer_ := 0
    output_type_ := .Sync
    output_duration_ := 0
    runs := []
    begin_data_calls := 0
    end_of_line_steps := 0
    assertion_failed := false }

/-- An environment for examples: a RAM whose every line parameter table holds a pixel
mode line with margins 11 and 50, a sink that refuses every third buffer, an allocation
of 336 samples, and the modes numbered in the order of their declaration here. -/
def example_env : Env :=
  { ram := fun i =>
      if i % 16 = 0 then 0xfe else if i % 16 = 1 then 0x12 else if i % 16 = 2 then 11
      else if i % 16 = 3 then 50 else i
    begin_data := fun k => if k % 3 = 2 then 0 else 1000 * (k + 1)
    allocation_size := 336
    mode_of_int := fun n =>
      match n with
      | 0 => .Vsync
      | 1 => .Pixel
      | 2 => .Attr
      | 3 => .CH256
      | 4 => .CH128
      | 5 => .CH64
      | 6 => .Unused
      | _ => .LPixel }

/-- The member `Nick::get_next_sequence_point`, as a number of cycles. -/
def get_next_sequence_point (s : State) : Int :=
  let load_point : Int := 2 * 16
  if s.lines_remaining_ ≠ 0 ∨ s.horizontal_counter_ ≥ load_point then
    load_point + (912 - s.horizontal_counter_) + (0xff - (s.lines_remaining_ : Int)) * 912
  else
    load_point - s.horizontal_counter_

/-- An environment for examples in which the interrupt flag differs between mode lines:
the line parameter table at address 0 asks for one line with bit 7 of its second byte
set, and every other table is that of `example_env` with a single line. -/
def interrupt_env : Env :=
  { example_env with
    ram := fun i =>
      if i % 16 = 0 then 0xff else if i = 1 then 0x92 else example_env.ram i }

/-- The output class of each window of a run: a run of `n` cycles covers `n / 16`
windows, all of the run's class. -/
def Run.windows (r : Run) : List OutputType :=
  List.replicate (r.length / 16).toNat r.type

/-- The output class of every window accounted for so far, in order: the windows of the
runs sent to the sink, then those of the run being accumulated in `output_duration_`. -/
def window_classes (s : State) : List OutputType :=
  s.runs.flatMap Run.windows ++ List.replicate s.output_duration_.toNat s.output_type_

/-- What a step of `run_for` does to the record of output classes: it extends it, and
it keeps `output_duration_` from becoming negative. -/
def Grows (s s' : State) : Prop :=
  (∃ L, window_classes s' = window_classes s ++ L) ∧
    (0 ≤ s.output_duration_ → 0 ≤ s'.output_duration_)

/-- The record of output classes when `windows` windows of a line have been accounted
for, `base` being the record when the line began: up to window 4 exactly that many
windows of Sync were added and the run being accumulated is of the class the next
window takes; from window 5 on, the line's part of the record begins with four windows
of Sync, followed in the modes other than Vsync by a window of Blank. -/
structure LineHead (base : List OutputType) (windows : Int) (s : State) : Prop where
  duration_nonneg : 0 ≤ s.output_duration_
  first_four : windows ≤ 4 →
    window_classes s = base ++ List.replicate windows.toNat OutputType.Sync
  pending_sync : 1 ≤ windows → windows ≤ 3 → s.output_type_ = .Sync
  pending_blank : windows = 4 → s.mode_ ≠ .Vsync → s.output_type_ = .Blank
  later : 5 ≤ windows →
    ∃ L, window_classes s
      = base ++ (List.replicate 4 OutputType.Sync
          ++ (if s.mode_ = .Vsync then [] else [OutputType.Blank]) ++ L)

/-- Successive calls `run_for(d)`, one for each duration of a list, every call with the
given fuel. -/
def run_for_each (env : Env) (fuel : Nat) : List Int → State → Option State
  | [], s => some s
  | duration :: rest, s => (run_for env fuel duration s).bind (run_for_each env fuel rest)

/-- The sum of the lengths of all runs sent to the sink so far. -/
def emitted (s : State) : Int :=
  (s.runs.map Run.length).sum

/-- The clocks accounted for so far: those of the runs sent to the sink and the 16 of
each window accumulated in `output_duration_`. -/
def accounted (s : State) : Int :=
  emitted s + 16 * s.output_duration_

/-- A call made of `Nick` from outside: `write(address, value)` or `run_for(duration)`. -/
inductive Call
  | write (address value : Nat)
  | run_for (duration : Int)
  deriving DecidableEq, Repr

/-- The state after one call, every `run_for` with the given fuel. -/
def perform (env : Env) (fuel : Nat) : Call → State → Option State
  | .write address value, s => some (write env address value s)
  | .run_for duration, s => run_for env fuel duration s

/-- The state after a sequence of calls. -/
def run_calls (env : Env) (fuel : Nat) : List Call → State → Option State
  | [], s => some s
  | call :: rest, s => (perform env fuel call s).bind (run_calls env fuel rest)

end Enterprise

/-! ## Definitions: TZX tapes (`TZX.cpp`) -/

namespace Storage.Tape

/-- A byte of a file. -/
abbrev Byte := Fin 256

/-- The C stream `file_`: the bytes of the file, the file position indicator, the
end-of-file indicator and the byte `ungetc` has pushed back, if any. -/
structure File where
  contents : List Byte
  position : Nat
  eof : Bool
  pushed_back : Option Nat
  deriving DecidableEq, Repr

namespace File

/-- The library call `fgetc`: the next byte as an `int`, or `EOF` (-1) with the
end-of-file indicator set. -/
def fgetc (f : File) : Int × File :=
  match f.pushed_back with
  | some b => ((b : Int), { f with pushed_back := none, position := f.position + 1 })
  | none =>
    match f.contents.get? f.position with
    | some b => ((b.val : Int), { f with position := f.position + 1 })
    | none => (-1, { f with eof := true })

/-- The library call `ungetc(c, file)` for a `uint8_t` value `c`. -/
def ungetc (c : Nat) (f : File) : File :=
  { f with pushed_back := some c, position := f.position - 1, eof := false }

/-- The library call `fread(buffer, 1, n, file)`: the bytes read, at most `n`. -/
def fread (n : Nat) (f : File) : List Byte × File :=
  let bytes := (f.contents.drop f.position).take n
  (bytes, { f with position := f.position + bytes.length, eof := f.eof || decide (bytes.length < n) })

/-- The library call `fseek(file, offset, SEEK_SET)` for a non-negative offset. -/
def fseek_set (offset : Nat) (f : File) : File :=
  { f with position := offset, eof := false, pushed_back := none }

/-- The library call `fseek(file, offset, SEEK_CUR)` for a non-negative offset. -/
def fseek_cur (offset : Nat) (f : File) : File :=
  { f with position := f.position + offset, eof := false, pushed_back := none }

/-- The conversion `static_cast<uint8_t>(c)` of the `int` that `fgetc` returns. -/
def to_uint8 (c : Int) : Nat := (c % 256).toNat

/-- The call `static_cast<uint8_t>(fgetc(file_))`. -/
def fgetc8 (f : File) : Nat × File :=
  let (c, f) := fgetc f
  (to_uint8 c, f)

/-- Modelled from the spec: `FileHolder::fgetc16le` is declared outside the sources at
hand; by its name it reads a little-endian 16-bit word, as two `fgetc` calls of which
the first gives the low byte, each converted to `uint16_t`. -/
def fgetc16le (f : File) : Nat × File :=
  let (c0, f) := fgetc f
  let (c1, f) := fgetc f
  ((c0 % 65536).toNat ||| ((c1 * 256) % 65536).toNat, f)

/-- Modelled from the spec: `FileHolder::fgetc32le` is declared outside the sources at
hand; by its name it reads a little-endian 32-bit word, as four `fgetc` calls of which
the first gives the lowest byte, each converted to `uint32_t`. -/
def fgetc32le (f : File) : Nat × File :=
  let (c0, f) := fgetc f
  let (c1, f) := fgetc f
  let (c2, f) := fgetc f
  let (c3, f) := fgetc f
  ((c0 % 2 ^ 32).toNat ||| ((c1 * 2 ^ 8) % 2 ^ 32).toNat ||| ((c2 * 2 ^ 16) % 2 ^ 32).toNat
    ||| ((c3 * 2 ^ 24) % 2 ^ 32).toNat, f)

end File

/-- Modelled from the spec: `FileHolder::BitStream` is declared outside the sources at
hand; it is taken to hand out the bits of successive bytes of the file, here most
significant bit first (the second constructor argument, `false`), fetching a byte with
`fgetc` whenever none of the current byte's bits remain. -/
structure BitStream where
  next_value_ : Nat
  bits_remaining_ : Nat
  deriving DecidableEq, Repr

/-- Modelled from the spec: one bit of a `BitStream`, with the file as it is left. -/
def BitStream.get_bit (b : BitStream) (f : File) : Nat × BitStream × File :=
  let (b, f) :=
    if b.bits_remaining_ = 0 then
      let (c, f) := f.fgetc8
      ({ next_value_ := c, bits_remaining_ := 8 : BitStream }, f)
    else (b, f)
  (b.next_value_ >>> 7,
    { next_value_ := (b.next_value_ <<< 1) % 256, bits_remaining_ := b.bits_remaining_ - 1 }, f)

/-- Modelled from the spec: `BitStream::get_bits(q)`, the next `q` bits packed into a
`uint8_t`, the first bit read being the most significant. -/
def BitStream.get_bits : Nat → Nat → BitStream → File → Nat × BitStream × File
  | 0, result, b, f => (result, b, f)
  | q + 1, result, b, f =>
    let (bit, b, f) := b.get_bit f
    BitStream.get_bits q (((result <<< 1) ||| bit) % 256) b f

/-- The enumeration `Tape::Pulse::Type`, as far as `TZX.cpp` uses it. -/
inductive PulseType
  | High
  | Low
  deriving DecidableEq, Repr

/-- The value `Storage::Time(length, clock_rate)`. -/
structure Time where
  length : Nat
  clock_rate : Nat
  deriving DecidableEq, Repr

/-- A `Tape::Pulse`: its type and its length. -/
structure Pulse where
  type : PulseType
  length : Time
  deriving DecidableEq, Repr

/-- The constant `StandardTZXClock`. -/
def StandardTZXClock : Nat := 3500000

/-- The constant `TZXClockMSMultiplier`. -/
def TZXClockMSMultiplier : Nat := 3500

/-- The struct `TZX::Data`. -/
structure Data where
  length_of_zero_bit_pulse : Nat
  length_of_one_bit_pulse : Nat
  number_of_bits_in_final_byte : Nat
  pause_after_block : Nat
  data_length : Int
  deriving DecidableEq, Repr

/-- The struct `TZX::DataBlock`. -/
structure DataBlock where
  length_of_pilot_pulse : Nat
  length_of_sync_first_pulse : Nat
  length_of_sync_second_pulse : Nat
  length_of_pilot_tone : Nat
  data : Data
  deriving DecidableEq, Repr

/-- The error `TZX::ErrorNotTZX`. -/
inductive Error
  | ErrorNotTZX
  deriving DecidableEq, Repr

/-- The class `TZX`: its stream and its output level, with the state of the base class
`PulseQueuedTape`. Modelled from the spec: `PulseQueuedTape` is declared outside the
sources at hand; it is taken to hold the queue of pulses, to which `emplace_back`
appends, which `clear` empties and of which `empty` tells whether it holds no pulse,
and the at-end flag that `set_is_at_end` sets. -/
structure TZX where
  file_ : File
  current_level_ : Bool
  queue : List Pulse
  is_at_end : Bool
  deriving DecidableEq, Repr

namespace TZX

/-- The member `TZX::post_pulse(const Storage::Time &)`. -/
def post_pulse_time (time : Time) (t : TZX) : TZX :=
  { t with
    queue := t.queue ++ [{ type := if t.current_level_ then .High else .Low, length := time }]
    current_level_ := !t.current_level_ }

/-- The member `TZX::post_pulse(unsigned int length)`. -/
def post_pulse (length : Nat) (t : TZX) : TZX :=
  post_pulse_time ⟨length, StandardTZXClock⟩ t

/-- The member `TZX::post_gap(unsigned int milliseconds)`. -/
def post_gap (milliseconds : Nat) (t : TZX) : TZX :=
  if milliseconds = 0 then t
  else if milliseconds > 1 ∧ t.current_level_ = false then
    let t := post_pulse_time ⟨TZXClockMSMultiplier, StandardTZXClock⟩ t
    post_pulse_time ⟨((milliseconds - 1) * TZXClockMSMultiplier) % 2 ^ 32, StandardTZXClock⟩ t
  else
    post_pulse_time ⟨(milliseconds * TZXClockMSMultiplier) % 2 ^ 32, StandardTZXClock⟩ t

/-- The member `TZX::virtual_reset`. -/
def virtual_reset (t : TZX) : TZX :=
  let t := { t with queue := [] }
  let t := { t with is_at_end := false }
  let t := { t with file_ := t.file_.fseek_set 0x0a }
  let t := { t with current_level_ := false }
  post_gap 500 t

/-- The bytes of the string `"ZXTape!"`. -/
def signature : List Byte := [0x5a, 0x58, 0x54, 0x61, 0x70, 0x65, 0x21]

/-- The constructor `TZX::TZX(file_name)` for a file that `FileHolder` could open, of
the given contents. The array `identifier` is not initialised: `garbage` is what its
seven bytes hold before `fread` overwrites as many of them as it reads. -/
def construct (garbage : List Byte) (contents : List Byte) : Except Error TZX :=
  let file : File := { contents := contents, position := 0, eof := false, pushed_back := none }
  let t : TZX := { file_ := file, current_level_ := false, queue := [], is_at_end := false }
  let (bytes, file) := t.file_.fread signature.length
  let identifier := bytes ++ (garbage.take signature.length).drop bytes.length
  if identifier ≠ signature then .error .ErrorNotTZX
  else
    let (c, file) := file.fgetc
    if c ≠ 0x1a then .error .ErrorNotTZX
    else
      let (major_version, file) := file.fgetc8
      let (minor_version, file) := file.fgetc8
      if major_version ≠ 1 ∨ minor_version > 20 then .error .ErrorNotTZX
      else .ok (virtual_reset { t with file_ := file })

/-- The loop `while(bits--)` of `TZX::get_data`: two pulses per bit of `next_byte`, most
significant bit first, `next_byte` being a `uint8_t`. -/
def post_bits (data : Data) : Nat → Nat → TZX → TZX
  | 0, _, t => t
  | bits + 1, next_byte, t =>
    let pulse_length :=
      if next_byte &&& 0x80 ≠ 0 then data.length_of_one_bit_pulse
      else data.length_of_zero_bit_pulse
    let next_byte := (next_byte <<< 1) % 256
    let t := post_pulse pulse_length t
    let t := post_pulse pulse_length t
    post_bits data bits next_byte t

/-- The loop `for(unsigned int c = 0; c < data.data_length; c++)` of `TZX::get_data`,
with `remaining` iterations still to run from index `c`. -/
def get_data_bytes (data : Data) : Nat → Nat → TZX → TZX
  | 0, _, t => t
  | remaining + 1, c, t =>
    let (next_byte, file) := t.file_.fgetc8
    let t := { t with file_ := file }
    let bits := if (c : Int) ≠ data.data_length - 1 then 8 else data.number_of_bits_in_final_byte
    let t := post_bits data bits next_byte t
    get_data_bytes data remaining (c + 1) t

/-- The member `TZX::get_data`. -/
def get_data (data : Data) (t : TZX) : TZX :=
  let t := get_data_bytes data data.data_length.toNat 0 t
  post_gap data.pause_after_block t

/-- The member `TZX::get_data_block`. -/
def get_data_block (data_block : DataBlock) (t : TZX) : TZX :=
  let t := (List.range data_block.length_of_pilot_tone).foldl
    (fun t _ => post_pulse data_block.length_of_pilot_pulse t) t
  let t := post_pulse data_block.length_of_sync_first_pulse t
  let t := post_pulse data_block.length_of_sync_second_pulse t
  get_data data_block.data t

/-- The member `TZX::get_standard_speed_data_block`. -/
def get_standard_speed_data_block (t : TZX) : TZX :=
  let (pause_after_block, file) := t.file_.fgetc16le
  let (data_length, file) := file.fgetc16le
  let t := { t with file_ := file }
  if data_length = 0 then t
  else
    let (first_byte, file) := t.file_.fgetc8
    let length_of_pilot_tone := if first_byte < 128 then 8063 else 3223
    let t := { t with file_ := file.ungetc first_byte }
    get_data_block
      { length_of_pilot_pulse := 2168
        length_of_sync_first_pulse := 667
        length_of_sync_second_pulse := 735
        length_of_pilot_tone := length_of_pilot_tone
        data :=
          { length_of_zero_bit_pulse := 855
            length_of_one_bit_pulse := 1710
            number_of_bits_in_final_byte := 8
            pause_after_block := pause_after_block
            data_length := (data_length : Int) } } t

/-- The statement `data_length |= static_cast<long>(fgetc(file_) << 16)` on a `long`
holding a 16-bit value: a byte becomes bits 16..23; `EOF` (-1) sets every bit from 16
up, which makes the length negative. -/
def or_shifted_16 (data_length : Nat) (c : Int) : Int :=
  if c < 0 then (data_length : Int) - 65536 else (data_length : Int) + c * 65536

/-- The member `TZX::get_turbo_speed_data_block`. -/
def get_turbo_speed_data_block (t : TZX) : TZX :=
  let (length_of_pilot_pulse, file) := t.file_.fgetc16le
  let (length_of_sync_first_pulse, file) := file.fgetc16le
  let (length_of_sync_second_pulse, file) := file.fgetc16le
  let (length_of_zero_bit_pulse, file) := file.fgetc16le
  let (length_of_one_bit_pulse, file) := file.fgetc16le
  let (length_of_pilot_tone, file) := file.fgetc16le
  let (number_of_bits_in_final_byte, file) := file.fgetc8
  let (pause_after_block, file) := file.fgetc16le
  let (data_length, file) := file.fgetc16le
  let (c, file) := file.fgetc
  get_data_block
    { length_of_pilot_pulse := length_of_pilot_pulse
      length_of_sync_first_pulse := length_of_sync_first_pulse
      length_of_sync_second_pulse := length_of_sync_second_pulse
      length_of_pilot_tone := length_of_pilot_tone
      data :=
        { length_of_zero_bit_pulse := length_of_zero_bit_pulse
          length_of_one_bit_pulse := length_of_one_bit_pulse
          number_of_bits_in_final_byte := number_of_bits_in_final_byte
          pause_after_block := pause_after_block
          data_length := or_shifted_16 data_length c } } { t with file_ := file }

/-- The member `TZX::get_pure_tone_data_block`. -/
def get_pure_tone_data_block (t : TZX) : TZX :=
  let (length_of_pulse, file) := t.file_.fgetc16le
  let (nunber_of_pulses, file) := file.fgetc16le
  (List.range nunber_of_pulses).foldl (fun t _ => post_pulse length_of_pulse t)
    { t with file_ := file }

/-- The member `TZX::get_pure_data_block`. -/
def get_pure_data_block (t : TZX) : TZX :=
  let (length_of_zero_bit_pulse, file) := t.file_.fgetc16le
  let (length_of_one_bit_pulse, file) := file.fgetc16le
  let (number_of_bits_in_final_byte, file) := file.fgetc8
  let (pause_after_block, file) := file.fgetc16le
  let (data_length, file) := file.fgetc16le
  let (c, file) := file.fgetc
  get_data
    { length_of_zero_bit_pulse := length_of_zero_bit_pulse
      length_of_one_bit_pulse := length_of_one_bit_pulse
      number_of_bits_in_final_byte := number_of_bits_in_final_byte
      pause_after_block := pause_after_block
      data_length := or_shifted_16 data_length c } { t with file_ := file }

/-- The member `TZX::get_pulse_sequence`. -/
def get_pulse_sequence (t : TZX) : TZX :=
  let (number_of_pulses, file) := t.file_.fgetc8
  (List.range number_of_pulses).foldl
    (fun t _ =>
      let (length, file) := t.file_.fgetc16le
      post_pulse length { t with file_ := file })
    { t with file_ := file }

/-- The member `TZX::get_pause`. -/
def get_pause (t : TZX) : TZX :=
  let (duration, file) := t.file_.fgetc16le
  let t := { t with file_ := file }
  if duration = 0 then t else post_gap duration t

/-- The local struct `Symbol` of `TZX::get_generalised_segment`. -/
structure Symbol where
  flags : Nat
  pulse_lengths : List Nat
  deriving DecidableEq, Repr

/-- The inner loop that reads the `max_pulses_per_symbol` pulse lengths of a symbol. -/
def read_pulse_lengths : Nat → File → List Nat × File
  | 0, f => ([], f)
  | n + 1, f =>
    let (length, f) := f.fgetc16le
    let (rest, f) := read_pulse_lengths n f
    (length :: rest, f)

/-- The loop that constructs the symbol table. -/
def read_symbol_table (max_pulses_per_symbol : Nat) : Nat → File → List Symbol × File
  | 0, f => ([], f)
  | n + 1, f =>
    let (flags, f) := f.fgetc8
    let (pulse_lengths, f) := read_pulse_lengths max_pulses_per_symbol f
    let (rest, f) := read_symbol_table max_pulses_per_symbol n f
    ({ flags := flags, pulse_lengths := pulse_lengths } :: rest, f)

/-- The loop `while(base < number_of_symbols) { base <<= 1; bits++; }`, which a
`uint8_t` number of symbols ends within seven rounds; `rounds` bounds them. -/
def symbol_bits (number_of_symbols : Nat) : Nat → Nat → Nat → Nat
  | 0, _, bits => bits
  | rounds + 1, base, bits =>
    if base < number_of_symbols then symbol_bits number_of_symbols rounds (base <<< 1) (bits + 1)
    else bits

/-- The loop `for(auto length : symbol.pulse_lengths)`, left at the first zero length. -/
def post_waves : List Nat → TZX → TZX
  | [], t => t
  | length :: rest, t => if length = 0 then t else post_waves rest (post_pulse length t)

/-- The loop `while(count--)`: the output level is set from the symbol's flags, then its
waves are output. -/
def post_symbol (symbol : Symbol) : Nat → TZX → TZX
  | 0, t => t
  | count + 1, t =>
    let t :=
      if symbol.flags &&& 3 = 0 then t
      else if symbol.flags &&& 3 = 1 then { t with current_level_ := !t.current_level_ }
      else if symbol.flags &&& 3 = 2 then { t with current_level_ := true }
      else { t with current_level_ := false }
    post_symbol symbol count (post_waves symbol.pulse_lengths t)

/-- The loop `for(size_t c = 0; c < output_symbols; c++)`. An index one past the end of
the symbol table, which the test `symbol_value > number_of_symbols` lets through, has no
defined result; it is given a symbol without pulses. -/
def output_symbols_loop (symbol_table : List Symbol) (number_of_symbols bits : Nat)
    (is_data : Bool) : Nat → BitStream → TZX → TZX
  | 0, _, t => t
  | remaining + 1, stream, t =>
    let (symbol_value, count, stream, file) :=
      if is_data then
        let (v, stream, file) := BitStream.get_bits bits 0 stream t.file_
        (v, 1, stream, file)
      else
        let (v, file) := t.file_.fgetc8
        let (count, file) := file.fgetc16le
        (v, count, stream, file)
    let t := { t with file_ := file }
    if symbol_value > number_of_symbols then
      output_symbols_loop symbol_table number_of_symbols bits is_data remaining stream t
    else
      let symbol := symbol_table.getD symbol_value { flags := 0, pulse_lengths := [] }
      let t := post_symbol symbol count t
      output_symbols_loop symbol_table number_of_symbols bits is_data remaining stream t

/-- The member `TZX::get_generalised_segment`. -/
def get_generalised_segment (output_symbols max_pulses_per_symbol number_of_symbols : Nat)
    (is_data : Bool) (t : TZX) : TZX :=
  if output_symbols = 0 then t
  else
    let (symbol_table, file) := read_symbol_table max_pulses_per_symbol number_of_symbols t.file_
    let t := { t with file_ := file }
    let bits := symbol_bits number_of_symbols 8 2 1
    output_symbols_loop symbol_table number_of_symbols bits is_data output_symbols
      { next_value_ := 0, bits_remaining_ := 0 } t

/-- The member `TZX::get_generalised_data_block`. -/
def get_generalised_data_block (t : TZX) : TZX :=
  let (block_length, file) := t.file_.fgetc32le
  let endpoint := file.position + block_length
  let (pause_after_block, file) := file.fgetc16le
  let (total_pilot_symbols, file) := file.fgetc32le
  let (maximum_pulses_per_pilot_symbol, file) := file.fgetc8
  let (symbols_in_pilot_table, file) := file.fgetc8
  let (total_data_symbols, file) := file.fgetc32le
  let (maximum_pulses_per_data_symbol, file) := file.fgetc8
  let (symbols_in_data_table, file) := file.fgetc8
  let t := { t with file_ := file }
  let t := get_generalised_segment total_pilot_symbols maximum_pulses_per_pilot_symbol
    symbols_in_pilot_table false t
  let t := get_generalised_segment total_data_symbols maximum_pulses_per_data_symbol
    symbols_in_data_table true t
  let t := post_gap pause_after_block t
  { t with file_ := t.file_.fseek_set endpoint }

/-- The member `TZX::ignore_group_start`. -/
def ignore_group_start (t : TZX) : TZX :=
  let (length, file) := t.file_.fgetc8
  { t with file_ := file.fseek_cur length }

/-- The member `TZX::ignore_group_end`. -/
def ignore_group_end (t : TZX) : TZX := t

/-- The member `TZX::ignore_jump_to_block`. -/
def ignore_jump_to_block (t : TZX) : TZX :=
  let (_, file) := t.file_.fgetc16le
  { t with file_ := file }

/-- The member `TZX::ignore_loop_start`. -/
def ignore_loop_start (t : TZX) : TZX :=
  let (_, file) := t.file_.fgetc16le
  { t with file_ := file }

/-- The member `TZX::ignore_loop_end`. -/
def ignore_loop_end (t : TZX) : TZX := t

/-- The member `TZX::ignore_call_sequence`. -/
def ignore_call_sequence (t : TZX) : TZX :=
  let (number_of_entries, file) := t.file_.fgetc16le
  { t with file_ := file.fseek_cur (number_of_entries * 2) }

/-- The member `TZX::ignore_return_from_sequence`. -/
def ignore_return_from_sequence (t : TZX) : TZX := t

/-- The member `TZX::ignore_select_block`. -/
def ignore_select_block (t : TZX) : TZX :=
  let (length_of_block, file) := t.file_.fgetc16le
  { t with file_ := file.fseek_cur length_of_block }

/-- The member `TZX::ignore_text_description`. -/
def ignore_text_description (t : TZX) : TZX :=
  let (length, file) := t.file_.fgetc8
  { t with file_ := file.fseek_cur length }

/-- The member `TZX::ignore_message_block`. -/
def ignore_message_block (t : TZX) : TZX :=
  let (_, file) := t.file_.fgetc8
  let (length, file) := file.fgetc8
  { t with file_ := file.fseek_cur length }

/-- The member `TZX::get_hardware_type`. -/
def get_hardware_type (t : TZX) : TZX :=
  let (number_of_machines, file) := t.file_.fgetc8
  { t with file_ := file.fseek_cur (number_of_machines * 3) }

/-- The `switch(chunk_id)` of `TZX::get_next_pulses`: the member each `case` calls, and
`none` for `default`. -/
def block_handler (chunk_id : Nat) : Option (TZX → TZX) :=
  if chunk_id = 0x10 then some get_standard_speed_data_block
  else if chunk_id = 0x11 then some get_turbo_speed_data_block
  else if chunk_id = 0x12 then some get_pure_tone_data_block
  else if chunk_id = 0x13 then some get_pulse_sequence
  else if chunk_id = 0x14 then some get_pure_data_block
  else if chunk_id = 0x19 then some get_generalised_data_block
  else if chunk_id = 0x20 then some get_pause
  else if chunk_id = 0x21 then some ignore_group_start
  else if chunk_id = 0x22 then some ignore_group_end
  else if chunk_id = 0x23 then some ignore_jump_to_block
  else if chunk_id = 0x24 then some ignore_loop_start
  else if chunk_id = 0x25 then some ignore_loop_end
  else if chunk_id = 0x26 then some ignore_call_sequence
  else if chunk_id = 0x27 then some ignore_return_from_sequence
  else if chunk_id = 0x28 then some ignore_select_block
  else if chunk_id = 0x30 then some ignore_text_description
  else if chunk_id = 0x31 then some ignore_message_block
  else if chunk_id = 0x33 then some get_hardware_type
  else none

/-- The member `TZX::get_next_pulses`; `fuel` bounds the rounds of `while(empty())`,
and `none` is returned when the loop has not finished within it. -/
def get_next_pulses : Nat → TZX → Option TZX
  | 0, _ => none
  | fuel + 1, t =>
    if t.queue.isEmpty then
      let (chunk_id, file) := t.file_.fgetc8
      let t := { t with file_ := file }
      if t.file_.eof then some { t with is_at_end := true }
      else
        match block_handler chunk_id with
        | some handler => get_next_pulses fuel (handler t)
        | none => some { t with is_at_end := true }
    else some t

/-- The header the claim describes: the first seven bytes are `"ZXTape!"`, the eighth is
`0x1a`, the ninth (major version) is 1 and the tenth (minor version) is at most 20. -/
def valid_header (contents : List Byte) : Prop :=
  contents.take 7 = signature ∧ contents.get? 7 = some 0x1a ∧ contents.get? 8 = some 1 ∧
    ∃ minor : Byte, contents.get? 9 = some minor ∧ minor.val ≤ 20

/-- The block IDs the claim lists as recognised. -/
def recognised_block_ids : List Nat :=
  [0x10, 0x11, 0x12, 0x13, 0x14, 0x19, 0x20, 0x21, 0x22, 0x23, 0x24, 0x25, 0x26, 0x27, 0x28,
    0x30, 0x31, 0x33]

/-- The first `n` bits of a byte, most significant first; bits beyond the eighth are 0. -/
def byte_bits (n : Nat) (byte : Nat) : List Bool :=
  (List.range n).map (fun i => decide (i < 8) && byte.testBit (7 - i))

/-- The bits a data section takes from its bytes, as the claim words it: eight of every
byte but the last and `k` of the last, most significant first. -/
def data_bits (k : Nat) : List Nat → List Bool
  | [] => []
  | [last] => byte_bits k last
  | b :: rest => byte_bits 8 b ++ data_bits k rest

/-- The pulses queued for a sequence of lengths from a given level on: the levels
alternate, `High` standing for a true level. -/
def alternating_pulses : Bool → List Nat → List Pulse
  | _, [] => []
  | level, length :: rest =>
    { type := if level then .High else .Low, length := ⟨length, StandardTZXClock⟩ }
      :: alternating_pulses (!level) rest

/-- The output level after `n` pulses have been queued from the given level on: each
pulse inverts it. -/
def level_after (level : Bool) (n : Nat) : Bool :=
  if n % 2 = 0 then level else !level

/-- The pulse lengths of a data section, as the claim words them: each bit gives two
pulses of equal length, the one-bit length for a 1 and the zero-bit length for a 0. -/
def data_pulse_lengths (data : Data) (bits : List Bool) : List Nat :=
  bits.flatMap (fun bit =>
    if bit then [data.length_of_one_bit_pulse, data.length_of_one_bit_pulse]
    else [data.length_of_zero_bit_pulse, data.length_of_zero_bit_pulse])

/-- The next `n` bytes `fgetc` yields from a file, each as `static_cast<uint8_t>` gives
it. -/
def next_bytes : Nat → File → List Nat
  | 0, _ => []
  | n + 1, f => f.fgetc8.1 :: next_bytes n f.fgetc8.2

/-- The file after `n` calls of `fgetc`. -/
def after_bytes : Nat → File → File
  | 0, f => f
  | n + 1, f => after_bytes n f.fgetc8.2

/-- The level that the `switch(symbol.flags & 3)` of `get_generalised_segment` leaves in
`current_level_`, which is the level of the symbol's first pulse. -/
def symbol_first_level (flags : Nat) (current_level : Bool) : Bool :=
  if flags &&& 3 = 0 then current_level
  else if flags &&& 3 = 1 then !current_level
  else if flags &&& 3 = 2 then true
  else false

/-- The pulse lengths a symbol outputs: those before its first zero length. -/
def symbol_waves (symbol : Symbol) : List Nat :=
  symbol.pulse_lengths.takeWhile (fun length => length ≠ 0)

/-- The pulses of a gap of the given number of milliseconds, a millisecond being 3500
ticks of the 3.5 MHz clock, when the next pulse is due at the given level (`true` for
High): one pulse of the whole length; or, when the gap is longer than 1 ms and starts
Low, a Low pulse of 1 ms and a High pulse of the rest. -/
def gap_pulses (level : Bool) (milliseconds : Nat) : List Pulse :=
  if milliseconds = 0 then []
  else if milliseconds > 1 ∧ level = false then
    [{ type := .Low, length := ⟨3500, 3500000⟩ },
     { type := .High, length := ⟨(milliseconds - 1) * 3500, 3500000⟩ }]
  else
    [{ type := if level then .High else .Low, length := ⟨milliseconds * 3500, 3500000⟩ }]

end TZX

end Storage.Tape

/-! ## Amstrad CPC static analyser (`StaticAnalyser/AmstradCPC/StaticAnalyser.cpp`) -/

namespace StaticAnalyser

namespace AmstradCPC

/-- Modelled from the spec: `Storage::Disk::CPM::File` is declared in `CPM.hpp`, outside
the sources at hand; the analyser uses its members `name` and `type`, both
`std::string`, and `data`, a vector of bytes. -/
structure File where
  name : String
  type : String
  data : List Nat
  deriving DecidableEq, Repr

/-- The characters of `s.c_str()` as a C string sees them: those before the first NUL. -/
def c_str (s : String) : List Char :=
  s.toList.takeWhile (fun c => c ≠ Char.ofNat 0)

/-- The loop `while(*a)` of `strcmp_insensitive`, on two C strings of equal length. Were
`b` the shorter, the character read from it would be its terminating NUL, which no
character of `a` equals. -/
def compare_insensitive : List Char → List Char → Bool
  | [], _ => true
  | _ :: _, [] => false
  | x :: a, y :: b => if x.toLower ≠ y.toLower then false else compare_insensitive a b

/-- The function `strcmp_insensitive`, on the characters of its two C strings. -/
def strcmp_insensitive (a b : List Char) : Bool :=
  if a.length ≠ b.length then false else compare_insensitive a b

/-- The function `RunCommandFor`: `run"`, the file name and a newline. -/
def RunCommandFor (file : File) : String :=
  "run" ++ String.singleton (Char.ofNat 0x22) ++ file.name ++ "\n"

/-- The locals of `InspectDataCatalogue` that its loop updates. The counters are `int`s
in the source; a catalogue holds far fewer than `2^31` files. -/
structure Counts where
  basic_files : Nat
  implicit_suffixed_files : Nat
  last_basic_file : Nat
  last_implicit_suffixed_file : Nat
  deriving DecidableEq, Repr

/-- The test `type == "   " && name == "        "` of the loop: a file with nothing but
spaces in its name. -/
def is_blank (file : File) : Bool :=
  decide (file.type = "   ") && decide (file.name = "        ")

/-- The test `data.size() >= 128 && !((data[18] >> 1) & 7)` of the loop. -/
def is_basic (file : File) : Bool :=
  decide (file.data.length ≥ 128) && decide ((file.data.getD 18 0 >>> 1) &&& 7 = 0)

/-- The test of the loop for a suffix that may be omitted: `type == "   "`, or
`strcmp_insensitive` of the type with `"BAS"` or with `"BIN"`. -/
def is_implicit_suffixed (file : File) : Bool :=
  decide (file.type = "   ") ||
    strcmp_insensitive (c_str file.type) ['B', 'A', 'S'] ||
    strcmp_insensitive (c_str file.type) ['B', 'I', 'N']

/-- The loop `for(size_t c = 0; c < catalogue.files.size(); c++)` of
`InspectDataCatalogue`, over the files from index `c` on. -/
def inspect_loop : List File → Nat → Counts → Counts
  | [], _, counts => counts
  | file :: rest, c, counts =>
    if is_blank file then inspect_loop rest (c + 1) counts
    else
      let counts :=
        if is_basic file then
          { counts with basic_files := counts.basic_files + 1, last_basic_file := c }
        else counts
      let counts :=
        if is_implicit_suffixed file then
          { counts with
            implicit_suffixed_files := counts.implicit_suffixed_files + 1
            last_implicit_suffixed_file := c }
        else counts
      inspect_loop rest (c + 1) counts

/-- The function `InspectDataCatalogue`: the value it leaves in `target.loadingCommand`
for a catalogue of the given files. An index outside the catalogue has no result. -/
def InspectDataCatalogue (files : List File) : Option String :=
  if files.length = 1 then files[0]?.map RunCommandFor
  else
    let counts := inspect_loop files 0
      { basic_files := 0, implicit_suffixed_files := 0, last_basic_file := 0,
        last_implicit_suffixed_file := 0 }
    if counts.basic_files = 1 ∨ counts.implicit_suffixed_files = 1 then
      let selected_file :=
        if counts.basic_files = 1 then counts.last_basic_file
        else counts.last_implicit_suffixed_file
      files[selected_file]?.map RunCommandFor
    else some "cat\n"

/-- The claim's "potentially BASIC": at least 128 bytes of data, and bits 1, 2 and 3 of
data byte 18 all zero. -/
def potentially_basic (file : File) : Bool :=
  decide (128 ≤ file.data.length) &&
    !(file.data.getD 18 0).testBit 1 && !(file.data.getD 18 0).testBit 2 &&
    !(file.data.getD 18 0).testBit 3

/-- The claim's "suffix AMSDOS allows to be omitted": a type of three spaces, or `BAS`
or `BIN` in any letter case. -/
def omissible_suffix (file : File) : Bool :=
  decide (file.type = "   ") ||
    decide (file.type.toList.map Char.toLower = ['b', 'a', 's']) ||
    decide (file.type.toList.map Char.toLower = ['b', 'i', 'n'])

/-- The text of a run command as the claim gives it: the four characters `run"`, the
name, and a newline. -/
def run_command_text (name : String) : String :=
  String.mk (['r', 'u', 'n', Char.ofNat 0x22] ++ name.toList ++ [Char.ofNat 0x0a])

/-- The rule of the claim for the loading command, over the files the analyser counts
(those whose name is not all spaces): the run command for the one potentially BASIC
file if there is exactly one, otherwise the run command for the one file with an
omissible suffix if there is exactly one, otherwise `cat` and a newline. -/
def loading_command_rule (files : List File) : String :=
  match (files.filter (fun f => !is_blank f)).filter potentially_basic with
  | [file] => run_command_text file.name
  | _ =>
    match (files.filter (fun f => !is_blank f)).filter omissible_suffix with
    | [file] => run_command_text file.name
    | _ => String.mk ['c', 'a', 't', Char.ofNat 0x0a]

/-- What the loop of `InspectDataCatalogue` keeps for one of its two tests `p`: the
number of counted files that pass it, and the index of the last of them. -/
def count_and_last (p : File → Bool) : List File → Nat → Nat × Nat → Nat × Nat
  | [], _, result => result
  | file :: rest, c, (count, last) =>
    count_and_last p rest (c + 1)
      (if !is_blank file && p file then (count + 1, c) else (count, last))

/-- The locals of `InspectDataCatalogue` once its loop has run over the whole
catalogue. -/
def catalogue_counts (files : List File) : Counts :=
  inspect_loop files 0
    { basic_files := 0, implicit_suffixed_files := 0, last_basic_file := 0,
      last_implicit_suffixed_file := 0 }

/-- The local `selected_file` of `InspectDataCatalogue`. -/
def selected_file (counts : Counts) : Nat :=
  if counts.basic_files = 1 then counts.last_basic_file
  else counts.last_implicit_suffixed_file

/-- The loop `for(size_t c = 1; c < 64; c++)` of `InspectSystemCatalogue`, with
`remaining` iterations to run from index `c`: the value it leaves in `matched`, the loop
being left at the first byte that differs from byte 0. A read beyond the sector's data
has no result. -/
def first_bytes_match (data : List Nat) : Nat → Nat → Option Bool
  | 0, _ => some true
  | remaining + 1, c =>
    match data[c]?, data[0]? with
    | some x, some y =>
      if x ≠ y then some false else first_bytes_match data remaining (c + 1)
    | _, _ => none

/-- The function `InspectSystemCatalogue`: the value it leaves in
`target.loadingCommand`. The MFM parser is outside the sources at hand, so what
`parser.get_sector(0, 0, 0x41)` returned is taken as given: `none` for `nullptr`, and
otherwise the data of the boot sector. -/
def InspectSystemCatalogue (boot_sector : Option (List Nat)) (files : List File) :
    Option String :=
  match boot_sector with
  | some data =>
    match first_bytes_match data 63 1 with
    | none => none
    | some matched => if !matched then some "|cpm\n" else InspectDataCatalogue files
  | none => InspectDataCatalogue files

end AmstradCPC

end StaticAnalyser

/-! ## M68k instruction descriptions (`InstructionSets/M68k/Instruction.cpp`) -/

namespace InstructionSet

namespace M68k

/-- Modelled from the spec: `AddressingMode` is declared in `Instruction.hpp`, outside
the sources at hand. These are the enumerators that `operand_description` names; `other`
stands for any further value of the enumeration. -/
inductive AddressingMode
  | None
  | DataRegisterDirect
  | AddressRegisterDirect
  | AddressRegisterIndirect
  | AddressRegisterIndirectWithPostincrement
  | AddressRegisterIndirectWithPredecrement
  | AddressRegisterIndirectWithDisplacement
  | AddressRegisterIndirectWithIndex8bitDisplacement
  | ProgramCounterIndirectWithDisplacement
  | ProgramCounterIndirectWithIndex8bitDisplacement
  | AbsoluteShort
  | AbsoluteLong
  | ImmediateData
  | Quick
  | other (value : Nat)
  deriving DecidableEq, Repr

/-- The library call `std::to_string(int)`: the decimal digits, after a minus sign for a
negative value. -/
def to_string (value : Int) : String := toString value

/-- The member `Preinstruction::operand_description(index, opcode)`: the text returned,
and whether `assert(false)` was reached; with assertions compiled out, control falls
from `default:` into `case AddressingMode::None`. The members `mode(index)` and
`reg(index)` and the function `quick` are declared in `Instruction.hpp`: `mode` and
`reg` are the values of the first two for the index, and `quick` is the value of
`quick(uint16_t(opcode), operation)`. -/
def operand_description (mode : AddressingMode) (reg opcode quick : Int) : String × Bool :=
  match mode with
  | .other _ => ("", true)
  | .None => ("", false)
  | .DataRegisterDirect => ("D" ++ to_string reg, false)
  | .AddressRegisterDirect => ("A" ++ to_string reg, false)
  | .AddressRegisterIndirect => ("(A" ++ to_string reg ++ ")", false)
  | .AddressRegisterIndirectWithPostincrement => ("(A" ++ to_string reg ++ ")+", false)
  | .AddressRegisterIndirectWithPredecrement => ("-(A" ++ to_string reg ++ ")", false)
  | .AddressRegisterIndirectWithDisplacement => ("(d16, A" ++ to_string reg ++ ")", false)
  | .AddressRegisterIndirectWithIndex8bitDisplacement =>
    ("(d8, A" ++ to_string reg ++ ", Xn)", false)
  | .ProgramCounterIndirectWithDisplacement => ("(d16, PC)", false)
  | .ProgramCounterIndirectWithIndex8bitDisplacement => ("(d8, PC, Xn)", false)
  | .AbsoluteShort => ("(xxx).w", false)
  | .AbsoluteLong => ("(xxx).l", false)
  | .ImmediateData => ("#", false)
  | .Quick => if opcode = -1 then ("Q", false) else (to_string quick, false)

end M68k

end InstructionSet

/-! ## Theorems: Amiga chipset -/

namespace Amiga

theorem or_eq_add_of_lt_pow (i a b : Nat) (hb : b < 2 ^ i) : 2 ^ i * a ||| b = 2 ^ i * a + b :=
  (Nat.mul_add_lt_is_or hb a).symm

set_option maxRecDepth 100000 in
theorem and_masks_high : ∀ p < 256, (2 ^ 8 * p) &&& 0xff00 = 2 ^ 8 * p ∧ (2 ^ 8 * p) &&& 0x00ff = 0 := by
  decide

set_option maxRecDepth 100000 in
theorem and_masks_low : ∀ p < 256, p &&& 0xff00 = 0 ∧ p &&& 0x00ff = p := by
  decide

theorem low_res_expand (p0 p1 : Nat) (h0 : p0 < 256) (h1 : p1 < 256) :
    (let result := 2 ^ 8 * p0 + p1
     let result := (((result &&& 0xff00) <<< 8) % 2 ^ 32) ||| (result &&& 0x00ff)
     result ||| ((result <<< 8) % 2 ^ 32))
      = p0 * 2 ^ 24 + p0 * 2 ^ 16 + p1 * 2 ^ 8 + p1 := by
  have e1 : (2 ^ 8 * p0 + p1) &&& 0xff00 = 2 ^ 8 * p0 := by
    rw [← or_eq_add_of_lt_pow 8 p0 p1 (by omega), Nat.and_distrib_right,
      (and_masks_high p0 h0).1, (and_masks_low p1 h1).1, Nat.or_zero]
  have e2 : (2 ^ 8 * p0 + p1) &&& 0x00ff = p1 := by
    rw [← or_eq_add_of_lt_pow 8 p0 p1 (by omega), Nat.and_distrib_right,
      (and_masks_high p0 h0).2, (and_masks_low p1 h1).2, Nat.zero_or]
  simp only [e1, e2, Nat.shiftLeft_eq]
  have e3 : 2 ^ 8 * p0 * 2 ^ 8 % 2 ^ 32 = 2 ^ 16 * p0 := by omega
  rw [e3, or_eq_add_of_lt_pow 16 p0 p1 (by omega)]
  have e4 : (2 ^ 16 * p0 + p1) * 2 ^ 8 % 2 ^ 32 = 2 ^ 8 * (2 ^ 16 * p0 + p1) := by omega
  rw [e4]
  have e5 : 2 ^ 8 * (2 ^ 16 * p0 + p1) = 2 ^ 24 * p0 + 2 ^ 8 * p1 := by omega
  rw [e5, ← or_eq_add_of_lt_pow 16 p0 p1 (by omega),
    ← or_eq_add_of_lt_pow 24 p0 (2 ^ 8 * p1) (by omega)]
  have e6 : (2 ^ 16 * p0 ||| p1) ||| (2 ^ 24 * p0 ||| 2 ^ 8 * p1)
      = 2 ^ 24 * p0 ||| (2 ^ 16 * p0 ||| (2 ^ 8 * p1 ||| p1)) := by ac_rfl
  rw [e6, or_eq_add_of_lt_pow 8 p1 p1 (by omega),
    or_eq_add_of_lt_pow 16 p0 _ (by omega), or_eq_add_of_lt_pow 24 p0 _ (by omega)]
  omega


/-- C3: `shift` is a left shift of the 128-bit register by 16 bits in low resolution and
by 32 bits in high resolution (two or four one-byte pixels), modulo `2^128`, zeros
coming in at the bottom. -/
theorem BitplaneShifter_shift_is_128_bit_shift (s : BitplaneShifter) (high_res : Bool)
    (h : s.WellFormed) :
    (s.shift high_res).register
        = (s.register * 2 ^ (if high_res then 32 else 16)) % 2 ^ 128 ∧
      (s.shift high_res).WellFormed := by
  obtain ⟨h0, h1⟩ := h
  cases high_res
  · simp only [BitplaneShifter.shift, BitplaneShifter.shifts, BitplaneShifter.register,
      BitplaneShifter.WellFormed, Nat.shiftLeft_eq, Nat.shiftRight_eq_div_pow, Bool.false_eq_true,
      if_false]
    have e1 : s.data_1 * 2 ^ 16 % 2 ^ 64 = 2 ^ 16 * (s.data_1 % 2 ^ 48) := by omega
    have e2 : s.data_0 / 2 ^ (64 - 16) < 2 ^ 16 := by omega
    rw [e1, or_eq_add_of_lt_pow 16 _ _ e2]
    omega
  · simp only [BitplaneShifter.shift, BitplaneShifter.shifts, BitplaneShifter.register,
      BitplaneShifter.WellFormed, Nat.shiftLeft_eq, Nat.shiftRight_eq_div_pow, if_true]
    have e1 : s.data_1 * 2 ^ 32 % 2 ^ 64 = 2 ^ 32 * (s.data_1 % 2 ^ 32) := by omega
    have e2 : s.data_0 / 2 ^ (64 - 32) < 2 ^ 32 := by omega
    rw [e1, or_eq_add_of_lt_pow 32 _ _ e2]
    omega

/-- A witness of C3: the register `0x0123456789abcdef_fedcba9876543210` in low resolution. -/
theorem BitplaneShifter_shift_is_128_bit_shift_witness :
    (BitplaneShifter.shift ⟨0xfedcba9876543210, 0x0123456789abcdef⟩ false).register
      = (BitplaneShifter.register ⟨0xfedcba9876543210, 0x0123456789abcdef⟩
          * 2 ^ (if false then 32 else 16)) % 2 ^ 128 ∧
      (BitplaneShifter.shift ⟨0xfedcba9876543210, 0x0123456789abcdef⟩ false).WellFormed :=
  BitplaneShifter_shift_is_128_bit_shift ⟨0xfedcba9876543210, 0x0123456789abcdef⟩ false
    ⟨by decide, by decide⟩

/-- C4: `get` returns bits 63..32 of `data_[1]` in high resolution; in low resolution,
with `p0` bits 63..56 and `p1` bits 55..48 of `data_[1]`, it returns the bytes
`p0, p0, p1, p1` from most to least significant; it never modifies the register. -/
theorem BitplaneShifter_get_returns_next_pixels (s : BitplaneShifter) :
    (s.get true).1 = s.data_1 / 2 ^ 32 % 2 ^ 32 ∧
    (s.get false).1
        = (s.data_1 / 2 ^ 56 % 2 ^ 8) * 2 ^ 24 + (s.data_1 / 2 ^ 56 % 2 ^ 8) * 2 ^ 16
          + (s.data_1 / 2 ^ 48 % 2 ^ 8) * 2 ^ 8 + (s.data_1 / 2 ^ 48 % 2 ^ 8) ∧
    (∀ high_res, (s.get high_res).2 = s) := by
  refine ⟨by simp [BitplaneShifter.get, Nat.shiftRight_eq_div_pow], ?_, ?_⟩
  · have e : s.data_1 >>> 48 % 2 ^ 16
        = 2 ^ 8 * (s.data_1 / 2 ^ 56 % 2 ^ 8) + (s.data_1 / 2 ^ 48 % 2 ^ 8) := by
      rw [Nat.shiftRight_eq_div_pow]; omega
    have := low_res_expand (s.data_1 / 2 ^ 56 % 2 ^ 8) (s.data_1 / 2 ^ 48 % 2 ^ 8)
      (by omega) (by omega)
    simp only [BitplaneShifter.get, Bool.false_eq_true, if_false, e]
    exact this
  · intro high_res; cases high_res <;> simp [BitplaneShifter.get]

theorem TwoSpriteShifter_shift_eq (s : TwoSpriteShifter) (ho : s.overflow_ < 256) :
    s.shift = ⟨(s.data_ * 256) % 2 ^ 64 + s.overflow_, 0⟩ := by
  simp only [TwoSpriteShifter.shift, Nat.shiftLeft_eq]
  have e1 : s.data_ * 2 ^ 8 % 2 ^ 64 = 2 ^ 8 * (s.data_ % 2 ^ 56) := by omega
  rw [e1, or_eq_add_of_lt_pow 8 _ _ (by omega)]
  congr 1
  omega

theorem TwoSpriteShifter_iterate_shift (s : TwoSpriteShifter) (ho : s.overflow_ < 256) (k : Nat) :
    TwoSpriteShifter.shift^[k + 1] s
      = ⟨(s.data_ * 256 ^ (k + 1) + s.overflow_ * 256 ^ k) % 2 ^ 64, 0⟩ := by
  induction k with
  | zero =>
    simp only [Function.iterate_succ, Function.iterate_zero, Function.comp, id,
      TwoSpriteShifter_shift_eq s ho]
    congr 1
    omega
  | succ k ih =>
    rw [Function.iterate_succ_apply', ih, TwoSpriteShifter_shift_eq _ (by simp)]
    congr 1
    simp only [Nat.add_zero]
    rw [Nat.mod_mul_mod]
    congr 1
    ring

/-- C5: with data bytes `d7..d0` and overflow byte `o` and no intervening load, `get`
returns `d7`, after `k` shifts it returns `d(7-k)` for `1 ≤ k ≤ 7`, `o` for `k = 8`
and `0` for `k ≥ 9`; each shift moves the register up one byte, puts the previous
overflow in the lowest byte and clears the overflow. -/
theorem TwoSpriteShifter_get_after_shifts (s : TwoSpriteShifter) (ho : s.overflow_ < 2 ^ 8) :
    s.get = TwoSpriteShifter.byte s.data_ 7 ∧
    (∀ k, 1 ≤ k → k ≤ 7 →
      (TwoSpriteShifter.shift^[k] s).get = TwoSpriteShifter.byte s.data_ (7 - k)) ∧
    (TwoSpriteShifter.shift^[8] s).get = s.overflow_ ∧
    (∀ k, 9 ≤ k → (TwoSpriteShifter.shift^[k] s).get = 0) ∧
    (∀ i, i < 7 →
      TwoSpriteShifter.byte s.shift.data_ (i + 1) = TwoSpriteShifter.byte s.data_ i) ∧
    TwoSpriteShifter.byte s.shift.data_ 0 = s.overflow_ ∧
    s.shift.overflow_ = 0 := by
  have ho' : s.overflow_ < 256 := ho
  refine ⟨?_, ?_, ?_, ?_, ?_, ?_, ?_⟩
  · simp only [TwoSpriteShifter.get, TwoSpriteShifter.byte, Nat.shiftRight_eq_div_pow]
    omega
  · intro k h1 h7
    obtain ⟨j, rfl⟩ : ∃ j, k = j + 1 := ⟨k - 1, by omega⟩
    rw [TwoSpriteShifter_iterate_shift s ho' j]
    simp only [TwoSpriteShifter.get, TwoSpriteShifter.byte, Nat.shiftRight_eq_div_pow]
    have hj : j < 7 := by omega
    interval_cases j <;> simp <;> omega
  · rw [TwoSpriteShifter_iterate_shift s ho' 7]
    simp only [TwoSpriteShifter.get, Nat.shiftRight_eq_div_pow]
    omega
  · intro k h9
    obtain ⟨j, rfl⟩ : ∃ j, k = (j + 8) + 1 := ⟨k - 9, by omega⟩
    rw [TwoSpriteShifter_iterate_shift s ho' (j + 8)]
    have e : s.data_ * 256 ^ (j + 8 + 1) + s.overflow_ * 256 ^ (j + 8)
        = 2 ^ 64 * (s.data_ * 256 ^ (j + 1) + s.overflow_ * 256 ^ j) := by
      ring
    simp [TwoSpriteShifter.get, e]
  · intro i hi
    rw [TwoSpriteShifter_shift_eq s ho']
    simp only [TwoSpriteShifter.byte]
    interval_cases i <;> simp <;> omega
  · rw [TwoSpriteShifter_shift_eq s ho']
    simp only [TwoSpriteShifter.byte]
    omega
  · simp [TwoSpriteShifter.shift]

/-- A witness of C5: data `0x0102030405060708` with overflow byte `0x09`. -/
theorem TwoSpriteShifter_get_after_shifts_witness :
    TwoSpriteShifter.get ⟨0x0102030405060708, 0x09⟩ = 0x01 ∧
    (TwoSpriteShifter.shift^[3] ⟨0x0102030405060708, 0x09⟩).get = 0x04 ∧
    (TwoSpriteShifter.shift^[8] ⟨0x0102030405060708, 0x09⟩).get = 0x09 ∧
    (TwoSpriteShifter.shift^[9] ⟨0x0102030405060708, 0x09⟩).get = 0 := by
  have h := TwoSpriteShifter_get_after_shifts ⟨0x0102030405060708, 0x09⟩ (by decide)
  refine ⟨by decide, ?_, h.2.2.1, h.2.2.2.1 9 (by decide)⟩
  have h3 := h.2.1 3 (by decide) (by decide)
  rw [h3]
  decide

/-- C6: every `DMAFlag` value is a single-bit 16-bit mask, the thirteen values are
pairwise disjoint, and the bits are those of DMACON: audio channels 0-3 at bits 0-3,
Disk 4, Sprites 5, Blitter 6, Copper 7, Bitplane 8, AllBelow 9, BlitterPriority 10,
BlitterZero 13, BlitterBusy 14. -/
theorem DMAFlag_single_bits_of_dmacon :
    (∀ f : DMAFlag, f.value = 2 ^ f.dmacon_bit ∧ f.dmacon_bit < 16) ∧
    (∀ f g : DMAFlag, f ≠ g → f.value &&& g.value = 0) ∧
    [DMAFlag.AudioChannel0, .AudioChannel1, .AudioChannel2, .AudioChannel3, .Disk, .Sprites,
      .Blitter, .Copper, .Bitplane, .AllBelow, .BlitterPriority, .BlitterZero,
      .BlitterBusy].map DMAFlag.value
      = [2 ^ 0, 2 ^ 1, 2 ^ 2, 2 ^ 3, 2 ^ 4, 2 ^ 5, 2 ^ 6, 2 ^ 7, 2 ^ 8, 2 ^ 9, 2 ^ 10,
          2 ^ 13, 2 ^ 14] := by
  refine ⟨?_, ?_, by decide⟩
  · intro f; cases f <;> decide
  · intro f g; cases f <;> cases g <;> decide

/-- C7: `a += b` makes `a.duration` the sum of both durations, leaves
`a.interrupt_level` as it was (the level of `b` is not accumulated), and leaves `b`
unchanged. -/
theorem Changes_add_assign_sums_duration_only (a b : Changes) :
    (a.add_assign b).1.duration = a.duration + b.duration ∧
    (a.add_assign b).1.interrupt_level = a.interrupt_level ∧
    (a.add_assign b).2 = b := by
  simp [Changes.add_assign]

end Amiga

/-! ## Theorems: Enterprise Nick -/

namespace Enterprise

theorem set_output_type_same (env : Env) (type : OutputType) (force_flush : Bool) (s : State)
    (h : type = s.output_type_ ∧ force_flush = false) :
    set_output_type env type force_flush s = s := by
  simp only [set_output_type, h, and_self, if_true]

theorem set_output_type_change (env : Env) (type : OutputType) (force_flush : Bool) (s : State)
    (h : ¬ (type = s.output_type_ ∧ force_flush = false)) :
    set_output_type env type force_flush s
      = { (if s.output_duration_ ≠ 0 then flush_run env s else s) with
          output_duration_ := 0, output_type_ := type } := by
  simp only [set_output_type, h, if_false]

theorem flush_run_runs (env : Env) (s : State) :
    ∃ r : Run, (flush_run env s).runs = s.runs ++ [r] ∧ r.type = s.output_type_ ∧
      r.length = s.output_duration_ * 16 := by
  unfold flush_run
  cases s.output_type_ <;> exact ⟨_, rfl, rfl, rfl⟩

/-- C1: `set_output_type(type, force_flush)` emits at most one run, and exactly one iff
(the type differs from the current one or `force_flush` is set) and `output_duration_`
is non-zero; the run is of the old output type and `output_duration_*16` long; when the
type differs or `force_flush` is set, `output_duration_` becomes 0 and `output_type_`
becomes `type`; when the type is the same and `force_flush` is false nothing is emitted
and nothing changes. -/
theorem set_output_type_emits_one_run_of_old_type (env : Env) (type : OutputType)
    (force_flush : Bool) (s : State) :
    ∃ emitted : List Run,
      (set_output_type env type force_flush s).runs = s.runs ++ emitted ∧
      emitted.length ≤ 1 ∧
      (emitted.length = 1 ↔
        ((type ≠ s.output_type_ ∨ force_flush = true) ∧ s.output_duration_ ≠ 0)) ∧
      (∀ r ∈ emitted, r.type = s.output_type_ ∧ r.length = s.output_duration_ * 16) ∧
      ((type ≠ s.output_type_ ∨ force_flush = true) →
        (set_output_type env type force_flush s).output_duration_ = 0 ∧
        (set_output_type env type force_flush s).output_type_ = type) ∧
      ((type = s.output_type_ ∧ force_flush = false) →
        set_output_type env type force_flush s = s) := by
  by_cases h : type = s.output_type_ ∧ force_flush = false
  · have hn : ¬ (type ≠ s.output_type_ ∨ force_flush = true) := by
      rintro (h1 | h1)
      · exact h1 h.1
      · rw [h.2] at h1; exact Bool.false_ne_true h1
    refine ⟨[], ?_, by simp, ?_, by simp, fun h1 => absurd h1 hn, fun _ => ?_⟩
    · rw [set_output_type_same env type force_flush s h]; simp
    · simp [hn]
    · exact set_output_type_same env type force_flush s h
  · have hy : type ≠ s.output_type_ ∨ force_flush = true := by
      by_cases h1 : type = s.output_type_
      · right
        cases force_flush
        · exact absurd ⟨h1, rfl⟩ h
        · rfl
      · exact Or.inl h1
    rw [set_output_type_change env type force_flush s h]
    by_cases hd : s.output_duration_ = 0
    · refine ⟨[], ?_, by simp, ?_, by simp, fun _ => ⟨rfl, rfl⟩, fun h1 => absurd h1 h⟩
      · simp [hd]
      · simp [hd]
    · obtain ⟨r, hr, hrt, hrl⟩ := flush_run_runs env s
      refine ⟨[r], ?_, by simp, ?_, ?_, fun _ => ⟨rfl, rfl⟩, fun h1 => absurd h1 h⟩
      · simp only [ne_eq, hd, not_false_eq_true, if_true]
        exact hr
      · simp only [List.length_singleton, true_iff]
        exact ⟨hy, hd⟩
      · intro r' hr'
        rw [List.mem_singleton] at hr'
        subst hr'
        exact ⟨hrt, hrl⟩

end Enterprise

namespace Enterprise

/-! ### What each step leaves unchanged -/

@[simp] theorem set_output_type_horizontal_counter_ (env : Env) (type : OutputType) (force_flush : Bool)
    (s : State) : (set_output_type env type force_flush s).horizontal_counter_ = s.horizontal_counter_ := by
  unfold set_output_type
  split
  · rfl
  · split
    · unfold flush_run; split <;> rfl
    · rfl

@[simp] theorem set_output_type_end_of_line_steps (env : Env) (type : OutputType) (force_flush : Bool)
    (s : State) : (set_output_type env type force_flush s).end_of_line_steps = s.end_of_line_steps := by
  unfold set_output_type
  split
  · rfl
  · split
    · unfold flush_run; split <;> rfl
    · rfl

@[simp] theorem set_output_type_column_size_ (env : Env) (type : OutputType) (force_flush : Bool)
    (s : State) : (set_output_type env type force_flush s).column_size_ = s.column_size_ := by
  unfold set_output_type
  split
  · rfl
  · split
    · unfold flush_run; split <;> rfl
    · rfl

@[simp] theorem set_output_type_mode_ (env : Env) (type : OutputType) (force_flush : Bool)
    (s : State) : (set_output_type env type force_flush s).mode_ = s.mode_ := by
  unfold set_output_type
  split
  · rfl
  · split
    · unfold flush_run; split <;> rfl
    · rfl

@[simp] theorem set_output_type_left_margin_ (env : Env) (type : OutputType) (force_flush : Bool)
    (s : State) : (set_output_type env type force_flush s).left_margin_ = s.left_margin_ := by
  unfold set_output_type
  split
  · rfl
  · split
    · unfold flush_run; split <;> rfl
    · rfl

@[simp] theorem set_output_type_right_margin_ (env : Env) (type : OutputType) (force_flush : Bool)
    (s : State) : (set_output_type env type force_flush s).right_margin_ = s.right_margin_ := by
  unfold set_output_type
  split
  · rfl
  · split
    · unfold flush_run; split <;> rfl
    · rfl

@[simp] theorem set_output_type_is_sync_or_pixels_ (env : Env) (type : OutputType) (force_flush : Bool)
    (s : State) : (set_output_type env type force_flush s).is_sync_or_pixels_ = s.is_sync_or_pixels_ := by
  unfold set_output_type
  split
  · rfl
  · split
    · unfold flush_run; split <;> rfl
    · rfl

@[simp] theorem set_output_type_should_reload_line_parameters_ (env : Env) (type : OutputType) (force_flush : Bool)
    (s : State) : (set_output_type env type force_flush s).should_reload_line_parameters_ = s.should_reload_line_parameters_ := by
  unfold set_output_type
  split
  · rfl
  · split
    · unfold flush_run; split <;> rfl
    · rfl

@[simp] theorem set_output_type_lines_remaining_ (env : Env) (type : OutputType) (force_flush : Bool)
    (s : State) : (set_output_type env type force_flush s).lines_remaining_ = s.lines_remaining_ := by
  unfold set_output_type
  split
  · rfl
  · split
    · unfold flush_run; split <;> rfl
    · rfl

@[simp] theorem set_output_type_interrupt_line_ (env : Env) (type : OutputType) (force_flush : Bool)
    (s : State) : (set_output_type env type force_flush s).interrupt_line_ = s.interrupt_line_ := by
  unfold set_output_type
  split
  · rfl
  · split
    · unfold flush_run; split <;> rfl
    · rfl

@[simp] theorem set_output_type_line_parameter_pointer_ (env : Env) (type : OutputType) (force_flush : Bool)
    (s : State) : (set_output_type env type force_flush s).line_parameter_pointer_ = s.line_parameter_pointer_ := by
  unfold set_output_type
  split
  · rfl
  · split
    · unfold flush_run; split <;> rfl
    · rfl

@[simp] theorem set_output_type_assertion_failed (env : Env) (type : OutputType) (force_flush : Bool)
    (s : State) : (set_output_type env type force_flush s).assertion_failed = s.assertion_failed := by
  unfold set_output_type
  split
  · rfl
  · split
    · unfold flush_run; split <;> rfl
    · rfl

@[simp] theorem set_output_type_reload_line_parameter_pointer_ (env : Env) (type : OutputType) (force_flush : Bool)
    (s : State) : (set_output_type env type force_flush s).reload_line_parameter_pointer_ = s.reload_line_parameter_pointer_ := by
  unfold set_output_type
  split
  · rfl
  · split
    · unfold flush_run; split <;> rfl
    · rfl

@[simp] theorem set_output_type_line_parameter_base_ (env : Env) (type : OutputType) (force_flush : Bool)
    (s : State) : (set_output_type env type force_flush s).line_parameter_base_ = s.line_parameter_base_ := by
  unfold set_output_type
  split
  · rfl
  · split
    · unfold flush_run; split <;> rfl
    · rfl

@[simp] theorem check_margins_horizontal_counter_ (window : Int) (s : State) :
    (check_margins window s).horizontal_counter_ = s.horizontal_counter_ := by
  unfold check_margins
  dsimp only
  split_ifs <;> rfl

@[simp] theorem check_margins_end_of_line_steps (window : Int) (s : State) :
    (check_margins window s).end_of_line_steps = s.end_of_line_steps := by
  unfold check_margins
  dsimp only
  split_ifs <;> rfl

@[simp] theorem check_margins_column_size_ (window : Int) (s : State) :
    (check_margins window s).column_size_ = s.column_size_ := by
  unfold check_margins
  dsimp only
  split_ifs <;> rfl

@[simp] theorem check_margins_mode_ (window : Int) (s : State) :
    (check_margins window s).mode_ = s.mode_ := by
  unfold check_margins
  dsimp only
  split_ifs <;> rfl

@[simp] theorem check_margins_left_margin_ (window : Int) (s : State) :
    (check_margins window s).left_margin_ = s.left_margin_ := by
  unfold check_margins
  dsimp only
  split_ifs <;> rfl

@[simp] theorem check_margins_right_margin_ (window : Int) (s : State) :
    (check_margins window s).right_margin_ = s.right_margin_ := by
  unfold check_margins
  dsimp only
  split_ifs <;> rfl

@[simp] theorem check_margins_should_reload_line_parameters_ (window : Int) (s : State) :
    (check_margins window s).should_reload_line_parameters_ = s.should_reload_line_parameters_ := by
  unfold check_margins
  dsimp only
  split_ifs <;> rfl

@[simp] theorem check_margins_lines_remaining_ (window : Int) (s : State) :
    (check_margins window s).lines_remaining_ = s.lines_remaining_ := by
  unfold check_margins
  dsimp only
  split_ifs <;> rfl

@[simp] theorem check_margins_interrupt_line_ (window : Int) (s : State) :
    (check_margins window s).interrupt_line_ = s.interrupt_line_ := by
  unfold check_margins
  dsimp only
  split_ifs <;> rfl

@[simp] theorem check_margins_line_parameter_pointer_ (window : Int) (s : State) :
    (check_margins window s).line_parameter_pointer_ = s.line_parameter_pointer_ := by
  unfold check_margins
  dsimp only
  split_ifs <;> rfl

@[simp] theorem check_margins_assertion_failed (window : Int) (s : State) :
    (check_margins window s).assertion_failed = s.assertion_failed := by
  unfold check_margins
  dsimp only
  split_ifs <;> rfl

@[simp] theorem check_margins_reload_line_parameter_pointer_ (window : Int) (s : State) :
    (check_margins window s).reload_line_parameter_pointer_ = s.reload_line_parameter_pointer_ := by
  unfold check_margins
  dsimp only
  split_ifs <;> rfl

@[simp] theorem check_margins_line_parameter_base_ (window : Int) (s : State) :
    (check_margins window s).line_parameter_base_ = s.line_parameter_base_ := by
  unfold check_margins
  dsimp only
  split_ifs <;> rfl

@[simp] theorem check_margins_pixel_pointer_ (window : Int) (s : State) :
    (check_margins window s).pixel_pointer_ = s.pixel_pointer_ := by
  unfold check_margins
  dsimp only
  split_ifs <;> rfl

@[simp] theorem check_margins_allocated_pointer_ (window : Int) (s : State) :
    (check_margins window s).allocated_pointer_ = s.allocated_pointer_ := by
  unfold check_margins
  dsimp only
  split_ifs <;> rfl

@[simp] theorem check_margins_output_type_ (window : Int) (s : State) :
    (check_margins window s).output_type_ = s.output_type_ := by
  unfold check_margins
  dsimp only
  split_ifs <;> rfl

@[simp] theorem check_margins_output_duration_ (window : Int) (s : State) :
    (check_margins window s).output_duration_ = s.output_duration_ := by
  unfold check_margins
  dsimp only
  split_ifs <;> rfl

@[simp] theorem check_margins_runs (window : Int) (s : State) :
    (check_margins window s).runs = s.runs := by
  unfold check_margins
  dsimp only
  split_ifs <;> rfl

@[simp] theorem check_margins_begin_data_calls (window : Int) (s : State) :
    (check_margins window s).begin_data_calls = s.begin_data_calls := by
  unfold check_margins
  dsimp only
  split_ifs <;> rfl

@[simp] theorem set_output_type_output_type_ (env : Env) (type : OutputType) (force_flush : Bool)
    (s : State) : (set_output_type env type force_flush s).output_type_ = type := by
  unfold set_output_type
  split
  · rename_i h; exact h.1.symm
  · rfl

theorem load_slot_frame (env : Env) (window : Int) (s : State) :
    (load_slot env window s).horizontal_counter_ = s.horizontal_counter_ ∧
    (load_slot env window s).end_of_line_steps = s.end_of_line_steps ∧
    (load_slot env window s).is_sync_or_pixels_ = s.is_sync_or_pixels_ ∧
    (load_slot env window s).should_reload_line_parameters_ = s.should_reload_line_parameters_ ∧
    (load_slot env window s).pixel_pointer_ = s.pixel_pointer_ ∧
    (load_slot env window s).allocated_pointer_ = s.allocated_pointer_ ∧
    (load_slot env window s).output_type_ = s.output_type_ ∧
    (load_slot env window s).output_duration_ = s.output_duration_ ∧
    (load_slot env window s).runs = s.runs ∧
    (load_slot env window s).begin_data_calls = s.begin_data_calls := by
  simp only [load_slot, load_slot_0, load_slot_1, load_slot_2, load_slot_3]
  split_ifs <;> exact ⟨rfl, rfl, rfl, rfl, rfl, rfl, rfl, rfl, rfl, rfl⟩

@[simp] theorem load_slot_horizontal_counter_ (env : Env) (window : Int) (s : State) :
    (load_slot env window s).horizontal_counter_ = s.horizontal_counter_ :=
  (load_slot_frame env window s).1

@[simp] theorem load_slot_end_of_line_steps (env : Env) (window : Int) (s : State) :
    (load_slot env window s).end_of_line_steps = s.end_of_line_steps :=
  (load_slot_frame env window s).2.1

@[simp] theorem load_slot_is_sync_or_pixels_ (env : Env) (window : Int) (s : State) :
    (load_slot env window s).is_sync_or_pixels_ = s.is_sync_or_pixels_ :=
  (load_slot_frame env window s).2.2.1

@[simp] theorem load_slot_should_reload_line_parameters_ (env : Env) (window : Int) (s : State) :
    (load_slot env window s).should_reload_line_parameters_ = s.should_reload_line_parameters_ :=
  (load_slot_frame env window s).2.2.2.1

@[simp] theorem load_slot_pixel_pointer_ (env : Env) (window : Int) (s : State) :
    (load_slot env window s).pixel_pointer_ = s.pixel_pointer_ :=
  (load_slot_frame env window s).2.2.2.2.1

@[simp] theorem load_slot_allocated_pointer_ (env : Env) (window : Int) (s : State) :
    (load_slot env window s).allocated_pointer_ = s.allocated_pointer_ :=
  (load_slot_frame env window s).2.2.2.2.2.1

@[simp] theorem load_slot_output_type_ (env : Env) (window : Int) (s : State) :
    (load_slot env window s).output_type_ = s.output_type_ :=
  (load_slot_frame env window s).2.2.2.2.2.2.1

@[simp] theorem load_slot_output_duration_ (env : Env) (window : Int) (s : State) :
    (load_slot env window s).output_duration_ = s.output_duration_ :=
  (load_slot_frame env window s).2.2.2.2.2.2.2.1

@[simp] theorem load_slot_runs (env : Env) (window : Int) (s : State) :
    (load_slot env window s).runs = s.runs :=
  (load_slot_frame env window s).2.2.2.2.2.2.2.2.1

@[simp] theorem load_slot_begin_data_calls (env : Env) (window : Int) (s : State) :
    (load_slot env window s).begin_data_calls = s.begin_data_calls :=
  (load_slot_frame env window s).2.2.2.2.2.2.2.2.2

@[simp] theorem output_columns_horizontal_counter_ (columns : Int) (s : State) :
    (output_columns columns s).horizontal_counter_ = s.horizontal_counter_ := by
  unfold output_columns
  split <;> rfl

@[simp] theorem output_columns_end_of_line_steps (columns : Int) (s : State) :
    (output_columns columns s).end_of_line_steps = s.end_of_line_steps := by
  unfold output_columns
  split <;> rfl

@[simp] theorem output_columns_column_size_ (columns : Int) (s : State) :
    (output_columns columns s).column_size_ = s.column_size_ := by
  unfold output_columns
  split <;> rfl

@[simp] theorem output_columns_mode_ (columns : Int) (s : State) :
    (output_columns columns s).mode_ = s.mode_ := by
  unfold output_columns
  split <;> rfl

@[simp] theorem output_columns_is_sync_or_pixels_ (columns : Int) (s : State) :
    (output_columns columns s).is_sync_or_pixels_ = s.is_sync_or_pixels_ := by
  unfold output_columns
  split <;> rfl

@[simp] theorem output_columns_output_type_ (columns : Int) (s : State) :
    (output_columns columns s).output_type_ = s.output_type_ := by
  unfold output_columns
  split <;> rfl

@[simp] theorem output_columns_pixel_pointer_ (columns : Int) (s : State) :
    (output_columns columns s).pixel_pointer_ = s.pixel_pointer_ := by
  unfold output_columns
  split <;> rfl

@[simp] theorem output_columns_allocated_pointer_ (columns : Int) (s : State) :
    (output_columns columns s).allocated_pointer_ = s.allocated_pointer_ := by
  unfold output_columns
  split <;> rfl

@[simp] theorem output_columns_output_duration_ (columns : Int) (s : State) :
    (output_columns columns s).output_duration_ = s.output_duration_ := by
  unfold output_columns
  split <;> rfl

@[simp] theorem output_columns_left_margin_ (columns : Int) (s : State) :
    (output_columns columns s).left_margin_ = s.left_margin_ := by
  unfold output_columns
  split <;> rfl

@[simp] theorem output_columns_right_margin_ (columns : Int) (s : State) :
    (output_columns columns s).right_margin_ = s.right_margin_ := by
  unfold output_columns
  split <;> rfl

@[simp] theorem output_columns_runs (columns : Int) (s : State) :
    (output_columns columns s).runs = s.runs := by
  unfold output_columns
  split <;> rfl

@[simp] theorem output_columns_begin_data_calls (columns : Int) (s : State) :
    (output_columns columns s).begin_data_calls = s.begin_data_calls := by
  unfold output_columns
  split <;> rfl

@[simp] theorem output_columns_should_reload_line_parameters_ (columns : Int) (s : State) :
    (output_columns columns s).should_reload_line_parameters_ = s.should_reload_line_parameters_ := by
  unfold output_columns
  split <;> rfl

@[simp] theorem output_columns_lines_remaining_ (columns : Int) (s : State) :
    (output_columns columns s).lines_remaining_ = s.lines_remaining_ := by
  unfold output_columns
  split <;> rfl

@[simp] theorem output_columns_interrupt_line_ (columns : Int) (s : State) :
    (output_columns columns s).interrupt_line_ = s.interrupt_line_ := by
  unfold output_columns
  split <;> rfl

@[simp] theorem output_columns_line_parameter_pointer_ (columns : Int) (s : State) :
    (output_columns columns s).line_parameter_pointer_ = s.line_parameter_pointer_ := by
  unfold output_columns
  split <;> rfl

@[simp] theorem output_columns_assertion_failed (columns : Int) (s : State) :
    (output_columns columns s).assertion_failed = s.assertion_failed := by
  unfold output_columns
  split <;> rfl

@[simp] theorem skip_columns_horizontal_counter_ (columns_remaining : Int) (s : State) :
    (skip_columns columns_remaining s).horizontal_counter_ = s.horizontal_counter_ := rfl

@[simp] theorem skip_columns_end_of_line_steps (columns_remaining : Int) (s : State) :
    (skip_columns columns_remaining s).end_of_line_steps = s.end_of_line_steps := rfl

@[simp] theorem skip_columns_column_size_ (columns_remaining : Int) (s : State) :
    (skip_columns columns_remaining s).column_size_ = s.column_size_ := rfl

@[simp] theorem skip_columns_mode_ (columns_remaining : Int) (s : State) :
    (skip_columns columns_remaining s).mode_ = s.mode_ := rfl

@[simp] theorem skip_columns_is_sync_or_pixels_ (columns_remaining : Int) (s : State) :
    (skip_columns columns_remaining s).is_sync_or_pixels_ = s.is_sync_or_pixels_ := rfl

@[simp] theorem skip_columns_output_type_ (columns_remaining : Int) (s : State) :
    (skip_columns columns_remaining s).output_type_ = s.output_type_ := rfl

@[simp] theorem skip_columns_pixel_pointer_ (columns_remaining : Int) (s : State) :
    (skip_columns columns_remaining s).pixel_pointer_ = s.pixel_pointer_ := rfl

@[simp] theorem skip_columns_allocated_pointer_ (columns_remaining : Int) (s : State) :
    (skip_columns columns_remaining s).allocated_pointer_ = s.allocated_pointer_ := rfl

@[simp] theorem skip_columns_left_margin_ (columns_remaining : Int) (s : State) :
    (skip_columns columns_remaining s).left_margin_ = s.left_margin_ := rfl

@[simp] theorem skip_columns_right_margin_ (columns_remaining : Int) (s : State) :
    (skip_columns columns_remaining s).right_margin_ = s.right_margin_ := rfl

@[simp] theorem skip_columns_runs (columns_remaining : Int) (s : State) :
    (skip_columns columns_remaining s).runs = s.runs := rfl

@[simp] theorem skip_columns_begin_data_calls (columns_remaining : Int) (s : State) :
    (skip_columns columns_remaining s).begin_data_calls = s.begin_data_calls := rfl

@[simp] theorem skip_columns_should_reload_line_parameters_ (columns_remaining : Int) (s : State) :
    (skip_columns columns_remaining s).should_reload_line_parameters_ = s.should_reload_line_parameters_ := rfl

@[simp] theorem skip_columns_lines_remaining_ (columns_remaining : Int) (s : State) :
    (skip_columns columns_remaining s).lines_remaining_ = s.lines_remaining_ := rfl

@[simp] theorem skip_columns_interrupt_line_ (columns_remaining : Int) (s : State) :
    (skip_columns columns_remaining s).interrupt_line_ = s.interrupt_line_ := rfl

@[simp] theorem skip_columns_line_parameter_pointer_ (columns_remaining : Int) (s : State) :
    (skip_columns columns_remaining s).line_parameter_pointer_ = s.line_parameter_pointer_ := rfl

@[simp] theorem skip_columns_assertion_failed (columns_remaining : Int) (s : State) :
    (skip_columns columns_remaining s).assertion_failed = s.assertion_failed := rfl

@[simp] theorem advance_pixels_horizontal_counter_ (output_duration : Int) (s : State) :
    (advance_pixels output_duration s).horizontal_counter_ = s.horizontal_counter_ := by
  unfold advance_pixels
  simp

@[simp] theorem advance_pixels_end_of_line_steps (output_duration : Int) (s : State) :
    (advance_pixels output_duration s).end_of_line_steps = s.end_of_line_steps := by
  unfold advance_pixels
  simp

@[simp] theorem advance_pixels_column_size_ (output_duration : Int) (s : State) :
    (advance_pixels output_duration s).column_size_ = s.column_size_ := by
  unfold advance_pixels
  simp

@[simp] theorem advance_pixels_mode_ (output_duration : Int) (s : State) :
    (advance_pixels output_duration s).mode_ = s.mode_ := by
  unfold advance_pixels
  simp

@[simp] theorem advance_pixels_is_sync_or_pixels_ (output_duration : Int) (s : State) :
    (advance_pixels output_duration s).is_sync_or_pixels_ = s.is_sync_or_pixels_ := by
  unfold advance_pixels
  simp

@[simp] theorem advance_pixels_output_type_ (output_duration : Int) (s : State) :
    (advance_pixels output_duration s).output_type_ = s.output_type_ := by
  unfold advance_pixels
  simp

@[simp] theorem advance_pixels_allocated_pointer_ (output_duration : Int) (s : State) :
    (advance_pixels output_duration s).allocated_pointer_ = s.allocated_pointer_ := by
  unfold advance_pixels
  simp

@[simp] theorem advance_pixels_left_margin_ (output_duration : Int) (s : State) :
    (advance_pixels output_duration s).left_margin_ = s.left_margin_ := by
  unfold advance_pixels
  simp

@[simp] theorem advance_pixels_right_margin_ (output_duration : Int) (s : State) :
    (advance_pixels output_duration s).right_margin_ = s.right_margin_ := by
  unfold advance_pixels
  simp

@[simp] theorem advance_pixels_runs (output_duration : Int) (s : State) :
    (advance_pixels output_duration s).runs = s.runs := by
  unfold advance_pixels
  simp

@[simp] theorem advance_pixels_begin_data_calls (output_duration : Int) (s : State) :
    (advance_pixels output_duration s).begin_data_calls = s.begin_data_calls := by
  unfold advance_pixels
  simp

@[simp] theorem advance_pixels_should_reload_line_parameters_ (output_duration : Int) (s : State) :
    (advance_pixels output_duration s).should_reload_line_parameters_ = s.should_reload_line_parameters_ := by
  unfold advance_pixels
  simp

@[simp] theorem advance_pixels_lines_remaining_ (output_duration : Int) (s : State) :
    (advance_pixels output_duration s).lines_remaining_ = s.lines_remaining_ := by
  unfold advance_pixels
  simp

@[simp] theorem advance_pixels_interrupt_line_ (output_duration : Int) (s : State) :
    (advance_pixels output_duration s).interrupt_line_ = s.interrupt_line_ := by
  unfold advance_pixels
  simp

@[simp] theorem advance_pixels_line_parameter_pointer_ (output_duration : Int) (s : State) :
    (advance_pixels output_duration s).line_parameter_pointer_ = s.line_parameter_pointer_ := by
  unfold advance_pixels
  simp

@[simp] theorem advance_pixels_assertion_failed (output_duration : Int) (s : State) :
    (advance_pixels output_duration s).assertion_failed = s.assertion_failed := by
  unfold advance_pixels
  simp

@[simp] theorem advance_pixels_pixel_pointer_ (output_duration : Int) (s : State) :
    (advance_pixels output_duration s).pixel_pointer_
      = ((s.pixel_pointer_ : Int) + output_duration * s.column_size_).toNat := rfl

@[simp] theorem advance_pixels_output_duration_ (output_duration : Int) (s : State) :
    (advance_pixels output_duration s).output_duration_ = s.output_duration_ + output_duration :=
  rfl

@[simp] theorem end_of_line_horizontal_counter_ (s : State) : (end_of_line s).horizontal_counter_ = s.horizontal_counter_ := by
  unfold end_of_line
  split <;> rfl

@[simp] theorem end_of_line_column_size_ (s : State) : (end_of_line s).column_size_ = s.column_size_ := by
  unfold end_of_line
  split <;> rfl

@[simp] theorem end_of_line_mode_ (s : State) : (end_of_line s).mode_ = s.mode_ := by
  unfold end_of_line
  split <;> rfl

@[simp] theorem end_of_line_is_sync_or_pixels_ (s : State) : (end_of_line s).is_sync_or_pixels_ = s.is_sync_or_pixels_ := by
  unfold end_of_line
  split <;> rfl

@[simp] theorem end_of_line_output_type_ (s : State) : (end_of_line s).output_type_ = s.output_type_ := by
  unfold end_of_line
  split <;> rfl

@[simp] theorem end_of_line_pixel_pointer_ (s : State) : (end_of_line s).pixel_pointer_ = s.pixel_pointer_ := by
  unfold end_of_line
  split <;> rfl

@[simp] theorem end_of_line_allocated_pointer_ (s : State) : (end_of_line s).allocated_pointer_ = s.allocated_pointer_ := by
  unfold end_of_line
  split <;> rfl

@[simp] theorem end_of_line_output_duration_ (s : State) : (end_of_line s).output_duration_ = s.output_duration_ := by
  unfold end_of_line
  split <;> rfl

@[simp] theorem end_of_line_left_margin_ (s : State) : (end_of_line s).left_margin_ = s.left_margin_ := by
  unfold end_of_line
  split <;> rfl

@[simp] theorem end_of_line_right_margin_ (s : State) : (end_of_line s).right_margin_ = s.right_margin_ := by
  unfold end_of_line
  split <;> rfl

@[simp] theorem end_of_line_runs (s : State) : (end_of_line s).runs = s.runs := by
  unfold end_of_line
  split <;> rfl

@[simp] theorem end_of_line_begin_data_calls (s : State) : (end_of_line s).begin_data_calls = s.begin_data_calls := by
  unfold end_of_line
  split <;> rfl

@[simp] theorem end_of_line_interrupt_line_ (s : State) : (end_of_line s).interrupt_line_ = s.interrupt_line_ := by
  unfold end_of_line
  split <;> rfl

@[simp] theorem end_of_line_assertion_failed (s : State) : (end_of_line s).assertion_failed = s.assertion_failed := by
  unfold end_of_line
  split <;> rfl

theorem end_of_line_end_of_line_steps (s : State) :
    (end_of_line s).end_of_line_steps
      = s.end_of_line_steps + (if s.horizontal_counter_ = 0 then 1 else 0) := by
  unfold end_of_line
  split <;> rfl

end Enterprise

namespace Enterprise

/-! ### The pixel buffer and the column size -/

theorem BufferOK_of_null (env : Env) (s : State) (h : s.pixel_pointer_ = 0) : BufferOK env s :=
  fun hne => absurd h hne

theorem BufferOK_congr (env : Env) (s s' : State)
    (hp : s'.pixel_pointer_ = s.pixel_pointer_) (ha : s'.allocated_pointer_ = s.allocated_pointer_)
    (ht : s'.output_type_ = s.output_type_) (hd : s'.output_duration_ = s.output_duration_)
    (hc : s'.column_size_ = s.column_size_) (h : BufferOK env s) : BufferOK env s' := by
  unfold BufferOK at h ⊢
  rw [hp, ha, ht, hd, hc]
  exact h

theorem set_output_type_null_or_same (env : Env) (type : OutputType) (force_flush : Bool)
    (s : State) (h : BufferOK env s) :
    set_output_type env type force_flush s = s ∨
      (set_output_type env type force_flush s).pixel_pointer_ = 0 := by
  by_cases hs : type = s.output_type_ ∧ force_flush = false
  · exact Or.inl (set_output_type_same env type force_flush s hs)
  · right
    rw [set_output_type_change env type force_flush s hs]
    by_cases hp : s.pixel_pointer_ = 0
    · by_cases hd : s.output_duration_ = 0
      · simp [hd, hp]
      · simp only [ne_eq, hd, not_false_eq_true, if_true]
        unfold flush_run
        split <;> simp [hp]
    · obtain ⟨-, ht, hd, -⟩ := h hp
      have hd' : s.output_duration_ ≠ 0 := by omega
      simp only [ne_eq, hd', not_false_eq_true, if_true]
      unfold flush_run
      rw [ht]

theorem set_output_type_buffer (env : Env) (type : OutputType) (force_flush : Bool)
    (s : State) (h : BufferOK env s) : BufferOK env (set_output_type env type force_flush s) := by
  rcases set_output_type_null_or_same env type force_flush s h with h1 | h1
  · rw [h1]; exact h
  · exact BufferOK_of_null env _ h1

theorem check_margins_buffer (env : Env) (window : Int) (s : State) (h : BufferOK env s) :
    BufferOK env (check_margins window s) :=
  BufferOK_congr env s _ (by simp) (by simp) (by simp) (by simp) (by simp) h

theorem column_size_for_ok (mode : Mode) (k : Nat) (hk : k ≤ 3) :
    0 < column_size_for mode ((1 <<< k : Nat) : Int) ∧
      column_size_for mode ((1 <<< k : Nat) : Int) ∣ 16 := by
  interval_cases k <;> cases mode <;> decide

theorem load_slot_0_column_size (env : Env) (hA : env.AllocationOK) (s : State) :
    ColumnSizeOK env (load_slot env 0 s) := by
  have h := column_size_for_ok
    (env.mode_of_int ((env.read ((s.line_parameter_pointer_ + 1) % 65536) >>> 1) &&& 7))
    ((env.read ((s.line_parameter_pointer_ + 1) % 65536) >>> 5) &&& 3) Nat.and_le_right
  exact ⟨h.1, dvd_trans h.2 hA.2⟩

theorem load_slot_column_size_of_ne (env : Env) (window : Int) (s : State) (h : window ≠ 0) :
    (load_slot env window s).column_size_ = s.column_size_ ∧
      (load_slot env window s).mode_ = s.mode_ := by
  simp only [load_slot, if_neg h, load_slot_1, load_slot_2, load_slot_3]
  split_ifs <;> exact ⟨rfl, rfl⟩

theorem load_slot_buffer (env : Env) (window : Int) (s : State) (h : BufferOK env s)
    (h0 : window = 0 → s.pixel_pointer_ = 0) : BufferOK env (load_slot env window s) := by
  by_cases hw : window = 0
  · exact BufferOK_of_null env _ (by simp [h0 hw])
  · exact BufferOK_congr env s _ (by simp) (by simp) (by simp) (by simp)
      (load_slot_column_size_of_ne env window s hw).1 h

end Enterprise

namespace Enterprise

/-! ### The loops of a line -/

theorem ColumnSizeOK_congr (env : Env) (s s' : State) (hc : s'.column_size_ = s.column_size_)
    (h : ColumnSizeOK env s) : ColumnSizeOK env s' := by
  unfold ColumnSizeOK at h ⊢
  rw [hc]
  exact h

theorem BufferOK_add_duration (env : Env) (s : State) (n : Int) (hn : 0 ≤ n)
    (h : BufferOK env s) :
    BufferOK env { s with output_duration_ := s.output_duration_ + n } := by
  intro hp
  obtain ⟨h1, h2, h3, h4, h5, h6⟩ := h hp
  exact ⟨h1, h2, by show 0 < s.output_duration_ + n; omega, h4, h5, h6⟩

theorem line_parameter_step_spec (env : Env) (hA : env.AllocationOK) (window : Int) (s : State)
    (hb : BufferOK env s)
    (hc : ColumnSizeOK env s ∨ (window = 0 ∧ s.should_reload_line_parameters_ = true))
    (h0 : window = 0 → s.pixel_pointer_ = 0) :
    BufferOK env (line_parameter_step env window s) ∧
    ColumnSizeOK env (line_parameter_step env window s) ∧
    (line_parameter_step env window s).horizontal_counter_ = s.horizontal_counter_ ∧
    (line_parameter_step env window s).end_of_line_steps = s.end_of_line_steps ∧
    (line_parameter_step env window s).output_type_ = s.output_type_ ∧
    (line_parameter_step env window s).pixel_pointer_ = s.pixel_pointer_ := by
  unfold line_parameter_step
  by_cases hr : s.should_reload_line_parameters_ = true
  · simp only [hr, if_true]
    refine ⟨?_, ?_, by simp, by simp, by simp, by simp⟩
    · exact check_margins_buffer env _ _
        (BufferOK_add_duration env _ 1 (by decide) (load_slot_buffer env window s hb h0))
    · refine ColumnSizeOK_congr env (load_slot env window s) _ (by simp) ?_
      by_cases hw : window = 0
      · rw [hw]; exact load_slot_0_column_size env hA s
      · exact ColumnSizeOK_congr env s _ (load_slot_column_size_of_ne env window s hw).1
          (hc.resolve_right (fun h => hw h.1))
  · simp only [hr, Bool.false_eq_true, if_false]
    refine ⟨?_, ?_, by simp, by simp, by simp, by simp⟩
    · exact check_margins_buffer env _ _ (BufferOK_add_duration env _ 1 (by decide) hb)
    · exact ColumnSizeOK_congr env s _ (by simp) (hc.resolve_right (fun h => hr h.2))

theorem line_parameter_loop_spec (env : Env) (hA : env.AllocationOK) :
    ∀ (fuel : Nat) (window end_window : Int) (s : State),
      0 ≤ window → (4 - window).toNat < fuel → BufferOK env s →
      (ColumnSizeOK env s ∨ (window = 0 ∧ s.should_reload_line_parameters_ = true)) →
      (window = 0 → s.pixel_pointer_ = 0) →
      ∃ w' s', line_parameter_loop env fuel window end_window s = some (w', s') ∧
        BufferOK env s' ∧ (window < end_window → ColumnSizeOK env s') ∧
        s'.horizontal_counter_ = s.horizontal_counter_ ∧
        s'.end_of_line_steps = s.end_of_line_steps ∧
        s'.output_type_ = s.output_type_ ∧
        ((w' = window ∧ s' = s) ∨ (window < w' ∧ w' ≤ 4 ∧ w' ≤ end_window)) ∧
        ¬ (w' < 4 ∧ w' < end_window) := by
  intro fuel
  induction fuel with
  | zero => intro window end_window s _ hf; exact absurd hf (Nat.not_lt_zero _)
  | succ fuel ih =>
    intro window end_window s hw hf hb hc h0
    unfold line_parameter_loop
    by_cases hcond : window < 4 ∧ window < end_window
    · simp only [hcond, and_self, if_true]
      obtain ⟨hb1, hc1, hh1, he1, ht1, -⟩ := line_parameter_step_spec env hA window s hb hc h0
      obtain ⟨w', s', heq, hb', -, hh', he', ht', hw', hx'⟩ :=
        ih (window + 1) end_window (line_parameter_step env window s) (by omega) (by omega) hb1
          (Or.inl hc1) (fun h => by omega)
      refine ⟨w', s', heq, hb', fun _ => ?_, by rw [hh', hh1], by rw [he', he1],
        by rw [ht', ht1], Or.inr ?_, hx'⟩
      · rcases hw' with ⟨-, hs⟩ | _
        · rw [hs]; exact hc1
        · rcases ih (window + 1) end_window (line_parameter_step env window s) (by omega)
            (by omega) hb1 (Or.inl hc1) (fun h => by omega) with ⟨w2, s2, heq2, -, hc2, -⟩
          rw [heq] at heq2
          cases heq2
          by_cases hlt : window + 1 < end_window
          · exact hc2 hlt
          · omega
      · rcases hw' with ⟨hw1, -⟩ | ⟨hw1, hw2, hw3⟩
        · omega
        · omega
    · simp only [hcond, if_false]
      refine ⟨window, s, rfl, hb, fun hlt => ?_, rfl, rfl, rfl, Or.inl ⟨rfl, rfl⟩, hcond⟩
      exact hc.resolve_right (fun h => hcond ⟨by omega, hlt⟩)

end Enterprise

namespace Enterprise

theorem SameLine.refl (s : State) : SameLine s s := ⟨rfl, rfl, rfl, rfl⟩

theorem SameLine.trans {s s' s'' : State} (h : SameLine s s') (h' : SameLine s' s'') :
    SameLine s s'' :=
  ⟨h'.counter.trans h.counter, h'.steps.trans h.steps, h'.column.trans h.column,
    h'.mode.trans h.mode⟩

theorem set_output_type_sameLine (env : Env) (type : OutputType) (force_flush : Bool)
    (s : State) : SameLine s (set_output_type env type force_flush s) :=
  ⟨by simp, by simp, by simp, by simp⟩

theorem check_margins_sameLine (window : Int) (s : State) : SameLine s (check_margins window s) :=
  ⟨by simp, by simp, by simp, by simp⟩

theorem window_4_spec (env : Env) (window : Int) (s : State) (hb : BufferOK env s) :
    BufferOK env (window_4 env window s) ∧ SameLine s (window_4 env window s) ∧
    (window_4 env window s).is_sync_or_pixels_ = s.is_sync_or_pixels_ ∧
    (window ≠ 4 → window_4 env window s = s) := by
  unfold window_4
  by_cases hw : window = 4
  · simp only [hw, if_true]
    by_cases hm : s.mode_ = .Vsync
    · simp only [hm, if_true]
      refine ⟨set_output_type_buffer env _ _ _ ?_, ⟨?_, ?_, ?_, ?_⟩, ?_, fun h => absurd rfl h⟩
      · refine BufferOK_congr env s _ ?_ ?_ ?_ ?_ ?_ hb <;> split_ifs <;> rfl
      · simp only [set_output_type_horizontal_counter_]; split_ifs <;> rfl
      · simp only [set_output_type_end_of_line_steps]; split_ifs <;> rfl
      · simp only [set_output_type_column_size_]; split_ifs <;> rfl
      · simp only [set_output_type_mode_]; split_ifs <;> first | rfl | exact hm.symm ▸ rfl
      · simp only [set_output_type_is_sync_or_pixels_]; split_ifs <;> rfl
    · simp only [hm, if_false]
      exact ⟨set_output_type_buffer env _ _ _ hb, set_output_type_sameLine env _ _ _, by simp,
        fun h => absurd rfl h⟩
  · rw [if_neg hw]
    exact ⟨hb, SameLine.refl s, rfl, fun _ => rfl⟩

theorem next_event_bounds (window end_window : Int) (s : State) (h : window < end_window) :
    window < next_event window end_window s ∧ next_event window end_window s ≤ end_window := by
  unfold next_event
  dsimp only
  split_ifs <;> omega

theorem vsync_step_spec (env : Env) (window end_window : Int) (s : State)
    (h : window < end_window) (hb : BufferOK env s) :
    BufferOK env (vsync_step env window end_window s) ∧
      SameLine s (vsync_step env window end_window s) := by
  unfold vsync_step
  have hn := next_event_bounds window end_window s h
  refine ⟨set_output_type_buffer env _ _ _ (check_margins_buffer env _ _
    (BufferOK_add_duration env s _ (by omega) hb)), ⟨by simp, by simp, by simp, by simp⟩⟩

theorem vsync_loop_spec (env : Env) :
    ∀ (fuel : Nat) (window end_window : Int) (s : State),
      (end_window - window).toNat < fuel → BufferOK env s →
      ∃ s', vsync_loop env fuel window end_window s = some s' ∧ BufferOK env s' ∧
        SameLine s s' := by
  intro fuel
  induction fuel with
  | zero => intro window end_window s hf; exact absurd hf (Nat.not_lt_zero _)
  | succ fuel ih =>
    intro window end_window s hf hb
    unfold vsync_loop
    by_cases hcond : window < end_window
    · rw [if_pos hcond]
      have hn := next_event_bounds window end_window s hcond
      obtain ⟨hb1, hl1⟩ := vsync_step_spec env window end_window s hcond hb
      obtain ⟨s', heq, hb', hl'⟩ := ih (next_event window end_window s) end_window
        (vsync_step env window end_window s) (by omega) hb1
      exact ⟨s', heq, hb', hl1.trans hl'⟩
    · rw [if_neg hcond]
      exact ⟨s, rfl, hb, SameLine.refl s⟩

theorem burst_step_spec (env : Env) (window : Int) (s : State) (hb : BufferOK env s) :
    BufferOK env (burst_step env window s) ∧ SameLine s (burst_step env window s) ∧
    (burst_step env window s).is_sync_or_pixels_ = s.is_sync_or_pixels_ := by
  unfold burst_step
  have h1 : BufferOK env (if window = 6 then set_output_type env .ColourBurst false s else s) := by
    split_ifs
    · exact set_output_type_buffer env _ _ _ hb
    · exact hb
  refine ⟨?_, ⟨?_, ?_, ?_, ?_⟩, ?_⟩
  · refine BufferOK_add_duration env _ 1 (by decide) ?_
    refine BufferOK_congr env _ _ ?_ ?_ ?_ ?_ ?_ h1 <;>
      (dsimp only; split_ifs <;> simp [load_palette_pair])
  all_goals (dsimp only; split_ifs <;> simp [load_palette_pair])

theorem burst_loop_spec (env : Env) :
    ∀ (fuel : Nat) (window end_window : Int) (s : State),
      (10 - window).toNat < fuel → BufferOK env s →
      ∃ w' s', burst_loop env fuel window end_window s = some (w', s') ∧ BufferOK env s' ∧
        SameLine s s' ∧ s'.is_sync_or_pixels_ = s.is_sync_or_pixels_ ∧
        ((w' = window ∧ s' = s) ∨ (window < w' ∧ w' ≤ 10 ∧ w' ≤ end_window)) ∧
        ¬ (w' < 10 ∧ w' < end_window) := by
  intro fuel
  induction fuel with
  | zero => intro window end_window s hf; exact absurd hf (Nat.not_lt_zero _)
  | succ fuel ih =>
    intro window end_window s hf hb
    unfold burst_loop
    by_cases hcond : window < 10 ∧ window < end_window
    · rw [if_pos hcond]
      obtain ⟨hb1, hl1, hi1⟩ := burst_step_spec env window s hb
      obtain ⟨w', s', heq, hb', hl', hi', hw', hx'⟩ :=
        ih (window + 1) end_window (burst_step env window s) (by omega) hb1
      refine ⟨w', s', heq, hb', hl1.trans hl', by rw [hi', hi1], Or.inr ?_, hx'⟩
      rcases hw' with ⟨hw1, -⟩ | ⟨hw1, hw2, hw3⟩ <;> omega
    · rw [if_neg hcond]
      exact ⟨window, s, rfl, hb, SameLine.refl s, rfl, Or.inl ⟨rfl, rfl⟩, hcond⟩

end Enterprise

namespace Enterprise

/-! ### The loop that outputs pixels -/

theorem allocate_pixels_spec (env : Env) (hA : env.AllocationOK) (s : State) (hb : BufferOK env s)
    (ht : s.output_type_ = .Pixels) :
    SameLine s (allocate_pixels env s) ∧
    (allocate_pixels env s).is_sync_or_pixels_ = s.is_sync_or_pixels_ ∧
    (allocate_pixels env s).output_type_ = .Pixels ∧
    (((allocate_pixels env s).allocated_pointer_ = 0 ∧ (allocate_pixels env s).pixel_pointer_ = 0)
      ∨ Filling env (allocate_pixels env s)) := by
  unfold allocate_pixels
  by_cases hp : s.pixel_pointer_ = 0
  · rw [if_pos hp]
    dsimp only
    refine ⟨⟨?_, ?_, ?_, ?_⟩, ?_, ?_, ?_⟩
    · split_ifs <;> simp
    · split_ifs <;> simp
    · split_ifs <;> simp
    · split_ifs <;> simp
    · split_ifs <;> simp
    · split_ifs <;> simp [ht]
    · by_cases h0 : env.begin_data
          (if s.output_duration_ ≠ 0 then set_output_type env .Pixels true s else s).begin_data_calls
          = 0
      · exact Or.inl ⟨h0, h0⟩
      · right
        refine ⟨h0, h0, ?_, ?_, le_refl _, ?_, ?_⟩
        · show (if s.output_duration_ ≠ 0 then set_output_type env .Pixels true s
            else s).output_type_ = .Pixels
          split_ifs <;> simp [ht]
        · show 0 ≤ (if s.output_duration_ ≠ 0 then set_output_type env .Pixels true s
            else s).output_duration_
          split_ifs with hd
          · rw [set_output_type_change env _ _ _ (by simp)]
          · simp only [ne_eq, Decidable.not_not] at hd
            rw [hd]
        · simp only [sub_self]
          exact hA.1
        · simp only [sub_self]
          exact dvd_zero _
  · rw [if_neg hp]
    obtain ⟨h1, h2, h3, h4, h5, h6⟩ := hb hp
    exact ⟨SameLine.refl s, rfl, ht, Or.inr ⟨hp, h1, h2, le_of_lt h3, h4, h5, h6⟩⟩

theorem columns_to_output_bounds (env : Env) (columns_remaining : Int) (s : State)
    (hc : ColumnSizeOK env s) (hf : Filling env s) (hcols : 0 < columns_remaining) :
    1 ≤ columns_to_output env columns_remaining s ∧
    columns_to_output env columns_remaining s ≤ columns_remaining ∧
    (s.pixel_pointer_ : Int) - (s.allocated_pointer_ : Int)
      + columns_to_output env columns_remaining s * s.column_size_ ≤ env.allocation_size := by
  obtain ⟨hcs, hdvd⟩ := hc
  obtain ⟨-, -, -, -, hle, hlt, hoff⟩ := hf
  have hrem : s.column_size_ ∣
      ((s.allocated_pointer_ : Int) + env.allocation_size - (s.pixel_pointer_ : Int)) := by
    have e : (s.allocated_pointer_ : Int) + env.allocation_size - (s.pixel_pointer_ : Int)
        = env.allocation_size - ((s.pixel_pointer_ : Int) - (s.allocated_pointer_ : Int)) := by
      ring
    rw [e]
    exact dvd_sub hdvd hoff
  obtain ⟨k, hk⟩ := hrem
  have hk1 : 1 ≤ k := by
    by_contra hcon
    have hk0 : k ≤ 0 := by omega
    have := Int.mul_le_mul_of_nonneg_left hk0 (le_of_lt hcs)
    rw [← hk] at this
    omega
  have hdiv : Int.tdiv ((s.allocated_pointer_ : Int) + env.allocation_size
      - (s.pixel_pointer_ : Int)) s.column_size_ = k := by
    rw [Int.tdiv_eq_ediv (by omega) (le_of_lt hcs), hk,
      Int.mul_ediv_cancel_left k (ne_of_gt hcs)]
  unfold columns_to_output
  rw [hdiv]
  refine ⟨le_min (by omega) hk1, min_le_left _ _, ?_⟩
  have h1 : min columns_remaining k * s.column_size_ ≤ k * s.column_size_ :=
    Int.mul_le_mul_of_nonneg_right (min_le_right _ _) (le_of_lt hcs)
  have h2 : k * s.column_size_ = s.column_size_ * k := Int.mul_comm _ _
  omega

theorem output_pixels_spec (env : Env) (output_duration : Int) (s : State)
    (hf : Filling env s) (hcs : 0 < s.column_size_) (h1 : 1 ≤ output_duration)
    (hle : (s.pixel_pointer_ : Int) - (s.allocated_pointer_ : Int)
      + output_duration * s.column_size_ ≤ env.allocation_size) :
    BufferOK env (output_pixels env output_duration s) ∧
    SameLine s (output_pixels env output_duration s) ∧
    (output_pixels env output_duration s).is_sync_or_pixels_ = s.is_sync_or_pixels_ ∧
    (output_pixels env output_duration s).output_type_ = .Pixels := by
  obtain ⟨hp, ha, ht, hd, hap, hlt, hdvd⟩ := hf
  have hnn : 0 ≤ output_duration * s.column_size_ :=
    Int.mul_nonneg (by omega) (le_of_lt hcs)
  have hcast : (((s.pixel_pointer_ : Int) + output_duration * s.column_size_).toNat : Int)
      = (s.pixel_pointer_ : Int) + output_duration * s.column_size_ :=
    Int.toNat_of_nonneg (by omega)
  unfold output_pixels
  dsimp only
  by_cases hfull : (((advance_pixels output_duration s).pixel_pointer_ : Nat) : Int)
      - ((advance_pixels output_duration s).allocated_pointer_ : Int) = env.allocation_size
  · rw [if_pos hfull]
    refine ⟨?_, (?_ : SameLine s (advance_pixels output_duration s)).trans
      (set_output_type_sameLine env _ _ _), by simp, by simp⟩
    · refine BufferOK_of_null env _ ?_
      rw [set_output_type_change env _ _ _ (by simp)]
      have hd' : (advance_pixels output_duration s).output_duration_ ≠ 0 := by
        rw [advance_pixels_output_duration_]; omega
      simp only [ne_eq, hd', not_false_eq_true, if_true]
      unfold flush_run
      simp only [advance_pixels_output_type_, ht]
    · exact ⟨by simp, by simp, by simp, by simp⟩
  · rw [if_neg hfull]
    refine ⟨?_, ⟨by simp, by simp, by simp, by simp⟩, by simp, by simp [ht]⟩
    rw [advance_pixels_pixel_pointer_, advance_pixels_allocated_pointer_, hcast] at hfull
    intro _
    simp only [advance_pixels_pixel_pointer_, advance_pixels_allocated_pointer_,
      advance_pixels_output_type_, advance_pixels_output_duration_, advance_pixels_column_size_,
      hcast]
    refine ⟨ha, ht, by omega, by omega, by omega, ?_⟩
    have e : (s.pixel_pointer_ : Int) + output_duration * s.column_size_
        - (s.allocated_pointer_ : Int)
        = ((s.pixel_pointer_ : Int) - (s.allocated_pointer_ : Int))
          + output_duration * s.column_size_ := by ring
    rw [e]
    exact dvd_add hdvd (dvd_mul_left _ _)

end Enterprise

namespace Enterprise

theorem skip_columns_spec (env : Env) (columns_remaining : Int) (s : State)
    (hp : s.pixel_pointer_ = 0) :
    BufferOK env (skip_columns columns_remaining s) ∧
    SameLine s (skip_columns columns_remaining s) :=
  ⟨BufferOK_of_null env _ (by simp [hp]), ⟨by simp, by simp, by simp, by simp⟩⟩

theorem pixel_loop_spec (env : Env) (hA : env.AllocationOK) :
    ∀ (fuel : Nat) (columns_remaining : Int) (s : State),
      0 ≤ columns_remaining → columns_remaining.toNat < fuel →
      BufferOK env s → ColumnSizeOK env s → s.output_type_ = .Pixels →
      ∃ s', pixel_loop env fuel columns_remaining s = some s' ∧ BufferOK env s' ∧
        SameLine s s' ∧ s'.is_sync_or_pixels_ = s.is_sync_or_pixels_ ∧
        s'.output_type_ = .Pixels := by
  intro fuel
  induction fuel with
  | zero => intro columns_remaining s _ hf; exact absurd hf (Nat.not_lt_zero _)
  | succ fuel ih =>
    intro columns_remaining s hcols hf hb hc ht
    unfold pixel_loop
    by_cases hz : columns_remaining = 0
    · rw [if_neg (by simpa using hz)]
      exact ⟨s, rfl, hb, SameLine.refl s, rfl, ht⟩
    · rw [if_pos hz]
      dsimp only
      obtain ⟨hl1, hi1, ht1, hcase⟩ := allocate_pixels_spec env hA s hb ht
      have hc1 : ColumnSizeOK env (allocate_pixels env s) :=
        ColumnSizeOK_congr env s _ hl1.column hc
      rcases hcase with ⟨ha0, hp0⟩ | hfill
      · rw [if_neg (by simpa using ha0)]
        obtain ⟨hb2, hl2⟩ := skip_columns_spec env columns_remaining _ hp0
        obtain ⟨s', heq, hb', hl', hi', ht'⟩ := ih 0 (skip_columns columns_remaining
          (allocate_pixels env s)) (le_refl 0) (by omega) hb2
          (ColumnSizeOK_congr env _ _ hl2.column hc1) (by simp [ht1])
        exact ⟨s', heq, hb', (hl1.trans hl2).trans hl', by rw [hi']; simp [hi1], ht'⟩
      · rw [if_pos hfill.2.1, if_neg (ne_of_gt hc1.1)]
        obtain ⟨ho1, ho2, ho3⟩ := columns_to_output_bounds env columns_remaining _ hc1 hfill
          (by omega)
        obtain ⟨hb2, hl2, hi2, ht2⟩ := output_pixels_spec env _ _ hfill hc1.1 ho1 ho3
        obtain ⟨s', heq, hb', hl', hi', ht'⟩ := ih
          (columns_remaining - columns_to_output env columns_remaining (allocate_pixels env s))
          (output_pixels env (columns_to_output env columns_remaining (allocate_pixels env s))
            (allocate_pixels env s))
          (by omega) (by omega) hb2 (ColumnSizeOK_congr env _ _ hl2.column hc1) ht2
        exact ⟨s', heq, hb', (hl1.trans hl2).trans hl', by rw [hi', hi2, hi1], ht'⟩

theorem end_event_spec (env : Env) (next : Int) (s : State) (hb : BufferOK env s) :
    BufferOK env (end_event env next s) ∧ SameLine s (end_event env next s) ∧
    PixelsDue (end_event env next s) := by
  unfold end_event
  dsimp only
  refine ⟨set_output_type_buffer env _ _ _ (check_margins_buffer env _ _ hb),
    ⟨by simp, by simp, by simp, by simp⟩, ?_⟩
  intro h
  rw [set_output_type_is_sync_or_pixels_] at h
  rw [set_output_type_output_type_, if_pos h]

theorem display_loop_spec (env : Env) (hA : env.AllocationOK) :
    ∀ (fuel : Nat) (window end_window : Int) (s : State),
      (end_window - window).toNat + 1 < fuel →
      BufferOK env s → ColumnSizeOK env s → PixelsDue s →
      ∃ s', display_loop env fuel window end_window s = some s' ∧ BufferOK env s' ∧
        SameLine s s' ∧ PixelsDue s' := by
  intro fuel
  induction fuel with
  | zero => intro window end_window s hf; exact absurd hf (Nat.not_lt_zero _)
  | succ fuel ih =>
    intro window end_window s hf hb hc hd
    unfold display_loop
    by_cases hcond : window < end_window
    · rw [if_pos hcond]
      dsimp only
      have hn := next_event_bounds window end_window s hcond
      by_cases hi : s.is_sync_or_pixels_ = true
      · rw [if_pos hi]
        obtain ⟨s1, heq1, hb1, hl1, -, -⟩ := pixel_loop_spec env hA fuel
          (next_event window end_window s - window) s (by omega) (by omega) hb hc (hd hi)
        rw [heq1]
        dsimp only
        obtain ⟨hb2, hl2, hd2⟩ := end_event_spec env (next_event window end_window s) s1 hb1
        obtain ⟨s', heq, hb', hl', hd'⟩ := ih (next_event window end_window s) end_window
          (end_event env (next_event window end_window s) s1) (by omega) hb2
          (ColumnSizeOK_congr env s _ (hl1.trans hl2).column hc) hd2
        exact ⟨s', heq, hb', (hl1.trans hl2).trans hl', hd'⟩
      · rw [if_neg hi]
        dsimp only
        have hb1 := BufferOK_add_duration env s (next_event window end_window s - window)
          (by omega) hb
        obtain ⟨hb2, hl2, hd2⟩ := end_event_spec env (next_event window end_window s) _ hb1
        have hl1 : SameLine s { s with output_duration_ := s.output_duration_
            + (next_event window end_window s - window) } := ⟨rfl, rfl, rfl, rfl⟩
        obtain ⟨s', heq, hb', hl', hd'⟩ := ih (next_event window end_window s) end_window
          (end_event env (next_event window end_window s) { s with output_duration_ :=
            s.output_duration_ + (next_event window end_window s - window) }) (by omega) hb2
          (ColumnSizeOK_congr env s _ (hl1.trans hl2).column hc) hd2
        exact ⟨s', heq, hb', (hl1.trans hl2).trans hl', hd'⟩
    · rw [if_neg hcond]
      exact ⟨s, rfl, hb, SameLine.refl s, hd⟩

end Enterprise

namespace Enterprise

/-! ### A whole line, and `run_for` -/

theorem run_windows_spec (env : Env) (hA : env.AllocationOK) (fuel : Nat)
    (window end_window : Int) (s : State)
    (hw : 0 ≤ window) (hlt : window < end_window) (he : end_window ≤ 57) (hf : 59 ≤ fuel)
    (hb : BufferOK env s)
    (hc : ColumnSizeOK env s ∨ (window = 0 ∧ s.should_reload_line_parameters_ = true))
    (hd : 10 < window → s.mode_ ≠ .Vsync → PixelsDue s) :
    ∃ s', run_windows env fuel window end_window s = some s' ∧ BufferOK env s' ∧
      ColumnSizeOK env s' ∧ s'.horizontal_counter_ = s.horizontal_counter_ ∧
      s'.end_of_line_steps = s.end_of_line_steps ∧
      (10 ≤ end_window → s'.mode_ ≠ .Vsync → PixelsDue s') := by
  unfold run_windows
  dsimp only
  -- the Sync at window 0
  have hb0 : BufferOK env (if window = 0 then set_output_type env .Sync false s else s) := by
    split_ifs
    · exact set_output_type_buffer env _ _ _ hb
    · exact hb
  have hp0 : window = 0 →
      (if window = 0 then set_output_type env .Sync false s else s).pixel_pointer_ = 0 := by
    intro h0
    by_contra hne
    have := (hb0 hne).2.1
    rw [if_pos h0, set_output_type_output_type_] at this
    exact OutputType.noConfusion this
  have hc0 : ColumnSizeOK env (if window = 0 then set_output_type env .Sync false s else s) ∨
      (window = 0 ∧ (if window = 0 then set_output_type env .Sync false s
        else s).should_reload_line_parameters_ = true) := by
    rcases hc with hc | ⟨h0, hr⟩
    · left
      refine ColumnSizeOK_congr env s _ ?_ hc
      split_ifs <;> simp
    · right
      refine ⟨h0, ?_⟩
      rw [if_pos h0, set_output_type_should_reload_line_parameters_]
      exact hr
  have hs0 : window ≠ 0 → (if window = 0 then set_output_type env .Sync false s else s) = s :=
    fun h => if_neg h
  have hh0 : (if window = 0 then set_output_type env .Sync false s else s).horizontal_counter_
      = s.horizontal_counter_ := by split_ifs <;> simp
  have he0 : (if window = 0 then set_output_type env .Sync false s else s).end_of_line_steps
      = s.end_of_line_steps := by split_ifs <;> simp
  generalize (if window = 0 then set_output_type env .Sync false s else s) = s0 at *
  -- the line parameters
  obtain ⟨w1, s1, heq1, hb1, hc1, hh1, he1, -, hw1, hx1⟩ :=
    line_parameter_loop_spec env hA fuel window end_window s0 hw (by omega) hb0 hc0 hp0
  rw [heq1]
  dsimp only
  have hc1 := hc1 hlt
  -- window 4
  obtain ⟨hb2, hl2, hi2, hs2⟩ := window_4_spec env w1 s1 hb1
  have hc2 : ColumnSizeOK env (window_4 env w1 s1) := ColumnSizeOK_congr env s1 _ hl2.column hc1
  have hw1' : window ≤ w1 ∧ w1 ≤ end_window := by
    rcases hw1 with ⟨h, -⟩ | ⟨h1, h2, h3⟩ <;> omega
  by_cases hm : (window_4 env w1 s1).mode_ = .Vsync
  · rw [if_pos hm]
    by_cases h4 : w1 ≥ 4
    · rw [if_pos h4]
      obtain ⟨s', heq, hb', hl'⟩ := vsync_loop_spec env fuel w1 end_window _ (by omega) hb2
      refine ⟨s', heq, hb', ColumnSizeOK_congr env _ _ hl'.column hc2,
        by rw [hl'.counter, hl2.counter, hh1, hh0], by rw [hl'.steps, hl2.steps, he1, he0],
        fun _ hne => absurd (hl'.mode.trans hm) hne⟩
    · rw [if_neg h4]
      exact ⟨_, rfl, hb2, hc2, by rw [hl2.counter, hh1, hh0], by rw [hl2.steps, he1, he0],
        fun _ hne => absurd hm hne⟩
  · rw [if_neg hm]
    obtain ⟨w3, s3, heq3, hb3, hl3, hi3, hw3, hx3⟩ :=
      burst_loop_spec env fuel w1 end_window (window_4 env w1 s1) (by omega) hb2
    rw [heq3]
    dsimp only
    have hc3 : ColumnSizeOK env s3 := ColumnSizeOK_congr env _ _ hl3.column hc2
    have hw3' : w1 ≤ w3 ∧ w3 ≤ end_window := by
      rcases hw3 with ⟨h, -⟩ | ⟨h1, h2, h3⟩ <;> omega
    by_cases h10 : w3 ≥ 10
    · rw [if_pos h10]
      have hb4 : BufferOK env (if w3 = 10 then set_output_type env
          (if s3.is_sync_or_pixels_ = true then .Pixels else .Border) false s3 else s3) := by
        split_ifs <;> first | exact set_output_type_buffer env _ _ _ hb3 | exact hb3
      have hl4 : SameLine s3 (if w3 = 10 then set_output_type env
          (if s3.is_sync_or_pixels_ = true then .Pixels else .Border) false s3 else s3) := by
        split_ifs <;> first | exact set_output_type_sameLine env _ _ _ | exact SameLine.refl _
      have hd4 : PixelsDue (if w3 = 10 then set_output_type env
          (if s3.is_sync_or_pixels_ = true then .Pixels else .Border) false s3 else s3) := by
        by_cases h : w3 = 10
        · rw [if_pos h]
          intro hi
          rw [set_output_type_is_sync_or_pixels_] at hi
          rw [set_output_type_output_type_, if_pos hi]
        · rw [if_neg h]
          -- no step has run: the state is the one the line was entered with
          have e3 : w3 = w1 ∧ s3 = window_4 env w1 s1 := by
            rcases hw3 with h' | ⟨h1, h2, h3⟩
            · exact h'
            · omega
          have e1 : w1 = window ∧ s1 = s0 := by
            rcases hw1 with h' | ⟨h1, h2, h3⟩
            · exact h'
            · omega
          have e2 : window_4 env w1 s1 = s1 := hs2 (by omega)
          have e0 : s0 = s := hs0 (by omega)
          have es : s3 = s := by rw [e3.2, e2, e1.2, e0]
          rw [es]
          refine hd (by omega) ?_
          rw [← es, e3.2]
          exact hm
      obtain ⟨s', heq, hb', hl', hd'⟩ := display_loop_spec env hA fuel w3 end_window _
        (by omega) hb4 (ColumnSizeOK_congr env _ _ hl4.column hc3) hd4
      exact ⟨s', heq, hb', ColumnSizeOK_congr env _ _ (hl4.trans hl').column hc3,
        by rw [hl'.counter, hl4.counter, hl3.counter, hl2.counter, hh1, hh0],
        by rw [hl'.steps, hl4.steps, hl3.steps, hl2.steps, he1, he0], fun _ _ => hd'⟩
    · rw [if_neg h10]
      refine ⟨s3, rfl, hb3, hc3, by rw [hl3.counter, hl2.counter, hh1, hh0],
        by rw [hl3.steps, hl2.steps, he1, he0], fun h _ => ?_⟩
      exfalso
      apply hx3
      constructor <;> omega

end Enterprise

namespace Enterprise

theorem end_of_line_buffer (env : Env) (s : State) (h : BufferOK env s) :
    BufferOK env (end_of_line s) :=
  BufferOK_congr env s _ (by simp) (by simp) (by simp) (by simp) (by simp) h

theorem run_for_loop_spec (env : Env) (hA : env.AllocationOK) :
    ∀ (fuel : Nat) (clocks_remaining : Int) (s : State),
      0 ≤ clocks_remaining → clocks_remaining.toNat + 60 ≤ fuel → Consistent env s →
      ∃ s', run_for_loop env fuel clocks_remaining s = some s' ∧ Consistent env s' ∧
        s'.horizontal_counter_ = (s.horizontal_counter_ + clocks_remaining) % 912 ∧
        s'.end_of_line_steps
          = s.end_of_line_steps + ((s.horizontal_counter_ + clocks_remaining) / 912).toNat := by
  intro fuel
  induction fuel with
  | zero => intro clocks_remaining s _ hf; omega
  | succ fuel ih =>
    intro clocks_remaining s hcr hf hs
    obtain ⟨h0, h912, hb, hc, hd⟩ := hs
    unfold line_length at h912
    unfold run_for_loop
    by_cases hz : clocks_remaining = 0
    · rw [if_neg (by simpa using hz)]
      refine ⟨s, rfl, ⟨h0, h912, hb, hc, hd⟩, ?_, ?_⟩
      · rw [hz]; omega
      · rw [hz]; omega
    · rw [if_pos hz]
      dsimp only
      simp only [Int.shiftRight_eq_div_pow, line_length]
      norm_num only
      have hmin : min clocks_remaining (912 - s.horizontal_counter_) ≥ 1 :=
        le_min (by omega) (by omega)
      have hmin1 := min_le_left clocks_remaining (912 - s.horizontal_counter_)
      have hmin2 := min_le_right clocks_remaining (912 - s.horizontal_counter_)
      have hmin3 : min clocks_remaining (912 - s.horizontal_counter_) = clocks_remaining ∨
          min clocks_remaining (912 - s.horizontal_counter_) = 912 - s.horizontal_counter_ :=
        min_choice _ _
      generalize min clocks_remaining (912 - s.horizontal_counter_) = ctl at *
      have hmod : Int.tmod (s.horizontal_counter_ + ctl) 912 = (s.horizontal_counter_ + ctl) % 912 :=
        Int.tmod_eq_emod (by omega) (by decide)
      rw [hmod]
      by_cases hwe : s.horizontal_counter_ / 16 = (s.horizontal_counter_ + ctl) / 16
      · rw [if_pos hwe]
        have hs1 : Consistent env
            { s with horizontal_counter_ := (s.horizontal_counter_ + ctl) % 912 } := by
          refine ⟨?_, ?_, hb, ?_, ?_⟩
          · show 0 ≤ (s.horizontal_counter_ + ctl) % 912
            omega
          · show (s.horizontal_counter_ + ctl) % 912 < 912
            omega
          · rcases hc with hc | ⟨hr, h16⟩
            · exact Or.inl hc
            · refine Or.inr ⟨hr, ?_⟩
              show (s.horizontal_counter_ + ctl) % 912 < 16
              omega
          · intro h176
            have h176' : 176 ≤ (s.horizontal_counter_ + ctl) % 912 := h176
            exact hd (by omega)
        obtain ⟨s', heq, hs', hh', he'⟩ := ih (clocks_remaining - ctl) _ (by omega) (by omega) hs1
        refine ⟨s', heq, hs', ?_, ?_⟩
        · rw [hh']
          show ((s.horizontal_counter_ + ctl) % 912 + (clocks_remaining - ctl)) % 912 = _
          omega
        · rw [he']
          show s.end_of_line_steps
            + (((s.horizontal_counter_ + ctl) % 912 + (clocks_remaining - ctl)) / 912).toNat = _
          omega
      · rw [if_neg hwe]
        obtain ⟨s2, heq2, hb2, hc2, hh2, he2, hd2⟩ := run_windows_spec env hA fuel
          (s.horizontal_counter_ / 16) ((s.horizontal_counter_ + ctl) / 16)
          { s with horizontal_counter_ := (s.horizontal_counter_ + ctl) % 912 }
          (by omega) (by omega) (by omega) (by omega) hb
          (by
            rcases hc with hc | ⟨hr, h16⟩
            · exact Or.inl hc
            · exact Or.inr ⟨by omega, hr⟩)
          (fun h10 => hd (by omega))
        rw [heq2]
        dsimp only
        have hh2' : s2.horizontal_counter_ = (s.horizontal_counter_ + ctl) % 912 := hh2
        have he2' : s2.end_of_line_steps = s.end_of_line_steps := he2
        have hs3 : Consistent env (end_of_line s2) := by
          refine ⟨?_, ?_, end_of_line_buffer env s2 hb2, Or.inl ?_, ?_⟩
          · rw [end_of_line_horizontal_counter_, hh2']; omega
          · rw [end_of_line_horizontal_counter_, hh2']
            show (s.horizontal_counter_ + ctl) % 912 < 912
            omega
          · exact ColumnSizeOK_congr env s2 _ (by simp) hc2
          · rw [end_of_line_horizontal_counter_, end_of_line_mode_, hh2']
            intro h176 hm
            have := hd2 (by omega) hm
            intro hi
            rw [end_of_line_is_sync_or_pixels_] at hi
            rw [end_of_line_output_type_]
            exact this hi
        obtain ⟨s', heq, hs', hh', he'⟩ := ih (clocks_remaining - ctl) _ (by omega) (by omega) hs3
        refine ⟨s', heq, hs', ?_, ?_⟩
        · rw [hh', end_of_line_horizontal_counter_, hh2']
          omega
        · rw [he', end_of_line_horizontal_counter_, end_of_line_end_of_line_steps, hh2', he2']
          split_ifs with h0'
          · omega
          · omega

end Enterprise

namespace Enterprise

/-! ### More rounds never change a result -/

theorem line_parameter_loop_mono (env : Env) :
    ∀ (fuel : Nat) (window end_window : Int) (s : State) (r : Int × State),
      line_parameter_loop env fuel window end_window s = some r →
      line_parameter_loop env (fuel + 1) window end_window s = some r := by
  intro fuel
  induction fuel with
  | zero => intro window end_window s r h; exact Option.noConfusion h
  | succ fuel ih =>
    intro window end_window s r h
    unfold line_parameter_loop at h ⊢
    split_ifs at h ⊢ with hc
    · exact ih _ _ _ _ h
    · exact h

theorem vsync_loop_mono (env : Env) :
    ∀ (fuel : Nat) (window end_window : Int) (s : State) (r : State),
      vsync_loop env fuel window end_window s = some r →
      vsync_loop env (fuel + 1) window end_window s = some r := by
  intro fuel
  induction fuel with
  | zero => intro window end_window s r h; exact Option.noConfusion h
  | succ fuel ih =>
    intro window end_window s r h
    unfold vsync_loop at h ⊢
    split_ifs at h ⊢ with hc
    · exact ih _ _ _ _ h
    · exact h

theorem burst_loop_mono (env : Env) :
    ∀ (fuel : Nat) (window end_window : Int) (s : State) (r : Int × State),
      burst_loop env fuel window end_window s = some r →
      burst_loop env (fuel + 1) window end_window s = some r := by
  intro fuel
  induction fuel with
  | zero => intro window end_window s r h; exact Option.noConfusion h
  | succ fuel ih =>
    intro window end_window s r h
    unfold burst_loop at h ⊢
    split_ifs at h ⊢ with hc
    · exact ih _ _ _ _ h
    · exact h

theorem pixel_loop_mono (env : Env) :
    ∀ (fuel : Nat) (columns_remaining : Int) (s : State) (r : State),
      pixel_loop env fuel columns_remaining s = some r →
      pixel_loop env (fuel + 1) columns_remaining s = some r := by
  intro fuel
  induction fuel with
  | zero => intro columns_remaining s r h; exact Option.noConfusion h
  | succ fuel ih =>
    intro columns_remaining s r h
    unfold pixel_loop at h ⊢
    dsimp only at h ⊢
    split_ifs at h ⊢ with h1 h2 h3
    · exact ih _ _ _ h
    · exact ih _ _ _ h
    · exact h

theorem display_loop_mono (env : Env) :
    ∀ (fuel : Nat) (window end_window : Int) (s : State) (r : State),
      display_loop env fuel window end_window s = some r →
      display_loop env (fuel + 1) window end_window s = some r := by
  intro fuel
  induction fuel with
  | zero => intro window end_window s r h; exact Option.noConfusion h
  | succ fuel ih =>
    intro window end_window s r h
    unfold display_loop at h ⊢
    by_cases hc : window < end_window
    · rw [if_pos hc] at h ⊢
      dsimp only at h ⊢
      by_cases hi : s.is_sync_or_pixels_ = true
      · rw [if_pos hi] at h ⊢
        cases hp : pixel_loop env fuel (next_event window end_window s - window) s with
        | none => rw [hp] at h; exact Option.noConfusion h
        | some s1 =>
          rw [hp] at h
          rw [pixel_loop_mono env fuel _ _ _ hp]
          exact ih _ _ _ _ h
      · rw [if_neg hi] at h ⊢
        exact ih _ _ _ _ h
    · rw [if_neg hc] at h ⊢
      exact h

theorem run_windows_mono (env : Env) (fuel : Nat) (window end_window : Int) (s r : State)
    (h : run_windows env fuel window end_window s = some r) :
    run_windows env (fuel + 1) window end_window s = some r := by
  unfold run_windows at h ⊢
  dsimp only at h ⊢
  cases h1 : line_parameter_loop env fuel window end_window
      (if window = 0 then set_output_type env .Sync false s else s) with
  | none => rw [h1] at h; exact Option.noConfusion h
  | some p1 =>
    rw [h1] at h
    rw [line_parameter_loop_mono env fuel _ _ _ _ h1]
    dsimp only at h ⊢
    split_ifs at h ⊢ with hm h4
    · exact vsync_loop_mono env fuel _ _ _ _ h
    · exact h
    · cases h3 : burst_loop env fuel p1.1 end_window (window_4 env p1.1 p1.2) with
      | none => rw [h3] at h; exact Option.noConfusion h
      | some p3 =>
        rw [h3] at h
        rw [burst_loop_mono env fuel _ _ _ _ h3]
        dsimp only at h ⊢
        split_ifs at h ⊢
        all_goals first
          | exact h
          | exact display_loop_mono env fuel _ _ _ _ h

theorem run_for_loop_mono (env : Env) :
    ∀ (fuel : Nat) (clocks_remaining : Int) (s : State) (r : State),
      run_for_loop env fuel clocks_remaining s = some r →
      run_for_loop env (fuel + 1) clocks_remaining s = some r := by
  intro fuel
  induction fuel with
  | zero => intro clocks_remaining s r h; exact Option.noConfusion h
  | succ fuel ih =>
    intro clocks_remaining s r h
    unfold run_for_loop at h ⊢
    dsimp only at h ⊢
    split_ifs at h ⊢ with hc hw
    · exact ih _ _ _ h
    · generalize hs1 : ({ s with horizontal_counter_ := Int.tmod (s.horizontal_counter_
        + min clocks_remaining (line_length - s.horizontal_counter_)) line_length } : State)
        = s1 at h ⊢
      cases h2 : run_windows env fuel (s.horizontal_counter_ >>> (4 : Nat))
          ((s.horizontal_counter_ + min clocks_remaining (line_length - s.horizontal_counter_))
            >>> (4 : Nat)) s1 with
      | none => rw [h2] at h; exact Option.noConfusion h
      | some s2 =>
        rw [h2] at h
        rw [run_windows_mono env fuel _ _ _ _ h2]
        exact ih _ _ _ h
    · exact h

theorem run_for_mono (env : Env) (fuel fuel' : Nat) (duration : Int) (s r : State)
    (hle : fuel ≤ fuel') (h : run_for env fuel duration s = some r) :
    run_for env fuel' duration s = some r := by
  induction fuel' with
  | zero =>
    have : fuel = 0 := by omega
    rw [this] at h
    exact h
  | succ n ih =>
    by_cases hn : fuel ≤ n
    · exact run_for_loop_mono env n duration s r (ih hn)
    · have : fuel = n + 1 := by omega
      rw [this] at h
      exact h

end Enterprise

namespace Enterprise

theorem start_state_consistent : Consistent example_env start_state :=
  ⟨by decide, by decide, BufferOK_of_null _ _ rfl, Or.inr ⟨rfl, by decide⟩,
    fun h => absurd h (by decide)⟩

end Enterprise

namespace Enterprise

set_option maxRecDepth 100000 in
/-- C14, evaluated on the code: the source `0x49` has all of bits 0, 3 and 6 set, the
maximum red field 7, yet the red channel (low nibble of the first byte) is 14; no source
gives more than 14 there, because `(red & 0x4) >> 3` is always 0. The other two channels
do reach 15: green (high nibble of the second byte) for `0x92` and blue (low nibble of
the second byte) for `0x24`; and every channel is 0 for the source 0. -/
theorem mapped_colour_red_stops_at_14 :
    (mapped_colour 0x49).1 = 14 ∧
    (∀ source, source < 256 → (mapped_colour source).1 ≤ 14) ∧
    (mapped_colour 0x92).2 / 16 = 15 ∧
    (mapped_colour 0x24).2 % 16 = 15 ∧
    mapped_colour 0 = (0, 0) := by
  refine ⟨by decide, ?_, by decide, by decide, by decide⟩
  intro source hs
  have h : ∀ s : Fin 256, (mapped_colour s.val).1 ≤ 14 := by decide
  exact h ⟨source, hs⟩

end Enterprise

namespace Enterprise

/-- The test `(value ^ line_parameter_control_) & value & 0x80` of `Nick::write` is
non-zero exactly when bit 7 is set in the value and clear in the stored control. -/
theorem restart_test_iff (value control : Nat) :
    ((value ^^^ control) &&& value &&& 0x80) ≠ 0
      ↔ (value.testBit 7 = true ∧ control.testBit 7 = false) := by
  have h : ((value ^^^ control) &&& value &&& 0x80)
      = (((value ^^^ control) &&& value).testBit 7).toNat * 2 ^ 7 :=
    Nat.and_two_pow _ 7
  rw [h, Nat.testBit_and, Nat.testBit_xor]
  cases value.testBit 7 <;> cases control.testBit 7 <;> simp

theorem and_c0_testBit_7 (value : Nat) : (value &&& 0xc0).testBit 7 = value.testBit 7 := by
  rw [Nat.testBit_and]
  have : (0xc0 : Nat).testBit 7 = true := by decide
  rw [this, Bool.and_true]

/-- C17: a write to register 3 sets `lines_remaining_ = 0xff` and
`should_reload_line_parameters_ = true` when bit 7 of the value is set and bit 7 of the
stored `line_parameter_control_` was clear, and leaves both as they were otherwise; in
every case `line_parameter_control_` becomes `value & 0xc0`, and a second write of the
same value changes neither field. -/
theorem write_register_3_restarts_on_rising_bit_7 (env : Env) (address value : Nat)
    (s : State) (ha : address &&& 3 = 3) :
    ((value.testBit 7 = true ∧ s.line_parameter_control_.testBit 7 = false) →
      (write env address value s).lines_remaining_ = 0xff ∧
      (write env address value s).should_reload_line_parameters_ = true) ∧
    (¬ (value.testBit 7 = true ∧ s.line_parameter_control_.testBit 7 = false) →
      (write env address value s).lines_remaining_ = s.lines_remaining_ ∧
      (write env address value s).should_reload_line_parameters_
        = s.should_reload_line_parameters_) ∧
    (write env address value s).line_parameter_control_ = value &&& 0xc0 ∧
    (write env address value (write env address value s)).lines_remaining_
      = (write env address value s).lines_remaining_ ∧
    (write env address value (write env address value s)).should_reload_line_parameters_
      = (write env address value s).should_reload_line_parameters_ ∧
    (write env address value (write env address value s)).line_parameter_control_
      = value &&& 0xc0 := by
  have hw : ∀ s : State,
      (¬ (value.testBit 7 = true ∧ s.line_parameter_control_.testBit 7 = false) →
        (write env address value s).lines_remaining_ = s.lines_remaining_ ∧
        (write env address value s).should_reload_line_parameters_
          = s.should_reload_line_parameters_) ∧
      ((value.testBit 7 = true ∧ s.line_parameter_control_.testBit 7 = false) →
        (write env address value s).lines_remaining_ = 0xff ∧
        (write env address value s).should_reload_line_parameters_ = true) ∧
      (write env address value s).line_parameter_control_ = value &&& 0xc0 := by
    intro s
    unfold write
    rw [if_neg (by omega), if_neg (by omega), if_neg (by omega)]
    dsimp only
    refine ⟨?_, ?_, ?_⟩
    · intro hc
      rw [if_neg (by rw [restart_test_iff]; exact hc)]
      exact ⟨rfl, rfl⟩
    · intro hc
      rw [if_pos ((restart_test_iff _ _).mpr hc)]
      exact ⟨rfl, rfl⟩
    · rfl
  obtain ⟨h1, h2, h3⟩ := hw s
  have hnot : ¬ (value.testBit 7 = true ∧
      (write env address value s).line_parameter_control_.testBit 7 = false) := by
    rw [h3, and_c0_testBit_7]
    cases value.testBit 7 <;> simp
  obtain ⟨k1, -, k3⟩ := hw (write env address value s)
  exact ⟨h2, h1, h3, (k1 hnot).1, (k1 hnot).2, k3⟩

/-- A witness of C17: after `0x00` was written to address 3 of the start state the
stored control is 0, and writing `0x80` to the same address then restarts. -/
theorem write_register_3_restarts_on_rising_bit_7_witness :
    (3 &&& 3 = 3) ∧
    (write example_env 3 0x80 (write example_env 3 0x00 start_state)).lines_remaining_
      = 0xff ∧
    (write example_env 3 0x80
      (write example_env 3 0x00 start_state)).should_reload_line_parameters_ = true :=
  ⟨by decide,
   (write_register_3_restarts_on_rising_bit_7 example_env 3 0x80
      (write example_env 3 0x00 start_state) (by decide)).1 ⟨by decide, by decide⟩⟩

end Enterprise

namespace Enterprise

set_option maxRecDepth 100000 in
/-- C18, evaluated on the code: with `interrupt_env`, running the start state for one
line of 912 cycles leaves the raster at the start of a line whose parameters are to be
reloaded, with the interrupt line set; `get_next_sequence_point` reports 32 cycles
there, yet `run_for(16)` already loads the new line's interrupt flag and clears the
interrupt line. -/
theorem run_for_changes_interrupt_line_before_sequence_point :
    (run_for interrupt_env 100 912 start_state).map
        (fun s => (s.horizontal_counter_, s.lines_remaining_, s.interrupt_line_,
          get_next_sequence_point s))
      = some (0, 0, true, 32) ∧
    ((run_for interrupt_env 100 912 start_state).bind (run_for interrupt_env 100 16)).map
        (fun s => s.interrupt_line_)
      = some false := by
  constructor <;> decide

end Enterprise

namespace Enterprise

/-! ### The output class of each window -/

theorem window_classes_congr (s s' : State) (hr : s'.runs = s.runs)
    (ht : s'.output_type_ = s.output_type_) (hd : s'.output_duration_ = s.output_duration_) :
    window_classes s' = window_classes s := by
  unfold window_classes
  rw [hr, ht, hd]

theorem window_classes_add (s s' : State) (k : Int) (hk : 0 ≤ k) (h0 : 0 ≤ s.output_duration_)
    (hr : s'.runs = s.runs) (ht : s'.output_type_ = s.output_type_)
    (hd : s'.output_duration_ = s.output_duration_ + k) :
    window_classes s' = window_classes s ++ List.replicate k.toNat s.output_type_ := by
  unfold window_classes
  rw [hr, ht, hd, List.append_assoc, ← List.replicate_add]
  congr 2
  omega

theorem set_output_type_window_classes (env : Env) (type : OutputType) (force_flush : Bool)
    (s : State) : window_classes (set_output_type env type force_flush s) = window_classes s := by
  by_cases h : type = s.output_type_ ∧ force_flush = false
  · rw [set_output_type_same env type force_flush s h]
  · rw [set_output_type_change env type force_flush s h]
    by_cases hd : s.output_duration_ = 0
    · simp [window_classes, hd]
    · obtain ⟨r, hr, hrt, hrl⟩ := flush_run_runs env s
      simp only [window_classes, ne_eq, hd, not_false_eq_true, if_true, hr, Int.toNat_zero,
        List.replicate_zero, List.append_nil, List.flatMap_append, List.flatMap_cons,
        List.flatMap_nil, Run.windows, hrt, hrl]
      congr 2
      omega

theorem set_output_type_duration_nonneg (env : Env) (type : OutputType) (force_flush : Bool)
    (s : State) (h0 : 0 ≤ s.output_duration_) :
    0 ≤ (set_output_type env type force_flush s).output_duration_ := by
  by_cases h : type = s.output_type_ ∧ force_flush = false
  · rw [set_output_type_same env type force_flush s h]; exact h0
  · rw [set_output_type_change env type force_flush s h]

theorem Grows.same (s : State) : Grows s s := ⟨⟨[], by simp⟩, fun h => h⟩

theorem Grows.andThen {s s' s'' : State} (h : Grows s s') (h' : Grows s' s'') : Grows s s'' := by
  obtain ⟨⟨L, hL⟩, hd⟩ := h
  obtain ⟨⟨L', hL'⟩, hd'⟩ := h'
  exact ⟨⟨L ++ L', by rw [hL', hL, List.append_assoc]⟩, fun h0 => hd' (hd h0)⟩

theorem Grows_of_congr (s s' : State) (hr : s'.runs = s.runs)
    (ht : s'.output_type_ = s.output_type_) (hd : s'.output_duration_ = s.output_duration_) :
    Grows s s' :=
  ⟨⟨[], by rw [window_classes_congr s s' hr ht hd]; simp⟩, fun h => by rw [hd]; exact h⟩

theorem Grows_of_add (s s' : State) (k : Int) (hk : 0 ≤ k)
    (hr : s'.runs = s.runs) (ht : s'.output_type_ = s.output_type_)
    (hd : s'.output_duration_ = s.output_duration_ + k) : Grows s s' := by
  refine ⟨⟨List.replicate ((s.output_duration_ + k).toNat - s.output_duration_.toNat)
    s.output_type_, ?_⟩, fun h => by rw [hd]; omega⟩
  unfold window_classes
  rw [hr, ht, hd, List.append_assoc, ← List.replicate_add]
  congr 2
  omega

theorem set_output_type_grows (env : Env) (type : OutputType) (force_flush : Bool)
    (s : State) : Grows s (set_output_type env type force_flush s) :=
  ⟨⟨[], by rw [set_output_type_window_classes]; simp⟩,
    set_output_type_duration_nonneg env type force_flush s⟩

theorem check_margins_grows (window : Int) (s : State) : Grows s (check_margins window s) :=
  Grows_of_congr _ _ (by simp) (by simp) (by simp)

end Enterprise

namespace Enterprise

theorem line_parameter_step_fields (env : Env) (window : Int) (s : State) :
    (line_parameter_step env window s).runs = s.runs ∧
    (line_parameter_step env window s).output_type_ = s.output_type_ ∧
    (line_parameter_step env window s).output_duration_ = s.output_duration_ + 1 ∧
    (window ≠ 0 → (line_parameter_step env window s).mode_ = s.mode_) := by
  unfold line_parameter_step
  by_cases hr : s.should_reload_line_parameters_ = true
  · simp only [hr, if_true]
    refine ⟨by simp, by simp, by simp, fun hw => ?_⟩
    simp only [check_margins_mode_]
    exact (load_slot_column_size_of_ne env window s hw).2
  · simp only [hr, Bool.false_eq_true, if_false]
    exact ⟨by simp, by simp, by simp, fun _ => by simp⟩

theorem line_parameter_loop_fields (env : Env) :
    ∀ (fuel : Nat) (window end_window : Int) (s : State) (w' : Int) (s' : State),
      line_parameter_loop env fuel window end_window s = some (w', s') →
      s'.runs = s.runs ∧ s'.output_type_ = s.output_type_ ∧
      s'.output_duration_ = s.output_duration_ + (w' - window) ∧ window ≤ w' ∧
      (1 ≤ window → s'.mode_ = s.mode_) := by
  intro fuel
  induction fuel with
  | zero => intro window end_window s w' s' h; simp [line_parameter_loop] at h
  | succ fuel ih =>
    intro window end_window s w' s' h
    unfold line_parameter_loop at h
    by_cases hcond : window < 4 ∧ window < end_window
    · rw [if_pos hcond] at h
      obtain ⟨h1, h2, h3, h4, h5⟩ := ih _ _ _ _ _ h
      obtain ⟨k1, k2, k3, k4⟩ := line_parameter_step_fields env window s
      refine ⟨h1.trans k1, h2.trans k2, by rw [h3, k3]; ring, by omega, fun hw => ?_⟩
      rw [h5 (by omega), k4 (by omega)]
    · rw [if_neg hcond] at h
      simp only [Option.some.injEq, Prod.mk.injEq] at h
      obtain ⟨rfl, rfl⟩ := h
      exact ⟨rfl, rfl, by ring, le_refl _, fun _ => rfl⟩

theorem window_4_grows (env : Env) (window : Int) (s : State) :
    window_classes (window_4 env window s) = window_classes s ∧
    (0 ≤ s.output_duration_ → 0 ≤ (window_4 env window s).output_duration_) ∧
    (window_4 env window s).mode_ = s.mode_ ∧
    (window = 4 → s.mode_ ≠ .Vsync → (window_4 env window s).output_type_ = .Blank) ∧
    (window ≠ 4 → window_4 env window s = s) := by
  unfold window_4
  by_cases hw : window = 4
  · rw [if_pos hw]
    by_cases hm : s.mode_ = .Vsync
    · rw [if_pos hm]
      dsimp only
      refine ⟨?_, fun h0 => ?_, ?_, fun _ h => absurd hm h, fun h => absurd hw h⟩
      · rw [set_output_type_window_classes]
        exact window_classes_congr _ _ (by split_ifs <;> rfl) (by split_ifs <;> rfl)
          (by split_ifs <;> rfl)
      · refine set_output_type_duration_nonneg env _ _ _ ?_
        have : ({ (if s.should_reload_line_parameters_ = true then
            { s with line_parameter_pointer_ := (s.line_parameter_pointer_ + 8) % 65536 }
            else s) with should_reload_line_parameters_ := false } : State).output_duration_
            = s.output_duration_ := by split_ifs <;> rfl
        rw [this]; exact h0
      · simp only [set_output_type_mode_]
        split_ifs <;> rfl
    · rw [if_neg hm]
      exact ⟨set_output_type_window_classes env _ _ _,
        set_output_type_duration_nonneg env _ _ _, by simp, fun _ _ => by simp,
        fun h => absurd hw h⟩
  · rw [if_neg hw]
    exact ⟨rfl, fun h => h, rfl, fun h => absurd h hw, fun _ => rfl⟩

theorem vsync_step_grows (env : Env) (window end_window : Int) (s : State)
    (h : window < end_window) : Grows s (vsync_step env window end_window s) := by
  unfold vsync_step
  have hn := next_event_bounds window end_window s h
  dsimp only
  refine Grows.andThen ?_ (set_output_type_grows env _ _ _)
  refine Grows.andThen ?_ (check_margins_grows _ _)
  exact Grows_of_add _ _ (next_event window end_window s - window) (by omega) rfl rfl rfl

theorem vsync_loop_grows (env : Env) :
    ∀ (fuel : Nat) (window end_window : Int) (s s' : State),
      vsync_loop env fuel window end_window s = some s' → Grows s s' := by
  intro fuel
  induction fuel with
  | zero => intro window end_window s s' h; simp [vsync_loop] at h
  | succ fuel ih =>
    intro window end_window s s' h
    unfold vsync_loop at h
    by_cases hcond : window < end_window
    · rw [if_pos hcond] at h
      exact (vsync_step_grows env window end_window s hcond).andThen (ih _ _ _ _ h)
    · rw [if_neg hcond] at h
      simp only [Option.some.injEq] at h
      subst h
      exact Grows.same s

theorem burst_step_fields (env : Env) (window : Int) (s : State) :
    Grows s (burst_step env window s) ∧ (burst_step env window s).mode_ = s.mode_ ∧
    (window ≠ 6 →
      (burst_step env window s).runs = s.runs ∧
      (burst_step env window s).output_type_ = s.output_type_ ∧
      (burst_step env window s).output_duration_ = s.output_duration_ + 1) := by
  unfold burst_step
  refine ⟨?_, ?_, fun hw => ?_⟩
  · refine Grows.andThen (?_ : Grows s (if window = 6 then set_output_type env .ColourBurst false s
      else s)) ?_
    · split_ifs
      · exact set_output_type_grows env _ _ _
      · exact Grows.same s
    · refine Grows_of_add _ _ 1 (by decide) ?_ ?_ ?_ <;>
        (dsimp only; split_ifs <;> simp [load_palette_pair])
  · dsimp only; split_ifs <;> simp [load_palette_pair]
  · rw [if_neg hw]
    refine ⟨?_, ?_, ?_⟩ <;> (dsimp only; split_ifs <;> simp [load_palette_pair])

theorem burst_loop_grows (env : Env) :
    ∀ (fuel : Nat) (window end_window : Int) (s : State) (w' : Int) (s' : State),
      burst_loop env fuel window end_window s = some (w', s') →
      Grows s s' ∧ s'.mode_ = s.mode_ := by
  intro fuel
  induction fuel with
  | zero => intro window end_window s w' s' h; simp [burst_loop] at h
  | succ fuel ih =>
    intro window end_window s w' s' h
    unfold burst_loop at h
    by_cases hcond : window < 10 ∧ window < end_window
    · rw [if_pos hcond] at h
      obtain ⟨h1, h2⟩ := ih _ _ _ _ _ h
      obtain ⟨k1, k2, -⟩ := burst_step_fields env window s
      exact ⟨k1.andThen h1, h2.trans k2⟩
    · rw [if_neg hcond] at h
      simp only [Option.some.injEq, Prod.mk.injEq] at h
      obtain ⟨rfl, rfl⟩ := h
      exact ⟨Grows.same _, rfl⟩

end Enterprise

namespace Enterprise

theorem allocate_pixels_grows (env : Env) (s : State) : Grows s (allocate_pixels env s) := by
  unfold allocate_pixels
  by_cases hp : s.pixel_pointer_ = 0
  · rw [if_pos hp]
    dsimp only
    refine Grows.andThen (?_ : Grows s (if s.output_duration_ ≠ 0 then
      set_output_type env .Pixels true s else s)) (Grows_of_congr _ _ rfl rfl rfl)
    split_ifs
    · exact set_output_type_grows env _ _ _
    · exact Grows.same s
  · rw [if_neg hp]
    exact Grows.same s

theorem output_pixels_grows (env : Env) (output_duration : Int) (s : State)
    (h : 0 ≤ output_duration) : Grows s (output_pixels env output_duration s) := by
  unfold output_pixels
  dsimp only
  have h1 : Grows s (advance_pixels output_duration s) :=
    Grows_of_add _ _ output_duration h (by simp) (by simp) (by simp)
  split_ifs
  · exact h1.andThen (set_output_type_grows env _ _ _)
  · exact h1

theorem skip_columns_grows (columns_remaining : Int) (s : State) (h : 0 ≤ columns_remaining) :
    Grows s (skip_columns columns_remaining s) :=
  Grows_of_add _ _ columns_remaining h (by simp) (by simp) rfl

theorem pixel_loop_grows (env : Env) (hA : env.AllocationOK) :
    ∀ (fuel : Nat) (columns_remaining : Int) (s s' : State),
      0 ≤ columns_remaining → BufferOK env s → ColumnSizeOK env s → s.output_type_ = .Pixels →
      pixel_loop env fuel columns_remaining s = some s' → Grows s s' := by
  intro fuel
  induction fuel with
  | zero => intro columns_remaining s s' _ _ _ _ h; simp [pixel_loop] at h
  | succ fuel ih =>
    intro columns_remaining s s' hcols hb hc ht h
    unfold pixel_loop at h
    by_cases hz : columns_remaining = 0
    · rw [if_neg (by simpa using hz)] at h
      simp only [Option.some.injEq] at h
      subst h
      exact Grows.same s
    · rw [if_pos hz] at h
      dsimp only at h
      obtain ⟨hl1, hi1, ht1, hcase⟩ := allocate_pixels_spec env hA s hb ht
      have hc1 : ColumnSizeOK env (allocate_pixels env s) :=
        ColumnSizeOK_congr env s _ hl1.column hc
      have hg1 := allocate_pixels_grows env s
      rcases hcase with ⟨ha0, hp0⟩ | hfill
      · rw [if_neg (by simpa using ha0)] at h
        obtain ⟨hb2, hl2⟩ := skip_columns_spec env columns_remaining _ hp0
        exact (hg1.andThen (skip_columns_grows columns_remaining _ hcols)).andThen
          (ih 0 _ s' (le_refl 0) hb2 (ColumnSizeOK_congr env _ _ hl2.column hc1)
            (by simp [ht1]) h)
      · rw [if_pos hfill.2.1, if_neg (ne_of_gt hc1.1)] at h
        obtain ⟨ho1, ho2, ho3⟩ := columns_to_output_bounds env columns_remaining _ hc1 hfill
          (by omega)
        obtain ⟨hb2, hl2, hi2, ht2⟩ := output_pixels_spec env _ _ hfill hc1.1 ho1 ho3
        exact (hg1.andThen (output_pixels_grows env _ _ (by omega))).andThen
          (ih _ _ s' (by omega) hb2 (ColumnSizeOK_congr env _ _ hl2.column hc1) ht2 h)

theorem end_event_grows (env : Env) (next : Int) (s : State) : Grows s (end_event env next s) := by
  unfold end_event
  exact (check_margins_grows next s).andThen (set_output_type_grows env _ _ _)

theorem display_loop_grows (env : Env) (hA : env.AllocationOK) :
    ∀ (fuel : Nat) (window end_window : Int) (s s' : State),
      (end_window - window).toNat + 1 < fuel →
      BufferOK env s → ColumnSizeOK env s → PixelsDue s →
      display_loop env fuel window end_window s = some s' → Grows s s' := by
  intro fuel
  induction fuel with
  | zero => intro window end_window s s' hf; exact absurd hf (Nat.not_lt_zero _)
  | succ fuel ih =>
    intro window end_window s s' hf hb hc hd h
    unfold display_loop at h
    by_cases hcond : window < end_window
    · rw [if_pos hcond] at h
      dsimp only at h
      have hn := next_event_bounds window end_window s hcond
      by_cases hi : s.is_sync_or_pixels_ = true
      · rw [if_pos hi] at h
        obtain ⟨s1, heq1, hb1, hl1, -, -⟩ := pixel_loop_spec env hA fuel
          (next_event window end_window s - window) s (by omega) (by omega) hb hc (hd hi)
        have hg1 := pixel_loop_grows env hA fuel _ s s1 (by omega) hb hc (hd hi) heq1
        rw [heq1] at h
        dsimp only at h
        obtain ⟨hb2, hl2, hd2⟩ := end_event_spec env (next_event window end_window s) s1 hb1
        exact (hg1.andThen (end_event_grows env _ s1)).andThen
          (ih _ _ _ s' (by omega) hb2 (ColumnSizeOK_congr env s _ (hl1.trans hl2).column hc)
            hd2 h)
      · rw [if_neg hi] at h
        dsimp only at h
        have hb1 := BufferOK_add_duration env s (next_event window end_window s - window)
          (by omega) hb
        obtain ⟨hb2, hl2, hd2⟩ := end_event_spec env (next_event window end_window s) _ hb1
        have hl1 : SameLine s { s with output_duration_ := s.output_duration_
            + (next_event window end_window s - window) } := ⟨rfl, rfl, rfl, rfl⟩
        have hg1 : Grows s { s with output_duration_ := s.output_duration_
            + (next_event window end_window s - window) } :=
          Grows_of_add _ _ (next_event window end_window s - window) (by omega) rfl rfl rfl
        exact (hg1.andThen (end_event_grows env _ _)).andThen
          (ih _ _ _ s' (by omega) hb2 (ColumnSizeOK_congr env s _ (hl1.trans hl2).column hc)
            hd2 h)
    · rw [if_neg hcond] at h
      simp only [Option.some.injEq] at h
      subst h
      exact Grows.same s

end Enterprise

namespace Enterprise

theorem vsync_loop_done (env : Env) (fuel : Nat) (window end_window : Int) (s s' : State)
    (hc : ¬ window < end_window) (h : vsync_loop env fuel window end_window s = some s') :
    s' = s := by
  cases fuel with
  | zero => simp [vsync_loop] at h
  | succ fuel =>
    unfold vsync_loop at h
    rw [if_neg hc] at h
    simp only [Option.some.injEq] at h
    exact h.symm

theorem display_loop_done (env : Env) (fuel : Nat) (window end_window : Int) (s s' : State)
    (hc : ¬ window < end_window) (h : display_loop env fuel window end_window s = some s') :
    s' = s := by
  cases fuel with
  | zero => simp [display_loop] at h
  | succ fuel =>
    unfold display_loop at h
    rw [if_neg hc] at h
    simp only [Option.some.injEq] at h
    exact h.symm

theorem burst_loop_done (env : Env) (fuel : Nat) (window end_window : Int) (s : State)
    (w' : Int) (s' : State) (hc : ¬ (window < 10 ∧ window < end_window))
    (h : burst_loop env fuel window end_window s = some (w', s')) : w' = window ∧ s' = s := by
  cases fuel with
  | zero => simp [burst_loop] at h
  | succ fuel =>
    unfold burst_loop at h
    rw [if_neg hc] at h
    simp only [Option.some.injEq, Prod.mk.injEq] at h
    exact ⟨h.1.symm, h.2.symm⟩

/-- The first window the burst loop covers, when it is window 4 or 5, adds one window of
the class being accumulated. -/
theorem burst_loop_first (env : Env) (fuel : Nat) (window end_window : Int) (s : State)
    (w' : Int) (s' : State) (hc : window < 10 ∧ window < end_window) (h6 : window ≠ 6)
    (h0 : 0 ≤ s.output_duration_)
    (h : burst_loop env fuel window end_window s = some (w', s')) :
    ∃ L, window_classes s' = window_classes s ++ ([s.output_type_] ++ L) := by
  cases fuel with
  | zero => simp [burst_loop] at h
  | succ fuel =>
    unfold burst_loop at h
    rw [if_pos hc] at h
    obtain ⟨⟨L, hL⟩, -⟩ := (burst_loop_grows env fuel _ _ _ _ _ h).1
    obtain ⟨-, -, k1⟩ := burst_step_fields env window s
    have := window_classes_add s (burst_step env window s) 1 (by decide) h0 (k1 h6).1
      (k1 h6).2.1 (k1 h6).2.2
    refine ⟨L, ?_⟩
    rw [hL, this]
    simp

end Enterprise

namespace Enterprise

/-- The parts of `run_windows`: the line parameter loop runs from `window` to a window
`w1`, and what follows window 4 only extends the record of output classes. -/
theorem run_windows_parts (env : Env) (hA : env.AllocationOK) (fuel : Nat)
    (window end_window : Int) (s s' : State)
    (hw : 0 ≤ window) (hlt : window < end_window) (he : end_window ≤ 57) (hf : 59 ≤ fuel)
    (hb : BufferOK env s)
    (hc : ColumnSizeOK env s ∨ (window = 0 ∧ s.should_reload_line_parameters_ = true))
    (hd : 10 < window → s.mode_ ≠ .Vsync → PixelsDue s)
    (h : run_windows env fuel window end_window s = some s') :
    ∃ w1 s1,
      line_parameter_loop env fuel window end_window
        (if window = 0 then set_output_type env .Sync false s else s) = some (w1, s1) ∧
      window ≤ w1 ∧ w1 ≤ end_window ∧ ¬ (w1 < 4 ∧ w1 < end_window) ∧
      ((w1 = window ∧ s1 = (if window = 0 then set_output_type env .Sync false s else s)) ∨
        (window < w1 ∧ w1 ≤ 4)) ∧
      Grows (window_4 env w1 s1) s' ∧ s'.mode_ = (window_4 env w1 s1).mode_ ∧
      (end_window ≤ w1 → s' = window_4 env w1 s1) ∧
      (w1 = 4 → 5 ≤ end_window → (window_4 env w1 s1).mode_ ≠ .Vsync →
        0 ≤ (window_4 env w1 s1).output_duration_ →
        ∃ L, window_classes s'
          = window_classes (window_4 env w1 s1) ++ ([(window_4 env w1 s1).output_type_] ++ L)) := by
  unfold run_windows at h
  dsimp only at h
  have hb0 : BufferOK env (if window = 0 then set_output_type env .Sync false s else s) := by
    split_ifs
    · exact set_output_type_buffer env _ _ _ hb
    · exact hb
  have hp0 : window = 0 →
      (if window = 0 then set_output_type env .Sync false s else s).pixel_pointer_ = 0 := by
    intro h0
    by_contra hne
    have := (hb0 hne).2.1
    rw [if_pos h0, set_output_type_output_type_] at this
    exact OutputType.noConfusion this
  have hc0 : ColumnSizeOK env (if window = 0 then set_output_type env .Sync false s else s) ∨
      (window = 0 ∧ (if window = 0 then set_output_type env .Sync false s
        else s).should_reload_line_parameters_ = true) := by
    rcases hc with hc | ⟨h0, hr⟩
    · left
      refine ColumnSizeOK_congr env s _ ?_ hc
      split_ifs <;> simp
    · right
      refine ⟨h0, ?_⟩
      rw [if_pos h0, set_output_type_should_reload_line_parameters_]
      exact hr
  have hs0 : window ≠ 0 → (if window = 0 then set_output_type env .Sync false s else s) = s :=
    fun h => if_neg h
  generalize (if window = 0 then set_output_type env .Sync false s else s) = s0 at *
  obtain ⟨w1, s1, heq1, hb1, hc1, hh1, he1, -, hw1, hx1⟩ :=
    line_parameter_loop_spec env hA fuel window end_window s0 hw (by omega) hb0 hc0 hp0
  rw [heq1] at h
  dsimp only at h
  have hc1 := hc1 hlt
  obtain ⟨hb2, hl2, hi2, hs2⟩ := window_4_spec env w1 s1 hb1
  have hc2 : ColumnSizeOK env (window_4 env w1 s1) := ColumnSizeOK_congr env s1 _ hl2.column hc1
  have hw1' : window ≤ w1 ∧ w1 ≤ end_window := by
    rcases hw1 with ⟨h, -⟩ | ⟨h1, h2, h3⟩ <;> omega
  have hw1'' : (w1 = window ∧ s1 = s0) ∨ (window < w1 ∧ w1 ≤ 4) := by
    rcases hw1 with h | ⟨h1, h2, -⟩
    · exact Or.inl h
    · exact Or.inr ⟨h1, h2⟩
  have hw1a : w1 = window ∨ (window < w1 ∧ w1 ≤ 4) := by
    rcases hw1'' with h | h
    · exact Or.inl h.1
    · exact Or.inr h
  refine ⟨w1, s1, heq1, hw1'.1, hw1'.2, hx1, hw1'', ?_⟩
  by_cases hm : (window_4 env w1 s1).mode_ = .Vsync
  · rw [if_pos hm] at h
    by_cases h4 : w1 ≥ 4
    · rw [if_pos h4] at h
      obtain ⟨s'', heq, -, hl'⟩ := vsync_loop_spec env fuel w1 end_window _ (by omega) hb2
      rw [heq] at h
      simp only [Option.some.injEq] at h
      subst h
      exact ⟨vsync_loop_grows env fuel _ _ _ _ heq, hl'.mode,
        fun hle => vsync_loop_done env fuel _ _ _ _ (by omega) heq,
        fun _ _ hne => absurd hm hne⟩
    · rw [if_neg h4] at h
      simp only [Option.some.injEq] at h
      subst h
      exact ⟨Grows.same _, rfl, fun _ => rfl, fun h4' => absurd (by omega) h4⟩
  · rw [if_neg hm] at h
    obtain ⟨w3, s3, heq3, hb3, hl3, hi3, hw3, hx3⟩ :=
      burst_loop_spec env fuel w1 end_window (window_4 env w1 s1) (by omega) hb2
    rw [heq3] at h
    dsimp only at h
    obtain ⟨hg3, -⟩ := burst_loop_grows env fuel _ _ _ _ _ heq3
    have hc3 : ColumnSizeOK env s3 := ColumnSizeOK_congr env _ _ hl3.column hc2
    have hw3' : w1 ≤ w3 ∧ w3 ≤ end_window := by
      rcases hw3 with ⟨h, -⟩ | ⟨h1, h2, h3⟩ <;> omega
    have hdone3 : end_window ≤ w1 → w3 = w1 ∧ s3 = window_4 env w1 s1 :=
      fun hle => burst_loop_done env fuel _ _ _ _ _ (by omega) heq3
    by_cases h10 : w3 ≥ 10
    · rw [if_pos h10] at h
      have hb4 : BufferOK env (if w3 = 10 then set_output_type env
          (if s3.is_sync_or_pixels_ = true then .Pixels else .Border) false s3 else s3) := by
        split_ifs <;> first | exact set_output_type_buffer env _ _ _ hb3 | exact hb3
      have hl4 : SameLine s3 (if w3 = 10 then set_output_type env
          (if s3.is_sync_or_pixels_ = true then .Pixels else .Border) false s3 else s3) := by
        split_ifs <;> first | exact set_output_type_sameLine env _ _ _ | exact SameLine.refl _
      have hg4 : Grows s3 (if w3 = 10 then set_output_type env
          (if s3.is_sync_or_pixels_ = true then .Pixels else .Border) false s3 else s3) := by
        split_ifs <;> first | exact set_output_type_grows env _ _ _ | exact Grows.same _
      have hd4 : PixelsDue (if w3 = 10 then set_output_type env
          (if s3.is_sync_or_pixels_ = true then .Pixels else .Border) false s3 else s3) := by
        by_cases h : w3 = 10
        · rw [if_pos h]
          intro hi
          rw [set_output_type_is_sync_or_pixels_] at hi
          rw [set_output_type_output_type_, if_pos hi]
        · rw [if_neg h]
          have e3 : w3 = w1 ∧ s3 = window_4 env w1 s1 := by
            rcases hw3 with h' | ⟨h1, h2, h3⟩
            · exact h'
            · omega
          have e1 : w1 = window ∧ s1 = s0 := by
            rcases hw1 with h' | ⟨h1, h2, h3⟩
            · exact h'
            · omega
          have e2 : window_4 env w1 s1 = s1 := hs2 (by omega)
          have e0 : s0 = s := hs0 (by omega)
          have es : s3 = s := by rw [e3.2, e2, e1.2, e0]
          rw [es]
          refine hd (by omega) ?_
          rw [← es, e3.2]
          exact hm
      obtain ⟨s'', heq, -, hl', -⟩ := display_loop_spec env hA fuel w3 end_window _
        (by omega) hb4 (ColumnSizeOK_congr env _ _ hl4.column hc3) hd4
      have hg5 := display_loop_grows env hA fuel w3 end_window _ s'' (by omega) hb4
        (ColumnSizeOK_congr env _ _ hl4.column hc3) hd4 heq
      rw [heq] at h
      simp only [Option.some.injEq] at h
      subst h
      refine ⟨(hg3.andThen hg4).andThen hg5, ?_, fun hle => ?_, fun h4 h5 _ h0 => ?_⟩
      · rw [hl'.mode, hl4.mode, hl3.mode]
      · omega
      · obtain ⟨L, hL⟩ := burst_loop_first env fuel w1 end_window _ w3 s3 (by omega) (by omega)
          h0 heq3
        obtain ⟨⟨L', hL'⟩, -⟩ := hg4.andThen hg5
        exact ⟨L ++ L', by rw [hL', hL]; simp⟩
    · rw [if_neg h10] at h
      simp only [Option.some.injEq] at h
      subst h
      refine ⟨hg3, hl3.mode, fun hle => (hdone3 hle).2, fun h4 h5 _ h0 => ?_⟩
      exact burst_loop_first env fuel w1 end_window _ w3 _ (by omega) (by omega) h0 heq3

end Enterprise

namespace Enterprise

/-- The windows `run_windows` accounts for keep the head of the line as `LineHead` has
it. -/
theorem run_windows_line_head (env : Env) (hA : env.AllocationOK) (fuel : Nat)
    (window end_window : Int) (s s' : State)
    (hw : 0 ≤ window) (hlt : window < end_window) (he : end_window ≤ 57) (hf : 59 ≤ fuel)
    (hb : BufferOK env s)
    (hc : ColumnSizeOK env s ∨ (window = 0 ∧ s.should_reload_line_parameters_ = true))
    (hd : 10 < window → s.mode_ ≠ .Vsync → PixelsDue s)
    (base : List OutputType) (hJ : LineHead base window s)
    (h : run_windows env fuel window end_window s = some s') :
    LineHead base end_window s' := by
  obtain ⟨w1, s1, heq1, hle1, hle2, hx1, hcase, hg, hmode, hdone, hfirst⟩ :=
    run_windows_parts env hA fuel window end_window s s' hw hlt he hf hb hc hd h
  have hs0 : window ≠ 0 → (if window = 0 then set_output_type env .Sync false s else s) = s :=
    fun h => if_neg h
  have wc0 : window_classes (if window = 0 then set_output_type env .Sync false s else s)
      = window_classes s := by
    split_ifs
    · exact set_output_type_window_classes env _ _ _
    · rfl
  have d0 : 0 ≤ (if window = 0 then set_output_type env .Sync false s else s).output_duration_ := by
    split_ifs
    · exact set_output_type_duration_nonneg env _ _ _ hJ.duration_nonneg
    · exact hJ.duration_nonneg
  have t0 : window ≤ 3 →
      (if window = 0 then set_output_type env .Sync false s else s).output_type_ = .Sync := by
    intro h3
    by_cases hz : window = 0
    · rw [if_pos hz, set_output_type_output_type_]
    · rw [if_neg hz]
      exact hJ.pending_sync (by omega) h3
  generalize (if window = 0 then set_output_type env .Sync false s else s) = s0 at *
  obtain ⟨f1, f2, f3, -, -⟩ := line_parameter_loop_fields env fuel _ _ s0 w1 s1 heq1
  have hw1a : w1 = window ∨ (window < w1 ∧ w1 ≤ 4) := by
    rcases hcase with h | h
    · exact Or.inl h.1
    · exact Or.inr h
  have d1 : 0 ≤ s1.output_duration_ := by rw [f3]; omega
  have wc1 : window ≤ 4 →
      window_classes s1 = base ++ List.replicate w1.toNat OutputType.Sync := by
    intro h4
    rw [window_classes_add s0 s1 (w1 - window) (by omega) d0 f1 f2 f3, wc0,
      hJ.first_four h4, List.append_assoc]
    congr 1
    by_cases h3 : window ≤ 3
    · rw [t0 h3, ← List.replicate_add]
      congr 1
      omega
    · have e : w1 = window := by omega
      rw [e]
      simp
  obtain ⟨g1, g2, g3, g4, g5⟩ := window_4_grows env w1 s1
  refine ⟨hg.2 (g2 d1), fun h4 => ?_, fun h1 h3 => ?_, fun h4 hm => ?_, fun h5 => ?_⟩
  · have e : w1 = end_window := by omega
    rw [hdone (by omega), g1, wc1 (by omega), e]
  · have e : w1 = end_window := by omega
    rw [hdone (by omega), g5 (by omega), f2]
    exact t0 (by omega)
  · have e : w1 = 4 := by omega
    rw [hdone (by omega)] at hm ⊢
    rw [g3] at hm
    exact g4 e hm
  · obtain ⟨⟨L', hL'⟩, -⟩ := hg
    by_cases h4 : window ≤ 4
    · have e : w1 = 4 := by omega
      have wc2 : window_classes (window_4 env w1 s1)
          = base ++ List.replicate 4 OutputType.Sync := by
        rw [g1, wc1 h4, e]
        rfl
      by_cases hm : (window_4 env w1 s1).mode_ = .Vsync
      · refine ⟨L', ?_⟩
        rw [hL', wc2, hmode, if_pos hm]
        simp
      · obtain ⟨L, hL⟩ := hfirst e h5 hm (g2 d1)
        refine ⟨L, ?_⟩
        rw [hL, wc2, hmode, if_neg hm, g4 e (by rw [← g3]; exact hm)]
        simp
    · have e : w1 = window := by omega
      have es : s1 = s0 := by
        rcases hcase with h | h
        · exact h.2
        · omega
      have e0 : s0 = s := hs0 (by omega)
      have e2 : window_4 env w1 s1 = s := by rw [g5 (by omega), es, e0]
      obtain ⟨L, hL⟩ := hJ.later (by omega)
      refine ⟨L ++ L', ?_⟩
      rw [hL', e2, hL, hmode, e2]
      simp

end Enterprise

namespace Enterprise

theorem LineHead_congr (base : List OutputType) (windows : Int) (s s' : State)
    (hr : s'.runs = s.runs) (ht : s'.output_type_ = s.output_type_)
    (hd : s'.output_duration_ = s.output_duration_) (hm : s'.mode_ = s.mode_)
    (h : LineHead base windows s) : LineHead base windows s' := by
  have hwc := window_classes_congr s s' hr ht hd
  refine ⟨by rw [hd]; exact h.duration_nonneg, fun h4 => by rw [hwc]; exact h.first_four h4,
    fun h1 h3 => by rw [ht]; exact h.pending_sync h1 h3,
    fun h4 hne => by rw [ht]; exact h.pending_blank h4 (by rw [← hm]; exact hne),
    fun h5 => by rw [hwc, hm]; exact h.later h5⟩

theorem run_for_loop_zero (env : Env) (fuel : Nat) (s : State) :
    run_for_loop env (fuel + 1) 0 s = some s := by
  unfold run_for_loop
  simp

/-- One call of `run_for` that stays within the line keeps the head of the line. -/
theorem run_for_line_head (env : Env) (hA : env.AllocationOK) (s s' : State)
    (hs : Consistent env s) (duration : Int) (hd : 0 < duration)
    (hle : s.horizontal_counter_ + duration ≤ 912)
    (base : List OutputType) (hJ : LineHead base (s.horizontal_counter_ / 16) s)
    (fuel : Nat) (hf : 61 ≤ fuel) (h : run_for env fuel duration s = some s') :
    LineHead base ((s.horizontal_counter_ + duration) / 16) s' := by
  obtain ⟨h0, h912, hb, hc, hpd⟩ := hs
  unfold line_length at h912
  obtain ⟨fuel, rfl⟩ : ∃ f, fuel = f + 1 := ⟨fuel - 1, by omega⟩
  obtain ⟨fuel, rfl⟩ : ∃ f, fuel = f + 1 := ⟨fuel - 1, by omega⟩
  unfold run_for run_for_loop at h
  rw [if_pos (ne_of_gt hd)] at h
  dsimp only at h
  simp only [Int.shiftRight_eq_div_pow, line_length] at h
  norm_num only at h
  have hmin : min duration (912 - s.horizontal_counter_) = duration := min_eq_left (by omega)
  rw [hmin, sub_self] at h
  by_cases hwe : s.horizontal_counter_ / 16 = (s.horizontal_counter_ + duration) / 16
  · rw [if_pos hwe, run_for_loop_zero] at h
    simp only [Option.some.injEq] at h
    subst h
    rw [← hwe]
    exact LineHead_congr base _ s _ rfl rfl rfl rfl hJ
  · rw [if_neg hwe] at h
    have hmod : Int.tmod (s.horizontal_counter_ + duration) 912
        = (s.horizontal_counter_ + duration) % 912 := Int.tmod_eq_emod (by omega) (by decide)
    rw [hmod] at h
    obtain ⟨s2, heq2, -⟩ := run_windows_spec env hA (fuel + 1)
      (s.horizontal_counter_ / 16) ((s.horizontal_counter_ + duration) / 16)
      { s with horizontal_counter_ := (s.horizontal_counter_ + duration) % 912 }
      (by omega) (by omega) (by omega) (by omega) hb
      (by
        rcases hc with hc | ⟨hr, h16⟩
        · exact Or.inl hc
        · exact Or.inr ⟨by omega, hr⟩)
      (fun h10 => hpd (by omega))
    have hJ2 := run_windows_line_head env hA (fuel + 1)
      (s.horizontal_counter_ / 16) ((s.horizontal_counter_ + duration) / 16)
      { s with horizontal_counter_ := (s.horizontal_counter_ + duration) % 912 } s2
      (by omega) (by omega) (by omega) (by omega) hb
      (by
        rcases hc with hc | ⟨hr, h16⟩
        · exact Or.inl hc
        · exact Or.inr ⟨by omega, hr⟩)
      (fun h10 => hpd (by omega)) base
      (LineHead_congr base _ s _ rfl rfl rfl rfl hJ) heq2
    rw [heq2] at h
    dsimp only at h
    rw [run_for_loop_zero] at h
    simp only [Option.some.injEq] at h
    subst h
    exact LineHead_congr base _ s2 _ (by simp) (by simp) (by simp) (by simp) hJ2

end Enterprise

namespace Enterprise

theorem run_for_each_line_head (env : Env) (hA : env.AllocationOK) (base : List OutputType) :
    ∀ (durations : List Int) (s : State) (p : Int),
      Consistent env s → 0 ≤ p → (∀ d ∈ durations, 0 ≤ d) → p + durations.sum ≤ 912 →
      s.horizontal_counter_ = p % 912 → LineHead base (p / 16) s →
      ∃ s', (∀ fuel, 972 ≤ fuel → run_for_each env fuel durations s = some s') ∧
        Consistent env s' ∧ s'.horizontal_counter_ = (p + durations.sum) % 912 ∧
        LineHead base ((p + durations.sum) / 16) s' := by
  intro durations
  induction durations with
  | nil =>
    intro s p hs hp _ _ hh hJ
    refine ⟨s, fun fuel _ => rfl, hs, ?_, ?_⟩
    · simpa using hh
    · simpa using hJ
  | cons d ds ih =>
    intro s p hs hp hnn hsum hh hJ
    have hd : 0 ≤ d := hnn d (List.mem_cons_self d ds)
    have hnn' : ∀ x ∈ ds, 0 ≤ x := fun x hx => hnn x (List.mem_cons_of_mem d hx)
    have hds : 0 ≤ ds.sum := List.sum_nonneg hnn'
    rw [List.sum_cons] at hsum ⊢
    by_cases hz : d = 0
    · subst hz
      obtain ⟨s', hrun, hs', hh', hJ'⟩ := ih s p hs hp hnn' (by omega) hh hJ
      refine ⟨s', fun fuel hf => ?_, hs', by rw [hh']; congr 1; ring,
        by rw [show p + (0 + ds.sum) = p + ds.sum by ring]; exact hJ'⟩
      obtain ⟨f, rfl⟩ : ∃ f, fuel = f + 1 := ⟨fuel - 1, by omega⟩
      have e : run_for env (f + 1) 0 s = some s := run_for_loop_zero env f s
      rw [run_for_each, e]
      exact hrun (f + 1) hf
    · have hp912 : p < 912 := by omega
      have hh1 : s.horizontal_counter_ = p := by rw [hh]; omega
      obtain ⟨s1, h1, hc1, hc2, -⟩ :=
        run_for_loop_spec env hA (d.toNat + 60) d s hd (le_refl _) hs
      have hJ1 : LineHead base ((s.horizontal_counter_ + d) / 16) s1 :=
        run_for_line_head env hA s s1 hs d (by omega) (by omega) base (by rw [hh1]; exact hJ)
          (d.toNat + 60) (by omega) h1
      rw [hh1] at hJ1 hc2
      obtain ⟨s', hrun, hs', hh', hJ'⟩ := ih s1 (p + d) hc1 (by omega) hnn' (by omega) hc2 hJ1
      refine ⟨s', fun fuel hf => ?_, hs', by rw [hh']; congr 1; ring,
        by rw [show p + (d + ds.sum) = p + d + ds.sum by ring]; exact hJ'⟩
      have e : run_for env fuel d s = some s1 :=
        run_for_mono env _ fuel d s s1 (by omega) h1
      rw [run_for_each, e]
      exact hrun fuel hf

/-- C15: from the start of a line (`horizontal_counter_ = 0`), however the clocks of the
line are divided among calls of `run_for`, the windows recorded for the line begin with
Sync for windows 0 to 3, whatever the mode, and in every mode other than Vsync window 4
is Blank: after calls totalling `n ≤ 912` clocks the record of output classes is the one
the line began with, followed by `n / 16` windows of Sync when `n / 16 ≤ 4`, and
otherwise by four windows of Sync, then (outside Vsync mode) a window of Blank, then
the further windows. The state reached is consistent again with a non-negative
`output_duration_`, so that the same holds of the next line. -/
theorem run_for_outputs_sync_for_windows_0_to_3 (env : Env) (hA : env.AllocationOK)
    (s : State) (hs : Consistent env s) (h0 : s.horizontal_counter_ = 0)
    (hd : 0 ≤ s.output_duration_) (durations : List Int) (hnn : ∀ d ∈ durations, 0 ≤ d)
    (hsum : durations.sum ≤ 912) :
    ∃ s', (∀ fuel, 972 ≤ fuel → run_for_each env fuel durations s = some s') ∧
      Consistent env s' ∧ 0 ≤ s'.output_duration_ ∧
      s'.horizontal_counter_ = durations.sum % 912 ∧
      (durations.sum / 16 ≤ 4 →
        window_classes s'
          = window_classes s ++ List.replicate (durations.sum / 16).toNat OutputType.Sync) ∧
      (5 ≤ durations.sum / 16 →
        ∃ L, window_classes s'
          = window_classes s ++ (List.replicate 4 OutputType.Sync
              ++ (if s'.mode_ = .Vsync then [] else [OutputType.Blank]) ++ L)) := by
  have hJ : LineHead (window_classes s) ((0 : Int) / 16) s :=
    ⟨hd, fun _ => by simp, fun h1 _ => by omega, fun h4 => by omega, fun h5 => by omega⟩
  obtain ⟨s', hrun, hs', hh', hJ'⟩ := run_for_each_line_head env hA (window_classes s)
    durations s 0 hs (le_refl 0) hnn (by omega) (by rw [h0]; rfl) hJ
  rw [zero_add] at hh' hJ'
  exact ⟨s', hrun, hs', hJ'.duration_nonneg, hh', hJ'.first_four, hJ'.later⟩

/-- A witness of C15: the start state, with 140 clocks divided into calls of 10, 30 and
100 clocks. -/
theorem run_for_outputs_sync_for_windows_0_to_3_witness :
    ∃ s', run_for_each example_env 972 [10, 30, 100] start_state = some s' ∧
      ∃ L, window_classes s'
        = window_classes start_state ++ (List.replicate 4 OutputType.Sync
            ++ (if s'.mode_ = .Vsync then [] else [OutputType.Blank]) ++ L) := by
  obtain ⟨s', h1, -, -, -, -, h2⟩ := run_for_outputs_sync_for_windows_0_to_3 example_env
    ⟨by decide, by decide⟩ start_state start_state_consistent rfl (by decide) [10, 30, 100]
    (by decide) (by decide)
  exact ⟨s', h1 972 (le_refl _), h2 (by decide)⟩

end Enterprise

namespace Enterprise

set_option maxRecDepth 100000 in
/-- C16, evaluated on the code: with `example_env` the first line is a pixel-mode line
with margins 11 and 50. Over its first eleven windows `run_for(176)` sends the sink 64
cycles of sync, 32 of blank, 64 of colour burst and then 16 of border: the burst covers
windows 6 to 9 only, and window 10 is already Border. -/
theorem run_for_colour_burst_ends_before_window_10 :
    (run_for example_env 100 176 start_state).map (fun s => (s.mode_, s.runs))
      = some (Mode.Pixel,
          [Run.output_sync 64, Run.output_blank 32, Run.output_colour_burst 64,
           Run.output_level 16 (some (0, 0))]) ∧
    (run_for example_env 100 176 start_state).map (fun s => window_classes s)
      = some [.Sync, .Sync, .Sync, .Sync, .Blank, .Blank, .ColourBurst, .ColourBurst,
          .ColourBurst, .ColourBurst, .Border] := by
  constructor <;> decide

end Enterprise

namespace Enterprise

/-! ### Every window is accounted for once -/

theorem accounted_add (s s' : State) (k : Int) (hr : s'.runs = s.runs)
    (hd : s'.output_duration_ = s.output_duration_ + k) :
    accounted s' = accounted s + 16 * k := by
  unfold accounted emitted
  rw [hr, hd]
  ring

theorem accounted_congr (s s' : State) (hr : s'.runs = s.runs)
    (hd : s'.output_duration_ = s.output_duration_) : accounted s' = accounted s := by
  unfold accounted emitted
  rw [hr, hd]

theorem set_output_type_accounted (env : Env) (type : OutputType) (force_flush : Bool)
    (s : State) : accounted (set_output_type env type force_flush s) = accounted s := by
  by_cases h : type = s.output_type_ ∧ force_flush = false
  · rw [set_output_type_same env type force_flush s h]
  · rw [set_output_type_change env type force_flush s h]
    by_cases hd : s.output_duration_ = 0
    · simp [accounted, emitted, hd]
    · obtain ⟨r, hr, -, hrl⟩ := flush_run_runs env s
      simp only [accounted, emitted, ne_eq, hd, not_false_eq_true, if_true, hr, List.map_append,
        List.map_cons, List.map_nil, List.sum_append, List.sum_cons, List.sum_nil, hrl]
      ring

theorem write_accounted (env : Env) (address value : Nat) (s : State) :
    accounted (write env address value s) = accounted s := by
  unfold write
  by_cases h0 : address &&& 3 = 0
  · rw [if_pos h0]
    exact accounted_congr _ _ rfl rfl
  · rw [if_neg h0]
    by_cases h1 : address &&& 3 = 1
    · rw [if_pos h1]
      dsimp only
      refine (accounted_congr _ _ rfl rfl).trans ?_
      split_ifs
      · exact set_output_type_accounted env _ _ s
      · rfl
    · rw [if_neg h1]
      by_cases h2 : address &&& 3 = 2
      · rw [if_pos h2]
        exact accounted_congr _ _ rfl rfl
      · rw [if_neg h2]
        dsimp only
        refine accounted_congr _ _ ?_ ?_ <;> (split_ifs <;> rfl)

theorem line_parameter_loop_accounted (env : Env) :
    ∀ (fuel : Nat) (window end_window : Int) (s : State) (w' : Int) (s' : State),
      line_parameter_loop env fuel window end_window s = some (w', s') →
      window ≤ end_window →
      accounted s' = accounted s + 16 * (w' - window) ∧
      s'.horizontal_counter_ = s.horizontal_counter_ ∧
      window ≤ w' ∧ w' ≤ end_window ∧ ¬ (w' < 4 ∧ w' < end_window) := by
  intro fuel
  induction fuel with
  | zero => intro window end_window s w' s' h; simp [line_parameter_loop] at h
  | succ fuel ih =>
    intro window end_window s w' s' h hle
    unfold line_parameter_loop at h
    by_cases hcond : window < 4 ∧ window < end_window
    · rw [if_pos hcond] at h
      obtain ⟨h1, h2, h3, h4, h5⟩ := ih _ _ _ _ _ h (by omega)
      obtain ⟨k1, -, k3, -⟩ := line_parameter_step_fields env window s
      have hh : (line_parameter_step env window s).horizontal_counter_
          = s.horizontal_counter_ := by
        unfold line_parameter_step
        split_ifs <;> simp
      refine ⟨?_, h2.trans hh, by omega, h4, h5⟩
      rw [h1, accounted_add s _ 1 k1 k3]
      ring
    · rw [if_neg hcond] at h
      simp only [Option.some.injEq, Prod.mk.injEq] at h
      obtain ⟨rfl, rfl⟩ := h
      exact ⟨by ring, rfl, le_refl _, hle, hcond⟩

theorem window_4_accounted (env : Env) (window : Int) (s : State) :
    accounted (window_4 env window s) = accounted s ∧
    (window_4 env window s).horizontal_counter_ = s.horizontal_counter_ := by
  unfold window_4
  by_cases hw : window = 4
  · rw [if_pos hw]
    by_cases hm : s.mode_ = .Vsync
    · rw [if_pos hm]
      dsimp only
      rw [set_output_type_accounted, set_output_type_horizontal_counter_]
      constructor
      · exact accounted_congr _ _ (by split_ifs <;> rfl) (by split_ifs <;> rfl)
      · split_ifs <;> rfl
    · rw [if_neg hm]
      exact ⟨set_output_type_accounted env _ _ _, by simp⟩
  · rw [if_neg hw]
    exact ⟨rfl, rfl⟩

theorem vsync_loop_accounted (env : Env) :
    ∀ (fuel : Nat) (window end_window : Int) (s s' : State),
      vsync_loop env fuel window end_window s = some s' → window ≤ end_window →
      accounted s' = accounted s + 16 * (end_window - window) ∧
      s'.horizontal_counter_ = s.horizontal_counter_ := by
  intro fuel
  induction fuel with
  | zero => intro window end_window s s' h; simp [vsync_loop] at h
  | succ fuel ih =>
    intro window end_window s s' h hle
    unfold vsync_loop at h
    by_cases hcond : window < end_window
    · rw [if_pos hcond] at h
      have hn := next_event_bounds window end_window s hcond
      obtain ⟨h1, h2⟩ := ih _ _ _ _ h hn.2
      have hstep : accounted (vsync_step env window end_window s)
          = accounted s + 16 * (next_event window end_window s - window) := by
        unfold vsync_step
        dsimp only
        rw [set_output_type_accounted]
        exact accounted_add s _ _ (by simp) (by simp)
      have hh : (vsync_step env window end_window s).horizontal_counter_
          = s.horizontal_counter_ := by
        unfold vsync_step
        simp
      refine ⟨?_, h2.trans hh⟩
      rw [h1, hstep]
      ring
    · rw [if_neg hcond] at h
      simp only [Option.some.injEq] at h
      subst h
      have : end_window = window := by omega
      rw [this]
      exact ⟨by ring, rfl⟩

theorem burst_loop_accounted (env : Env) :
    ∀ (fuel : Nat) (window end_window : Int) (s : State) (w' : Int) (s' : State),
      burst_loop env fuel window end_window s = some (w', s') → window ≤ end_window →
      accounted s' = accounted s + 16 * (w' - window) ∧
      s'.horizontal_counter_ = s.horizontal_counter_ ∧
      window ≤ w' ∧ w' ≤ end_window ∧ ¬ (w' < 10 ∧ w' < end_window) := by
  intro fuel
  induction fuel with
  | zero => intro window end_window s w' s' h; simp [burst_loop] at h
  | succ fuel ih =>
    intro window end_window s w' s' h hle
    unfold burst_loop at h
    by_cases hcond : window < 10 ∧ window < end_window
    · rw [if_pos hcond] at h
      obtain ⟨h1, h2, h3, h4, h5⟩ := ih _ _ _ _ _ h (by omega)
      have hstep : accounted (burst_step env window s) = accounted s + 16 * 1 := by
        unfold burst_step
        dsimp only
        have e0 : accounted (if window = 6 then set_output_type env .ColourBurst false s
            else s) = accounted s := by
          split_ifs
          · exact set_output_type_accounted env _ _ _
          · rfl
        rw [← e0]
        refine accounted_add _ _ 1 ?_ ?_ <;> (split_ifs <;> simp [load_palette_pair])
      have hh : (burst_step env window s).horizontal_counter_ = s.horizontal_counter_ := by
        unfold burst_step
        dsimp only
        split_ifs <;> simp [load_palette_pair]
      refine ⟨?_, h2.trans hh, by omega, h4, h5⟩
      rw [h1, hstep]
      ring
    · rw [if_neg hcond] at h
      simp only [Option.some.injEq, Prod.mk.injEq] at h
      obtain ⟨rfl, rfl⟩ := h
      exact ⟨by ring, rfl, le_refl _, hle, hcond⟩

end Enterprise

namespace Enterprise

theorem allocate_pixels_accounted (env : Env) (s : State) :
    accounted (allocate_pixels env s) = accounted s ∧
    (allocate_pixels env s).horizontal_counter_ = s.horizontal_counter_ := by
  unfold allocate_pixels
  by_cases hp : s.pixel_pointer_ = 0
  · rw [if_pos hp]
    dsimp only
    constructor
    · refine (accounted_congr _ _ rfl rfl).trans ?_
      split_ifs
      · exact set_output_type_accounted env _ _ _
      · rfl
    · show (if s.output_duration_ ≠ 0 then set_output_type env .Pixels true s
        else s).horizontal_counter_ = s.horizontal_counter_
      split_ifs <;> simp
  · rw [if_neg hp]
    exact ⟨rfl, rfl⟩

theorem output_pixels_accounted (env : Env) (output_duration : Int) (s : State) :
    accounted (output_pixels env output_duration s) = accounted s + 16 * output_duration ∧
    (output_pixels env output_duration s).horizontal_counter_ = s.horizontal_counter_ := by
  unfold output_pixels
  dsimp only
  have h1 : accounted (advance_pixels output_duration s)
      = accounted s + 16 * output_duration :=
    accounted_add s _ output_duration (by simp) (by simp)
  split_ifs
  · exact ⟨by rw [set_output_type_accounted, h1], by simp⟩
  · exact ⟨h1, by simp⟩

theorem skip_columns_accounted (columns_remaining : Int) (s : State) :
    accounted (skip_columns columns_remaining s) = accounted s + 16 * columns_remaining ∧
    (skip_columns columns_remaining s).horizontal_counter_ = s.horizontal_counter_ :=
  ⟨accounted_add s _ columns_remaining (by simp) rfl, by simp⟩

theorem pixel_loop_accounted (env : Env) :
    ∀ (fuel : Nat) (columns_remaining : Int) (s s' : State),
      pixel_loop env fuel columns_remaining s = some s' →
      accounted s' = accounted s + 16 * columns_remaining ∧
      s'.horizontal_counter_ = s.horizontal_counter_ := by
  intro fuel
  induction fuel with
  | zero => intro columns_remaining s s' h; simp [pixel_loop] at h
  | succ fuel ih =>
    intro columns_remaining s s' h
    unfold pixel_loop at h
    by_cases hz : columns_remaining = 0
    · rw [if_neg (by simpa using hz)] at h
      simp only [Option.some.injEq] at h
      subst h
      rw [hz]
      exact ⟨by ring, rfl⟩
    · rw [if_pos hz] at h
      dsimp only at h
      obtain ⟨a1, a2⟩ := allocate_pixels_accounted env s
      by_cases ha : (allocate_pixels env s).allocated_pointer_ ≠ 0
      · rw [if_pos ha] at h
        by_cases hc : (allocate_pixels env s).column_size_ = 0
        · rw [if_pos hc] at h
          exact absurd h (by simp)
        · rw [if_neg hc] at h
          obtain ⟨h1, h2⟩ := ih _ _ _ h
          obtain ⟨o1, o2⟩ := output_pixels_accounted env
            (columns_to_output env columns_remaining (allocate_pixels env s))
            (allocate_pixels env s)
          refine ⟨?_, by rw [h2, o2, a2]⟩
          rw [h1, o1, a1]
          ring
      · rw [if_neg ha] at h
        obtain ⟨h1, h2⟩ := ih _ _ _ h
        obtain ⟨k1, k2⟩ := skip_columns_accounted columns_remaining (allocate_pixels env s)
        refine ⟨?_, by rw [h2, k2, a2]⟩
        rw [h1, k1, a1]
        ring

theorem end_event_accounted (env : Env) (next : Int) (s : State) :
    accounted (end_event env next s) = accounted s ∧
    (end_event env next s).horizontal_counter_ = s.horizontal_counter_ := by
  unfold end_event
  dsimp only
  exact ⟨by rw [set_output_type_accounted]; exact accounted_congr _ _ (by simp) (by simp),
    by simp⟩

theorem display_loop_accounted (env : Env) :
    ∀ (fuel : Nat) (window end_window : Int) (s s' : State),
      display_loop env fuel window end_window s = some s' → window ≤ end_window →
      accounted s' = accounted s + 16 * (end_window - window) ∧
      s'.horizontal_counter_ = s.horizontal_counter_ := by
  intro fuel
  induction fuel with
  | zero => intro window end_window s s' h; simp [display_loop] at h
  | succ fuel ih =>
    intro window end_window s s' h hle
    unfold display_loop at h
    by_cases hcond : window < end_window
    · rw [if_pos hcond] at h
      dsimp only at h
      have hn := next_event_bounds window end_window s hcond
      by_cases hi : s.is_sync_or_pixels_ = true
      · rw [if_pos hi] at h
        cases hp : pixel_loop env fuel (next_event window end_window s - window) s with
        | none => rw [hp] at h; exact absurd h (by simp)
        | some s1 =>
          rw [hp] at h
          dsimp only at h
          obtain ⟨p1, p2⟩ := pixel_loop_accounted env fuel _ s s1 hp
          obtain ⟨e1, e2⟩ := end_event_accounted env (next_event window end_window s) s1
          obtain ⟨h1, h2⟩ := ih _ _ _ _ h hn.2
          refine ⟨?_, by rw [h2, e2, p2]⟩
          rw [h1, e1, p1]
          ring
      · rw [if_neg hi] at h
        dsimp only at h
        obtain ⟨e1, e2⟩ := end_event_accounted env (next_event window end_window s)
          { s with output_duration_ := s.output_duration_
            + (next_event window end_window s - window) }
        obtain ⟨h1, h2⟩ := ih _ _ _ _ h hn.2
        have a1 : accounted { s with output_duration_ := s.output_duration_
            + (next_event window end_window s - window) }
            = accounted s + 16 * (next_event window end_window s - window) :=
          accounted_add s _ (next_event window end_window s - window) rfl rfl
        refine ⟨?_, by rw [h2, e2]⟩
        rw [h1, e1, a1]
        ring
    · rw [if_neg hcond] at h
      simp only [Option.some.injEq] at h
      subst h
      have : end_window = window := by omega
      rw [this]
      exact ⟨by ring, rfl⟩

theorem run_windows_accounted (env : Env) (fuel : Nat) (window end_window : Int)
    (s s' : State) (h : run_windows env fuel window end_window s = some s')
    (hle : window ≤ end_window) :
    accounted s' = accounted s + 16 * (end_window - window) ∧
    s'.horizontal_counter_ = s.horizontal_counter_ := by
  unfold run_windows at h
  dsimp only at h
  have a0 : accounted (if window = 0 then set_output_type env .Sync false s else s)
      = accounted s := by
    split_ifs
    · exact set_output_type_accounted env _ _ _
    · rfl
  have c0 : (if window = 0 then set_output_type env .Sync false s else s).horizontal_counter_
      = s.horizontal_counter_ := by split_ifs <;> simp
  generalize (if window = 0 then set_output_type env .Sync false s else s) = s0 at *
  cases hl : line_parameter_loop env fuel window end_window s0 with
  | none => rw [hl] at h; exact absurd h (by simp)
  | some r =>
    obtain ⟨w1, s1⟩ := r
    rw [hl] at h
    dsimp only at h
    obtain ⟨l1, l2, l3, l4, l5⟩ := line_parameter_loop_accounted env fuel _ _ _ _ _ hl hle
    obtain ⟨v1, v2⟩ := window_4_accounted env w1 s1
    by_cases hm : (window_4 env w1 s1).mode_ = .Vsync
    · rw [if_pos hm] at h
      by_cases h4 : w1 ≥ 4
      · rw [if_pos h4] at h
        obtain ⟨y1, y2⟩ := vsync_loop_accounted env fuel _ _ _ _ h l4
        refine ⟨?_, by rw [y2, v2, l2, c0]⟩
        rw [y1, v1, l1, a0]
        ring
      · rw [if_neg h4] at h
        simp only [Option.some.injEq] at h
        subst h
        have : w1 = end_window := by omega
        refine ⟨?_, by rw [v2, l2, c0]⟩
        rw [v1, l1, a0, this]
    · rw [if_neg hm] at h
      cases hb : burst_loop env fuel w1 end_window (window_4 env w1 s1) with
      | none => rw [hb] at h; exact absurd h (by simp)
      | some r3 =>
        obtain ⟨w3, s3⟩ := r3
        rw [hb] at h
        dsimp only at h
        obtain ⟨b1, b2, b3, b4, b5⟩ := burst_loop_accounted env fuel _ _ _ _ _ hb l4
        by_cases h10 : w3 ≥ 10
        · rw [if_pos h10] at h
          have a4 : accounted (if w3 = 10 then set_output_type env
              (if s3.is_sync_or_pixels_ = true then .Pixels else .Border) false s3 else s3)
              = accounted s3 := by
            split_ifs <;> first | exact set_output_type_accounted env _ _ _ | rfl
          have c4 : (if w3 = 10 then set_output_type env
              (if s3.is_sync_or_pixels_ = true then .Pixels else .Border) false s3
              else s3).horizontal_counter_ = s3.horizontal_counter_ := by
            split_ifs <;> simp
          obtain ⟨d1, d2⟩ := display_loop_accounted env fuel _ _ _ _ h b4
          refine ⟨?_, by rw [d2, c4, b2, v2, l2, c0]⟩
          rw [d1, a4, b1, v1, l1, a0]
          ring
        · rw [if_neg h10] at h
          simp only [Option.some.injEq] at h
          subst h
          have : w3 = end_window := by omega
          refine ⟨?_, by rw [b2, v2, l2, c0]⟩
          rw [b1, v1, l1, a0, this]
          ring

end Enterprise

namespace Enterprise

theorem run_for_loop_accounted (env : Env) :
    ∀ (fuel : Nat) (clocks_remaining : Int) (s s' : State),
      0 ≤ clocks_remaining → 0 ≤ s.horizontal_counter_ → s.horizontal_counter_ < 912 →
      run_for_loop env fuel clocks_remaining s = some s' →
      accounted s' = accounted s
        + 16 * ((s.horizontal_counter_ + clocks_remaining) / 16 - s.horizontal_counter_ / 16) ∧
      s'.horizontal_counter_ = (s.horizontal_counter_ + clocks_remaining) % 912 := by
  intro fuel
  induction fuel with
  | zero => intro clocks_remaining s s' _ _ _ h; simp [run_for_loop] at h
  | succ fuel ih =>
    intro clocks_remaining s s' hcr h0 h912 h
    unfold run_for_loop at h
    by_cases hz : clocks_remaining = 0
    · rw [if_neg (by simpa using hz)] at h
      simp only [Option.some.injEq] at h
      subst h
      rw [hz]
      refine ⟨?_, by omega⟩
      simp
    · rw [if_pos hz] at h
      dsimp only at h
      simp only [Int.shiftRight_eq_div_pow, line_length] at h
      norm_num only at h
      have hmin : min clocks_remaining (912 - s.horizontal_counter_) ≥ 1 :=
        le_min (by omega) (by omega)
      have hmin1 := min_le_left clocks_remaining (912 - s.horizontal_counter_)
      have hmin2 := min_le_right clocks_remaining (912 - s.horizontal_counter_)
      generalize min clocks_remaining (912 - s.horizontal_counter_) = ctl at *
      have hmod : Int.tmod (s.horizontal_counter_ + ctl) 912
          = (s.horizontal_counter_ + ctl) % 912 := Int.tmod_eq_emod (by omega) (by decide)
      rw [hmod] at h
      by_cases hwe : s.horizontal_counter_ / 16 = (s.horizontal_counter_ + ctl) / 16
      · rw [if_pos hwe] at h
        obtain ⟨i1, i2⟩ := ih (clocks_remaining - ctl)
          { s with horizontal_counter_ := (s.horizontal_counter_ + ctl) % 912 } s'
          (by omega) (by show 0 ≤ (s.horizontal_counter_ + ctl) % 912; omega)
          (by show (s.horizontal_counter_ + ctl) % 912 < 912; omega) h
        have e1 : accounted { s with horizontal_counter_ := (s.horizontal_counter_ + ctl) % 912 }
            = accounted s := accounted_congr _ _ rfl rfl
        have i1' : accounted s' = accounted s + 16 *
            (((s.horizontal_counter_ + ctl) % 912 + (clocks_remaining - ctl)) / 16
              - (s.horizontal_counter_ + ctl) % 912 / 16) := by rw [← e1]; exact i1
        have i2' : s'.horizontal_counter_
            = ((s.horizontal_counter_ + ctl) % 912 + (clocks_remaining - ctl)) % 912 := i2
        refine ⟨?_, by rw [i2']; omega⟩
        rw [i1']
        congr 2
        omega
      · rw [if_neg hwe] at h
        cases hr : run_windows env fuel (s.horizontal_counter_ / 16)
            ((s.horizontal_counter_ + ctl) / 16)
            { s with horizontal_counter_ := (s.horizontal_counter_ + ctl) % 912 } with
        | none => rw [hr] at h; exact absurd h (by simp)
        | some s2 =>
          rw [hr] at h
          dsimp only at h
          obtain ⟨r1, r2⟩ := run_windows_accounted env fuel _ _ _ s2 hr (by omega)
          have e1 : accounted { s with horizontal_counter_ := (s.horizontal_counter_ + ctl) % 912 }
              = accounted s := accounted_congr _ _ rfl rfl
          have r2' : s2.horizontal_counter_ = (s.horizontal_counter_ + ctl) % 912 := r2
          have e3 : accounted (end_of_line s2) = accounted s2 :=
            accounted_congr _ _ (by simp) (by simp)
          have c3 : (end_of_line s2).horizontal_counter_ = (s.horizontal_counter_ + ctl) % 912 := by
            rw [end_of_line_horizontal_counter_, r2']
          obtain ⟨i1, i2⟩ := ih (clocks_remaining - ctl) (end_of_line s2) s'
            (by omega) (by rw [c3]; omega) (by rw [c3]; omega) h
          rw [c3] at i1 i2
          refine ⟨?_, by rw [i2]; omega⟩
          rw [i1, e3, r1, e1]
          have : ∀ a b c d : Int, a + 16 * b + 16 * c = a + 16 * d ↔ b + c = d := by
            intro a b c d; constructor <;> intro h <;> omega
          rw [this]
          omega

theorem run_for_each_accounted (env : Env) (fuel : Nat) :
    ∀ (durations : List Int) (s s' : State),
      (∀ d ∈ durations, 0 ≤ d) → 0 ≤ s.horizontal_counter_ → s.horizontal_counter_ < 912 →
      run_for_each env fuel durations s = some s' →
      accounted s' = accounted s
        + 16 * ((s.horizontal_counter_ + durations.sum) / 16 - s.horizontal_counter_ / 16) ∧
      s'.horizontal_counter_ = (s.horizontal_counter_ + durations.sum) % 912 := by
  intro durations
  induction durations with
  | nil =>
    intro s s' _ h0 h912 h
    simp only [run_for_each, Option.some.injEq] at h
    subst h
    simp only [List.sum_nil, add_zero, sub_self, mul_zero, true_and]
    omega
  | cons d ds ih =>
    intro s s' hnn h0 h912 h
    have hd : 0 ≤ d := hnn d (List.mem_cons_self d ds)
    have hnn' : ∀ x ∈ ds, 0 ≤ x := fun x hx => hnn x (List.mem_cons_of_mem d hx)
    rw [run_for_each] at h
    cases hr : run_for env fuel d s with
    | none => rw [hr] at h; exact absurd h (by simp)
    | some s1 =>
      rw [hr] at h
      simp only [Option.some_bind] at h
      obtain ⟨r1, r2⟩ := run_for_loop_accounted env fuel d s s1 hd h0 h912 hr
      obtain ⟨i1, i2⟩ := ih s1 s' hnn' (by rw [r2]; omega) (by rw [r2]; omega) h
      rw [r2] at i1 i2
      rw [List.sum_cons]
      refine ⟨?_, by rw [i2]; omega⟩
      rw [i1, r1]
      have : ∀ a b c d : Int, a + 16 * b + 16 * c = a + 16 * d ↔ b + c = d := by
        intro a b c d; constructor <;> intro h <;> omega
      rw [this]
      omega

/-- C23: with `E` the sum of the lengths of all runs sent to the sink and `D` the value
of `output_duration_`, the quantity `E + 16*D` is unchanged by `set_output_type` and by
`write`; whenever `run_for(d)` returns, from a horizontal position `h` within the line
and for `d ≥ 0`, it has increased the quantity by exactly
`16 * (floor((h + d)/16) - floor(h/16))`, in every mode and with any margins and sink,
and the same holds of any sequence of calls whose durations total `d`; and from a
consistent state `run_for(d)` does return, whatever fuel beyond `d + 60` its loops are
given. -/
theorem run_for_accounts_for_every_window_once (env : Env) :
    (∀ type force_flush s,
      accounted (set_output_type env type force_flush s) = accounted s) ∧
    (∀ address value s, accounted (write env address value s) = accounted s) ∧
    (∀ fuel duration s s', 0 ≤ duration → 0 ≤ s.horizontal_counter_ →
      s.horizontal_counter_ < 912 → run_for env fuel duration s = some s' →
      accounted s' = accounted s
        + 16 * ((s.horizontal_counter_ + duration) / 16 - s.horizontal_counter_ / 16)) ∧
    (∀ fuel durations s s', (∀ d ∈ durations, 0 ≤ d) → 0 ≤ s.horizontal_counter_ →
      s.horizontal_counter_ < 912 → run_for_each env fuel durations s = some s' →
      accounted s' = accounted s
        + 16 * ((s.horizontal_counter_ + durations.sum) / 16 - s.horizontal_counter_ / 16)) ∧
    (env.AllocationOK → ∀ s duration, Consistent env s → 0 ≤ duration →
      ∃ s', ∀ fuel, duration.toNat + 60 ≤ fuel → run_for env fuel duration s = some s') := by
  refine ⟨set_output_type_accounted env, write_accounted env, ?_, ?_, ?_⟩
  · intro fuel duration s s' hd h0 h912 h
    exact (run_for_loop_accounted env fuel duration s s' hd h0 h912 h).1
  · intro fuel durations s s' hnn h0 h912 h
    exact (run_for_each_accounted env fuel durations s s' hnn h0 h912 h).1
  · intro hA s duration hs hd
    obtain ⟨s', h1, -⟩ := run_for_loop_spec env hA (duration.toNat + 60) duration s hd
      (le_refl _) hs
    exact ⟨s', fun fuel hf => run_for_mono env _ fuel duration s s' hf h1⟩

/-- An instance of C23: 2000 clocks from the start of a line cross 125 window
boundaries, and 2000 clocks are accounted for. -/
theorem run_for_accounts_for_every_window_once_witness :
    ∃ s', run_for example_env 2060 2000 start_state = some s' ∧
      accounted s' = accounted start_state + 16 * 125 := by
  obtain ⟨-, -, h3, -, h5⟩ := run_for_accounts_for_every_window_once example_env
  obtain ⟨s', hs'⟩ := h5 ⟨by decide, by decide⟩ start_state 2000 start_state_consistent
    (by decide)
  refine ⟨s', hs' 2060 (by decide), ?_⟩
  have := h3 2060 2000 start_state s' (by decide) (by decide) (by decide) (hs' 2060 (by decide))
  rw [this]
  rfl

end Enterprise

namespace Enterprise

set_option maxRecDepth 100000 in
/-- C24, evaluated on the code: from the start state, whose `line_parameter_pointer_`
and `line_parameter_base_` are 0, over the RAM of `example_env`: a line is run, `0x00`
is written to register 3, 80 clocks of the second line are run, `0x80` is written to
register 3 (bit 7 rises, so the line parameters are to be reloaded), and the rest of the
line is run. The palette fetches of windows 5, 6 and 7 have then advanced the pointer
from 16 to 22, at the start of a line whose parameters are to be loaded; the first slot
of the next line is loaded from there, and its assertion fails. -/
theorem write_to_register_3_leaves_pointer_unaligned :
    (start_state.line_parameter_pointer_ % 16 = 0 ∧
      start_state.line_parameter_base_ % 16 = 0) ∧
    (run_calls example_env 100
        [.run_for 912, .write 3 0x00, .run_for 80, .write 3 0x80, .run_for 832]
        start_state).map
        (fun s => (s.horizontal_counter_, s.should_reload_line_parameters_,
          s.line_parameter_pointer_, s.assertion_failed))
      = some (0, true, 22, false) ∧
    (run_calls example_env 100
        [.run_for 912, .write 3 0x00, .run_for 80, .write 3 0x80, .run_for 832, .run_for 16]
        start_state).map (fun s => s.assertion_failed)
      = some true := by
  refine ⟨by decide, ?_, ?_⟩ <;> decide

end Enterprise

/-! ## Theorems: TZX tapes -/

namespace Storage.Tape.TZX

theorem to_uint8_byte (b : Byte) : File.to_uint8 (b.val : Int) = b.val := by
  unfold File.to_uint8
  have := b.isLt
  omega

theorem construct_short (garbage contents : List Byte) (h : contents.length < 10) :
    construct garbage contents = .error .ErrorNotTZX := by
  rcases contents with _ | ⟨b0, _ | ⟨b1, _ | ⟨b2, _ | ⟨b3, _ | ⟨b4, _ | ⟨b5, _ | ⟨b6, _ | ⟨b7,
    _ | ⟨b8, _ | ⟨b9, rest⟩⟩⟩⟩⟩⟩⟩⟩⟩⟩
  all_goals first
    | (simp at h; omega)
    | (simp [construct, File.fread, File.fgetc, File.fgetc8, signature, File.to_uint8])

theorem valid_header_length (contents : List Byte) (h : valid_header contents) :
    10 ≤ contents.length := by
  obtain ⟨-, -, -, m, hm, -⟩ := h
  by_contra hlt
  have : contents.get? 9 = none := List.get?_eq_none.mpr (by omega)
  rw [this] at hm
  exact Option.noConfusion hm

theorem construct_long (garbage : List Byte) (b0 b1 b2 b3 b4 b5 b6 b7 b8 b9 : Byte)
    (rest : List Byte) :
    construct garbage (b0 :: b1 :: b2 :: b3 :: b4 :: b5 :: b6 :: b7 :: b8 :: b9 :: rest)
      = if [b0, b1, b2, b3, b4, b5, b6] = signature ∧ b7.val = 0x1a ∧ b8.val = 1 ∧ b9.val ≤ 20 then
          .ok (virtual_reset
            { file_ :=
                { contents := b0 :: b1 :: b2 :: b3 :: b4 :: b5 :: b6 :: b7 :: b8 :: b9 :: rest
                  position := 10, eof := false, pushed_back := none }
              current_level_ := false, queue := [], is_at_end := false })
        else .error .ErrorNotTZX := by
  simp only [construct, File.fread, File.fgetc, File.fgetc8, signature, to_uint8_byte,
    List.length_cons, List.length_nil, List.drop_zero, List.take_succ_cons, List.take_zero,
    List.get?_cons_succ, List.get?_cons_zero, Nat.zero_add, Nat.reduceAdd, Nat.lt_irrefl,
    decide_False, Bool.or_false, List.drop_length, List.append_nil, List.take_nil]
  have hd : List.drop 7 (List.take 7 garbage) = [] :=
    List.drop_eq_nil_of_le (by simp [List.length_take])
  rw [hd, List.append_nil]
  by_cases h1 : [b0, b1, b2, b3, b4, b5, b6] = [90, 88, 84, 97, 112, 101, 33]
  · by_cases h2' : ((b7.val : Nat) : Int) = 26
    on_goal 2 => have h2 : ¬ (b7.val = 26) := by omega
    on_goal 1 => have h2 : b7.val = 26 := by omega
    · by_cases h3 : b8.val = 1
      · by_cases h4 : b9.val ≤ 20
        · have h5 : ¬ (b9.val > 20) := by omega
          simp only [h1, h2, Nat.cast_ofNat, h3, h4, h5, ne_eq, not_true_eq_false, if_false, or_self, and_self,
            if_true]
        · have h5 : b9.val > 20 := by omega
          simp only [h1, h2, Nat.cast_ofNat, h3, h4, h5, ne_eq, not_true_eq_false, if_false, or_true, and_false,
            if_true]
      · simp only [h1, h2, Nat.cast_ofNat, h3, ne_eq, not_true_eq_false, if_false, not_false_eq_true, true_or,
          if_true, false_and, and_false]
    · simp only [h1, h2, h2', ne_eq, not_true_eq_false, if_false, not_false_eq_true, if_true,
        false_and, and_false]
  · simp only [h1, ne_eq, not_false_eq_true, if_true, false_and, if_false]

/-- C8: constructing a TZX from a file succeeds if and only if the first seven bytes are
`"ZXTape!"`, the eighth is `0x1a`, the ninth is 1 and the tenth is at most 20; in
every other case, any file shorter than ten bytes included, construction fails with
`ErrorNotTZX`, so that no tape exists to produce a pulse. -/
theorem construct_succeeds_iff_valid_header (garbage contents : List Byte) :
    ((∃ t, construct garbage contents = .ok t) ↔ valid_header contents) ∧
    (¬ valid_header contents → construct garbage contents = .error .ErrorNotTZX) ∧
    (contents.length < 10 → construct garbage contents = .error .ErrorNotTZX) := by
  have key : (valid_header contents → ∃ t, construct garbage contents = .ok t) ∧
      (¬ valid_header contents → construct garbage contents = .error .ErrorNotTZX) := by
    by_cases hlen : contents.length < 10
    · have hnv : ¬ valid_header contents := fun hv => by
        have := valid_header_length contents hv
        omega
      exact ⟨fun hv => absurd hv hnv, fun _ => construct_short garbage contents hlen⟩
    · obtain ⟨b0, b1, b2, b3, b4, b5, b6, b7, b8, b9, rest, rfl⟩ :
          ∃ b0 b1 b2 b3 b4 b5 b6 b7 b8 b9 rest,
            contents = b0 :: b1 :: b2 :: b3 :: b4 :: b5 :: b6 :: b7 :: b8 :: b9 :: rest := by
        rcases contents with _ | ⟨b0, _ | ⟨b1, _ | ⟨b2, _ | ⟨b3, _ | ⟨b4, _ | ⟨b5, _ | ⟨b6,
          _ | ⟨b7, _ | ⟨b8, _ | ⟨b9, rest⟩⟩⟩⟩⟩⟩⟩⟩⟩⟩
        all_goals first
          | exact ⟨_, _, _, _, _, _, _, _, _, _, _, rfl⟩
          | (exfalso; apply hlen; simp)
      have hv : valid_header (b0 :: b1 :: b2 :: b3 :: b4 :: b5 :: b6 :: b7 :: b8 :: b9 :: rest)
          ↔ ([b0, b1, b2, b3, b4, b5, b6] = signature ∧ b7.val = 0x1a ∧ b8.val = 1 ∧
              b9.val ≤ 20) := by
        simp only [valid_header, List.take_succ_cons, List.take_zero, List.get?_cons_succ,
          List.get?_cons_zero, Option.some.injEq, Fin.ext_iff]
        constructor
        · rintro ⟨a, b, c, m, hm, hle⟩
          exact ⟨a, b, c, by omega⟩
        · rintro ⟨a, b, c, d⟩
          exact ⟨a, b, c, b9, rfl, d⟩
      rw [construct_long, hv]
      constructor
      · intro h
        rw [if_pos h]
        exact ⟨_, rfl⟩
      · intro h
        rw [if_neg h]
  refine ⟨⟨?_, key.1⟩, key.2, construct_short garbage contents⟩
  rintro ⟨t, ht⟩
  by_contra hnv
  rw [key.2 hnv] at ht
  exact Except.noConfusion ht

/-- A witness of C8: a header of version 1.20 constructs, and the same header with
version 1.21 does not. -/
theorem construct_succeeds_iff_valid_header_witness :
    (∃ t, construct [] [0x5a, 0x58, 0x54, 0x61, 0x70, 0x65, 0x21, 0x1a, 1, 20] = .ok t) ∧
    construct [] [0x5a, 0x58, 0x54, 0x61, 0x70, 0x65, 0x21, 0x1a, 1, 21] = .error .ErrorNotTZX :=
  ⟨(construct_succeeds_iff_valid_header [] _).1.2
      ⟨by decide, by decide, by decide, 20, by decide, by decide⟩,
    (construct_succeeds_iff_valid_header [] _).2.1 (by
      rintro ⟨-, -, -, m, hm, hle⟩
      have : m = 21 := by
        simpa using hm.symm
      subst this
      exact absurd hle (by decide))⟩

end Storage.Tape.TZX

namespace Storage.Tape.TZX

theorem ite_some_isSome_iff {α : Type} {p q : Prop} [Decidable p] (x : α) (o : Option α)
    (h : o.isSome = true ↔ q) : (if p then some x else o).isSome = true ↔ p ∨ q := by
  by_cases hp : p
  · simp [hp]
  · simp [hp, h]

theorem ite_some_none_isSome_iff {α : Type} {p : Prop} [Decidable p] (x : α) :
    (if p then some x else none).isSome = true ↔ p := by
  by_cases hp : p <;> simp [hp]

theorem block_handler_isSome_iff (chunk_id : Nat) :
    (block_handler chunk_id).isSome = true ↔ chunk_id ∈ recognised_block_ids := by
  simp only [recognised_block_ids, List.mem_cons, List.mem_singleton, List.not_mem_nil, or_false]
  unfold block_handler
  iterate 17 refine ite_some_isSome_iff _ _ ?_
  exact ite_some_none_isSome_iff _

theorem get_next_pulses_round (fuel : Nat) (t : TZX) (hq : t.queue = [])
    (he : t.file_.fgetc8.2.eof = false) (handler : TZX → TZX)
    (hh : block_handler t.file_.fgetc8.1 = some handler) :
    get_next_pulses (fuel + 1) t
      = get_next_pulses fuel (handler { t with file_ := t.file_.fgetc8.2 }) := by
  simp only [get_next_pulses, hq, List.isEmpty_nil, if_true, he, hh, Bool.false_eq_true,
    if_false]

/-- C9: when a block ID is expected (the queue is empty), `get_next_pulses` reads one
byte. If the read meets the end of the file, or the byte is none of the block IDs
0x10-0x14, 0x19, 0x20-0x28, 0x30, 0x31 and 0x33, the tape is marked as at its end and
the call returns with no pulse queued and the file left just after that one read. If the
byte is one of those IDs, the member for that block is called on the file after the
read and the loop carries on from the state it leaves: the call returns that state
as soon as pulses are queued, without marking the tape as at its end. -/
theorem get_next_pulses_ends_at_unrecognised_block (fuel : Nat) (t : TZX)
    (hq : t.queue = []) :
    ((t.file_.fgetc8.2.eof = true ∨ t.file_.fgetc8.1 ∉ recognised_block_ids) →
      get_next_pulses (fuel + 1) t
        = some { t with file_ := t.file_.fgetc8.2, is_at_end := true } ∧
      t.file_.fgetc8.2.contents = t.file_.contents ∧
      t.file_.fgetc8.2.position ≤ t.file_.position + 1) ∧
    (t.file_.fgetc8.2.eof = false →
      (t.file_.fgetc8.1 = 0x10 →
        get_next_pulses (fuel + 1) t
          = get_next_pulses fuel (get_standard_speed_data_block { t with file_ := t.file_.fgetc8.2 })) ∧
      (t.file_.fgetc8.1 = 0x11 →
        get_next_pulses (fuel + 1) t
          = get_next_pulses fuel (get_turbo_speed_data_block { t with file_ := t.file_.fgetc8.2 })) ∧
      (t.file_.fgetc8.1 = 0x12 →
        get_next_pulses (fuel + 1) t
          = get_next_pulses fuel (get_pure_tone_data_block { t with file_ := t.file_.fgetc8.2 })) ∧
      (t.file_.fgetc8.1 = 0x13 →
        get_next_pulses (fuel + 1) t
          = get_next_pulses fuel (get_pulse_sequence { t with file_ := t.file_.fgetc8.2 })) ∧
      (t.file_.fgetc8.1 = 0x14 →
        get_next_pulses (fuel + 1) t
          = get_next_pulses fuel (get_pure_data_block { t with file_ := t.file_.fgetc8.2 })) ∧
      (t.file_.fgetc8.1 = 0x19 →
        get_next_pulses (fuel + 1) t
          = get_next_pulses fuel (get_generalised_data_block { t with file_ := t.file_.fgetc8.2 })) ∧
      (t.file_.fgetc8.1 = 0x20 →
        get_next_pulses (fuel + 1) t
          = get_next_pulses fuel (get_pause { t with file_ := t.file_.fgetc8.2 })) ∧
      (t.file_.fgetc8.1 = 0x21 →
        get_next_pulses (fuel + 1) t
          = get_next_pulses fuel (ignore_group_start { t with file_ := t.file_.fgetc8.2 })) ∧
      (t.file_.fgetc8.1 = 0x22 →
        get_next_pulses (fuel + 1) t
          = get_next_pulses fuel (ignore_group_end { t with file_ := t.file_.fgetc8.2 })) ∧
      (t.file_.fgetc8.1 = 0x23 →
        get_next_pulses (fuel + 1) t
          = get_next_pulses fuel (ignore_jump_to_block { t with file_ := t.file_.fgetc8.2 })) ∧
      (t.file_.fgetc8.1 = 0x24 →
        get_next_pulses (fuel + 1) t
          = get_next_pulses fuel (ignore_loop_start { t with file_ := t.file_.fgetc8.2 })) ∧
      (t.file_.fgetc8.1 = 0x25 →
        get_next_pulses (fuel + 1) t
          = get_next_pulses fuel (ignore_loop_end { t with file_ := t.file_.fgetc8.2 })) ∧
      (t.file_.fgetc8.1 = 0x26 →
        get_next_pulses (fuel + 1) t
          = get_next_pulses fuel (ignore_call_sequence { t with file_ := t.file_.fgetc8.2 })) ∧
      (t.file_.fgetc8.1 = 0x27 →
        get_next_pulses (fuel + 1) t
          = get_next_pulses fuel (ignore_return_from_sequence { t with file_ := t.file_.fgetc8.2 })) ∧
      (t.file_.fgetc8.1 = 0x28 →
        get_next_pulses (fuel + 1) t
          = get_next_pulses fuel (ignore_select_block { t with file_ := t.file_.fgetc8.2 })) ∧
      (t.file_.fgetc8.1 = 0x30 →
        get_next_pulses (fuel + 1) t
          = get_next_pulses fuel (ignore_text_description { t with file_ := t.file_.fgetc8.2 })) ∧
      (t.file_.fgetc8.1 = 0x31 →
        get_next_pulses (fuel + 1) t
          = get_next_pulses fuel (ignore_message_block { t with file_ := t.file_.fgetc8.2 })) ∧
      (t.file_.fgetc8.1 = 0x33 →
        get_next_pulses (fuel + 1) t
          = get_next_pulses fuel (get_hardware_type { t with file_ := t.file_.fgetc8.2 }))) ∧
    (t.file_.fgetc8.2.eof = false → t.file_.fgetc8.1 ∈ recognised_block_ids →
      ∃ handler, block_handler t.file_.fgetc8.1 = some handler ∧
        get_next_pulses (fuel + 1) t
          = get_next_pulses fuel (handler { t with file_ := t.file_.fgetc8.2 }) ∧
        ((handler { t with file_ := t.file_.fgetc8.2 }).queue ≠ [] →
          get_next_pulses (fuel + 2) t = some (handler { t with file_ := t.file_.fgetc8.2 }))) ∧
    (∀ chunk_id, (block_handler chunk_id).isSome = true ↔ chunk_id ∈ recognised_block_ids) := by
  refine ⟨?_, ?_, ?_, block_handler_isSome_iff⟩
  · intro h
    refine ⟨?_, ?_, ?_⟩
    · simp only [get_next_pulses, hq, List.isEmpty_nil, if_true]
      by_cases he : t.file_.fgetc8.2.eof = true
      · simp only [he, if_true]
      · have hn : t.file_.fgetc8.1 ∉ recognised_block_ids := h.resolve_left he
        have hnone : block_handler t.file_.fgetc8.1 = none := by
          rw [← Option.not_isSome_iff_eq_none, block_handler_isSome_iff]
          exact hn
        simp only [he, hnone, Bool.false_eq_true, if_false]
    · simp only [File.fgetc8, File.fgetc]
      split <;> [rfl; (split <;> rfl)]
    · simp only [File.fgetc8, File.fgetc]
      split <;> [simp; (split <;> simp)]
  · intro he
    refine ⟨?_, ?_, ?_, ?_, ?_, ?_, ?_, ?_, ?_, ?_, ?_, ?_, ?_, ?_, ?_, ?_, ?_, ?_⟩ <;>
      (intro hid; exact get_next_pulses_round fuel t hq he _ (by rw [hid]; rfl))
  · intro he hid
    cases hh : block_handler t.file_.fgetc8.1 with
    | none =>
      have := (block_handler_isSome_iff t.file_.fgetc8.1).mpr hid
      rw [hh] at this
      exact absurd this (by simp)
    | some handler =>
      refine ⟨handler, rfl, get_next_pulses_round fuel t hq he handler hh, fun hne => ?_⟩
      rw [get_next_pulses_round (fuel + 1) t hq he handler hh]
      unfold get_next_pulses
      have : (handler { t with file_ := t.file_.fgetc8.2 }).queue.isEmpty = false := by
        cases hqq : (handler { t with file_ := t.file_.fgetc8.2 }).queue with
        | nil => exact absurd hqq hne
        | cons a l => rfl
      rw [this]
      rfl

/-- A witness of C9: with an empty queue, the block ID 0x15 (a direct recording) is not
recognised and ends the tape with nothing queued and one byte read; the block ID 0x20
(a pause, here of 100 ms) is recognised, and the call returns with the pause queued and
the tape not at its end. -/
theorem get_next_pulses_ends_at_unrecognised_block_witness :
    get_next_pulses 1
        { file_ := { contents := [0x15, 0x00], position := 0, eof := false, pushed_back := none }
          current_level_ := true, queue := [], is_at_end := false }
      = some
        { file_ := { contents := [0x15, 0x00], position := 1, eof := false, pushed_back := none }
          current_level_ := true, queue := [], is_at_end := true } ∧
    get_next_pulses 2
        { file_ := { contents := [0x20, 0x64, 0x00], position := 0, eof := false,
                     pushed_back := none }
          current_level_ := true, queue := [], is_at_end := false }
      = some
        { file_ := { contents := [0x20, 0x64, 0x00], position := 3, eof := false,
                     pushed_back := none }
          current_level_ := false
          queue := [{ type := .High, length := ⟨350000, 3500000⟩ }]
          is_at_end := false } :=
  ⟨((get_next_pulses_ends_at_unrecognised_block 0
      { file_ := { contents := [0x15, 0x00], position := 0, eof := false, pushed_back := none }
        current_level_ := true, queue := [], is_at_end := false } rfl).1
      (Or.inr (by decide))).1,
   ((get_next_pulses_ends_at_unrecognised_block 1
      { file_ := { contents := [0x20, 0x64, 0x00], position := 0, eof := false,
                   pushed_back := none }
        current_level_ := true, queue := [], is_at_end := false } rfl).2.1
      (by decide)).2.2.2.2.2.2.1 (by decide) |>.trans (by decide)⟩

end Storage.Tape.TZX

namespace Storage.Tape.TZX

theorem post_pulse_twice (length : Nat) (t : TZX) :
    post_pulse length (post_pulse length t)
      = { t with queue := t.queue ++ alternating_pulses t.current_level_ [length, length] } := by
  simp [post_pulse, post_pulse_time, alternating_pulses]

theorem alternating_pulses_pair (level : Bool) (a b : Nat) (rest : List Nat) :
    alternating_pulses level (a :: b :: rest)
      = alternating_pulses level [a, b] ++ alternating_pulses level rest := by
  simp [alternating_pulses]

theorem alternating_pulses_data_append (data : Data) (level : Bool) (xs ys : List Bool) :
    alternating_pulses level (data_pulse_lengths data (xs ++ ys))
      = alternating_pulses level (data_pulse_lengths data xs)
        ++ alternating_pulses level (data_pulse_lengths data ys) := by
  induction xs with
  | nil => simp [data_pulse_lengths, alternating_pulses]
  | cons x xs ih =>
    have e : ∀ zs : List Bool, data_pulse_lengths data (x :: zs)
        = (if x then data.length_of_one_bit_pulse else data.length_of_zero_bit_pulse)
          :: (if x then data.length_of_one_bit_pulse else data.length_of_zero_bit_pulse)
          :: data_pulse_lengths data zs := by
      intro zs
      cases x <;> simp [data_pulse_lengths]
    rw [List.cons_append, e, e, alternating_pulses_pair, ih,
      alternating_pulses_pair level _ _ (data_pulse_lengths data xs), List.append_assoc]

theorem alternating_pulses_length (level : Bool) (lengths : List Nat) :
    (alternating_pulses level lengths).length = lengths.length := by
  induction lengths generalizing level with
  | nil => rfl
  | cons x xs ih => simp [alternating_pulses, ih]

/-- The bits `post_bits` takes from a byte when asked for `n`. -/
theorem post_bits_eq (data : Data) (n : Nat) (next_byte : Nat) (t : TZX) :
    post_bits data n next_byte t
      = { t with
          queue := t.queue ++ alternating_pulses t.current_level_
            (data_pulse_lengths data (byte_bits n next_byte)) } := by
  unfold byte_bits
  induction n generalizing next_byte t with
  | zero => simp [post_bits, data_pulse_lengths, alternating_pulses]
  | succ n ih =>
    have hbit : (next_byte &&& 0x80 ≠ 0) ↔ next_byte.testBit 7 = true := by
      rw [show (0x80 : Nat) = 2 ^ 7 from rfl, Nat.and_two_pow]
      cases next_byte.testBit 7 <;> simp
    have hshift : ∀ i, (decide (i < 8) && ((next_byte <<< 1) % 256).testBit (7 - i))
        = (decide (i + 1 < 8) && next_byte.testBit (7 - (i + 1))) := by
      intro i
      rw [show (256 : Nat) = 2 ^ 8 from rfl, Nat.testBit_mod_two_pow, Nat.testBit_shiftLeft]
      by_cases h7 : i < 7
      · have e1 : 7 - i - 1 = 7 - (i + 1) := by omega
        have e2 : 7 - i < 8 := by omega
        have e3 : 7 - i ≥ 1 := by omega
        have e4 : i < 8 := by omega
        have e5 : i + 1 < 8 := by omega
        simp [e1, e2, e3, e4, e5]
      · by_cases h8 : i < 8
        · have e1 : i = 7 := by omega
          subst e1
          simp
        · have e5 : ¬ (i + 1 < 8) := by omega
          simp [h8, e5]
    rw [post_bits, post_pulse_twice, ih]
    rw [List.range_succ_eq_map, List.map_cons, List.map_map]
    have hfun : ((fun i => decide (i < 8) && next_byte.testBit (7 - i)) ∘ Nat.succ)
        = (fun i => decide (i < 8) && ((next_byte <<< 1) % 256).testBit (7 - i)) := by
      funext i
      simp only [Function.comp, Nat.succ_eq_add_one]
      exact (hshift i).symm
    rw [hfun]
    have e : ∀ zs : List Bool, data_pulse_lengths data
        ((decide (0 < 8) && next_byte.testBit (7 - 0)) :: zs)
        = (if next_byte &&& 0x80 ≠ 0 then data.length_of_one_bit_pulse
            else data.length_of_zero_bit_pulse)
          :: (if next_byte &&& 0x80 ≠ 0 then data.length_of_one_bit_pulse
            else data.length_of_zero_bit_pulse)
          :: data_pulse_lengths data zs := by
      intro zs
      by_cases hb : next_byte.testBit 7 = true
      · have := hbit.mpr hb
        simp [data_pulse_lengths, hb, this]
      · have hn : ¬ (next_byte &&& 0x80 ≠ 0) := fun h => hb (hbit.mp h)
        simp only [ne_eq, Decidable.not_not] at hn
        simp [data_pulse_lengths, hb, hn]
    rw [e, alternating_pulses_pair _ _ _ (data_pulse_lengths data _)]
    simp only [List.append_assoc]

theorem data_bits_cons_cons (k b b' : Nat) (rest : List Nat) :
    data_bits k (b :: b' :: rest) = byte_bits 8 b ++ data_bits k (b' :: rest) := by
  simp [data_bits]

theorem next_bytes_length (n : Nat) (f : File) : (next_bytes n f).length = n := by
  induction n generalizing f with
  | zero => rfl
  | succ n ih => simp [next_bytes, ih]

theorem byte_bits_length (n b : Nat) : (byte_bits n b).length = n := by
  simp [byte_bits]

theorem data_bits_length (k : Nat) (bytes : List Nat) (h : bytes ≠ []) :
    (data_bits k bytes).length = 8 * (bytes.length - 1) + k := by
  induction bytes with
  | nil => exact absurd rfl h
  | cons b rest ih =>
    cases rest with
    | nil => simp [data_bits, byte_bits_length]
    | cons b' rest' =>
      rw [data_bits_cons_cons, List.length_append, byte_bits_length, ih (by simp)]
      simp only [List.length_cons]
      omega

theorem data_pulse_lengths_length (data : Data) (bits : List Bool) :
    (data_pulse_lengths data bits).length = 2 * bits.length := by
  induction bits with
  | nil => rfl
  | cons x xs ih =>
    have e : data_pulse_lengths data (x :: xs)
        = (if x then [data.length_of_one_bit_pulse, data.length_of_one_bit_pulse]
            else [data.length_of_zero_bit_pulse, data.length_of_zero_bit_pulse])
          ++ data_pulse_lengths data xs := by
      simp [data_pulse_lengths]
    rw [e, List.length_append, ih]
    cases x <;> simp <;> omega

theorem get_data_bytes_eq (data : Data) (remaining c : Nat) (t : TZX)
    (h : (c : Int) + remaining = data.data_length) :
    get_data_bytes data remaining c t
      = { t with
          file_ := after_bytes remaining t.file_
          queue := t.queue ++ alternating_pulses t.current_level_
            (data_pulse_lengths data
              (data_bits data.number_of_bits_in_final_byte (next_bytes remaining t.file_))) } := by
  induction remaining generalizing c t with
  | zero => simp [get_data_bytes, after_bytes, next_bytes, data_bits, data_pulse_lengths,
      alternating_pulses]
  | succ r ih =>
    rw [get_data_bytes]
    rcases hfg : t.file_.fgetc8 with ⟨nb, file⟩
    simp only []
    rw [post_bits_eq, ih (c + 1) _ (by push_cast at h ⊢; omega)]
    simp only [next_bytes, after_bytes, hfg]
    cases r with
    | zero =>
      have hc : ¬ ((c : Int) ≠ data.data_length - 1) := by
        push_cast at h
        omega
      simp [hc, next_bytes, after_bytes, data_bits, data_pulse_lengths, alternating_pulses]
    | succ r' =>
      have hc : (c : Int) ≠ data.data_length - 1 := by
        push_cast at h
        omega
      simp only [hc, ne_eq, not_false_eq_true, if_true, next_bytes, data_bits_cons_cons,
        alternating_pulses_data_append, List.append_assoc]

/-- C10: for a data section of `L ≥ 1` bytes with `k` bits in the final byte, `get_data`
queues exactly `2*(8*(L-1) + k)` data pulses and then the pause gap: every byte but the
last gives 8 bits and the last gives `k`, most significant first, bits beyond the eighth
being 0, and each bit gives two consecutive pulses of equal length, the one-bit length
for a 1 and the zero-bit length for a 0. -/
theorem get_data_queues_two_pulses_per_bit (data : Data) (t : TZX) (L : Nat) (hL : 1 ≤ L)
    (hlen : data.data_length = (L : Int)) :
    get_data data t
      = post_gap data.pause_after_block
          { t with
            file_ := after_bytes L t.file_
            queue := t.queue ++ alternating_pulses t.current_level_
              (data_pulse_lengths data
                (data_bits data.number_of_bits_in_final_byte (next_bytes L t.file_))) } ∧
    (data_bits data.number_of_bits_in_final_byte (next_bytes L t.file_)).length
      = 8 * (L - 1) + data.number_of_bits_in_final_byte ∧
    (alternating_pulses t.current_level_
      (data_pulse_lengths data
        (data_bits data.number_of_bits_in_final_byte (next_bytes L t.file_)))).length
      = 2 * (8 * (L - 1) + data.number_of_bits_in_final_byte) := by
  have hne : next_bytes L t.file_ ≠ [] := by
    intro h0
    have := next_bytes_length L t.file_
    rw [h0] at this
    simp at this
    omega
  have hbits := data_bits_length data.number_of_bits_in_final_byte _ hne
  rw [next_bytes_length] at hbits
  refine ⟨?_, hbits, ?_⟩
  · unfold get_data
    rw [hlen, Int.toNat_ofNat, get_data_bytes_eq data L 0 t (by rw [hlen]; simp)]
  · rw [alternating_pulses_length, data_pulse_lengths_length, hbits]

/-- A witness of C10: the two bytes `0xa5 0xc0` with three bits used of the last give
eleven bits, so twenty-two pulses, and then the gap of 1 ms. -/
theorem get_data_queues_two_pulses_per_bit_witness :
    (get_data
      { length_of_zero_bit_pulse := 855, length_of_one_bit_pulse := 1710,
        number_of_bits_in_final_byte := 3, pause_after_block := 1, data_length := 2 }
      { file_ := { contents := [0xa5, 0xc0], position := 0, eof := false, pushed_back := none }
        current_level_ := false, queue := [], is_at_end := false }).queue.map
        (fun p => p.length.length)
      = [1710, 1710, 855, 855, 1710, 1710, 855, 855, 855, 855, 1710, 1710, 855, 855, 1710, 1710,
          1710, 1710, 1710, 1710, 855, 855, 3500] := by
  rw [(get_data_queues_two_pulses_per_bit _ _ 2 (by decide) rfl).1]
  decide

end Storage.Tape.TZX

namespace Storage.Tape.TZX

theorem level_after_succ (level : Bool) (n : Nat) :
    level_after level (n + 1) = level_after (!level) n := by
  unfold level_after
  by_cases h : n % 2 = 0
  · have h1 : (n + 1) % 2 ≠ 0 := by omega
    simp [h, h1]
  · have h1 : (n + 1) % 2 = 0 := by omega
    simp [h, h1]

theorem alternating_pulses_append (level : Bool) (xs ys : List Nat) :
    alternating_pulses level (xs ++ ys)
      = alternating_pulses level xs ++ alternating_pulses (level_after level xs.length) ys := by
  induction xs generalizing level with
  | nil => simp [alternating_pulses, level_after]
  | cons x xs ih =>
    rw [List.cons_append]
    simp only [alternating_pulses, List.length_cons, level_after_succ]
    rw [ih, List.cons_append]

theorem post_pulse_eq (length : Nat) (t : TZX) :
    post_pulse length t
      = { t with
          queue := t.queue ++ alternating_pulses t.current_level_ [length]
          current_level_ := level_after t.current_level_ 1 } := by
  simp [post_pulse, post_pulse_time, alternating_pulses, level_after]

/-- Pulses queued one after another from a list of lengths. -/
theorem post_pulses_eq (lengths : List Nat) (t : TZX) :
    lengths.foldl (fun t length => post_pulse length t) t
      = { t with
          queue := t.queue ++ alternating_pulses t.current_level_ lengths
          current_level_ := level_after t.current_level_ lengths.length } := by
  induction lengths generalizing t with
  | nil => simp [alternating_pulses, level_after]
  | cons x xs ih =>
    rw [List.foldl_cons, ih, post_pulse_eq]
    simp only [List.length_cons, level_after_succ, alternating_pulses, List.append_assoc,
      List.singleton_append]
    have e : ∀ b : Bool, level_after b 0 = b := fun b => by simp [level_after]
    simp only [e]

theorem pilot_tone_eq (n length : Nat) (t : TZX) :
    (List.range n).foldl (fun t _ => post_pulse length t) t
      = { t with
          queue := t.queue ++ alternating_pulses t.current_level_ (List.replicate n length)
          current_level_ := level_after t.current_level_ n } := by
  have h : (List.range n).foldl (fun t _ => post_pulse length t) t
      = (List.replicate n length).foldl (fun t length => post_pulse length t) t := by
    induction n generalizing t with
    | zero => rfl
    | succ n ih =>
      rw [List.range_succ, List.foldl_append, ih, List.replicate_succ', List.foldl_append]
      rfl
  rw [h, post_pulses_eq, List.length_replicate]

end Storage.Tape.TZX

namespace Storage.Tape.TZX

theorem fgetc8_congr (f g : File) (hc : f.contents = g.contents) (hp : f.position = g.position)
    (hb : f.pushed_back = g.pushed_back) :
    f.fgetc8.1 = g.fgetc8.1 ∧ f.fgetc8.2.contents = g.fgetc8.2.contents ∧
      f.fgetc8.2.position = g.fgetc8.2.position ∧
      f.fgetc8.2.pushed_back = g.fgetc8.2.pushed_back := by
  unfold File.fgetc8 File.fgetc
  rw [hc, hp, hb]
  cases g.pushed_back with
  | some b => simp
  | none => cases g.contents.get? g.position <;> simp

theorem next_bytes_congr (n : Nat) (f g : File) (hc : f.contents = g.contents)
    (hp : f.position = g.position) (hb : f.pushed_back = g.pushed_back) :
    next_bytes n f = next_bytes n g := by
  induction n generalizing f g with
  | zero => rfl
  | succ n ih =>
    obtain ⟨h1, h2, h3, h4⟩ := fgetc8_congr f g hc hp hb
    simp only [next_bytes, h1]
    rw [ih _ _ h2 h3 h4]

theorem next_bytes_past_end (n : Nat) (f g : File) (hc : f.contents = g.contents)
    (hf : f.contents.length ≤ f.position) (hg : g.contents.length ≤ g.position)
    (hbf : f.pushed_back = none) (hbg : g.pushed_back = none) :
    next_bytes n f = next_bytes n g := by
  induction n generalizing f g with
  | zero => rfl
  | succ n ih =>
    have ef : f.contents[f.position]? = none := List.getElem?_eq_none hf
    have eg : g.contents[g.position]? = none := List.getElem?_eq_none hg
    have e1 : f.fgetc8 = (255, { f with eof := true }) := by
      simp [File.fgetc8, File.fgetc, hbf, ef, File.to_uint8]
    have e2 : g.fgetc8 = (255, { g with eof := true }) := by
      simp [File.fgetc8, File.fgetc, hbg, eg, File.to_uint8]
    simp only [next_bytes, e1, e2]
    congr 1
    exact ih _ _ hc hf hg hbf hbg

/-- Reading a byte, pushing it back and reading on yields the bytes that reading on
without the detour yields. -/
theorem next_bytes_ungetc (n : Nat) (f : File) :
    next_bytes (n + 1) (f.fgetc8.2.ungetc f.fgetc8.1) = next_bytes (n + 1) f := by
  have hl : ∀ g : File, next_bytes (n + 1) g = g.fgetc8.1 :: next_bytes n g.fgetc8.2 :=
    fun g => rfl
  rw [hl, hl f]
  have h1 : (f.fgetc8.2.ungetc f.fgetc8.1).fgetc8
      = (f.fgetc8.1, { f.fgetc8.2 with
          pushed_back := none, position := f.fgetc8.2.position - 1 + 1, eof := false }) := by
    have hu : File.to_uint8 ((f.fgetc8.1 : Nat) : Int) = f.fgetc8.1 := by
      unfold File.to_uint8
      have : f.fgetc8.1 < 256 := by
        unfold File.fgetc8 File.to_uint8
        dsimp only
        omega
      omega
    simp only [File.ungetc, File.fgetc8, File.fgetc]
    exact Prod.ext hu rfl
  rw [h1]
  dsimp only
  congr 1
  by_cases hp : 1 ≤ f.fgetc8.2.position
  · refine next_bytes_congr n _ _ rfl ?_ ?_
    · show f.fgetc8.2.position - 1 + 1 = f.fgetc8.2.position
      omega
    · show none = f.fgetc8.2.pushed_back
      unfold File.fgetc8 File.fgetc
      cases f.pushed_back with
      | some b => rfl
      | none => cases hg : f.contents.get? f.position <;> simp_all
  · have h0 : f.fgetc8.2.position = 0 := by omega
    have hfacts : f.fgetc8.2.contents = [] ∧ f.fgetc8.2.pushed_back = none := by
      revert h0
      unfold File.fgetc8 File.fgetc
      cases hb : f.pushed_back with
      | some b => simp
      | none =>
        cases hg : f.contents.get? f.position with
        | some b => simp
        | none =>
          simp only [hb]
          intro h0
          have h0' : f.position = 0 := h0
          rw [h0'] at hg
          refine ⟨?_, trivial⟩
          cases hc : f.contents with
          | nil => rfl
          | cons a l => rw [hc] at hg; simp at hg
    refine next_bytes_past_end n _ _ rfl ?_ ?_ rfl hfacts.2
    · show f.fgetc8.2.contents.length ≤ f.fgetc8.2.position - 1 + 1
      rw [hfacts.1]; simp
    · rw [hfacts.1]; simp

end Storage.Tape.TZX

namespace Storage.Tape.TZX

theorem get_data_block_eq (block : DataBlock) (t : TZX) (L : Nat)
    (hlen : block.data.data_length = (L : Int)) :
    get_data_block block t
      = post_gap block.data.pause_after_block
          { t with
            file_ := after_bytes L t.file_
            queue := t.queue ++ alternating_pulses t.current_level_
              (List.replicate block.length_of_pilot_tone block.length_of_pilot_pulse
                ++ [block.length_of_sync_first_pulse, block.length_of_sync_second_pulse]
                ++ data_pulse_lengths block.data
                    (data_bits block.data.number_of_bits_in_final_byte
                      (next_bytes L t.file_)))
            current_level_ := level_after t.current_level_ (block.length_of_pilot_tone + 2) } := by
  unfold get_data_block get_data
  simp only []
  rw [pilot_tone_eq, post_pulse_eq, post_pulse_eq, hlen, Int.toNat_ofNat,
    get_data_bytes_eq block.data L 0 _ (by rw [hlen]; simp)]
  simp only [alternating_pulses_append, List.append_assoc, List.length_append,
    List.length_replicate, List.length_cons, List.length_nil, level_after_succ]
  have e : ∀ b : Bool, level_after b 0 = b := fun b => by simp [level_after]
  have e2 : ∀ (b : Bool) (x y : Nat),
      alternating_pulses b [x, y] = alternating_pulses b [x] ++ alternating_pulses (!b) [y] :=
    fun b x y => rfl
  simp only [e, e2, Bool.not_not, List.append_assoc, zero_add]

theorem fgetc16le_lt (f : File) : f.fgetc16le.1 < 65536 := by
  unfold File.fgetc16le
  dsimp only
  exact Nat.or_lt_two_pow (n := 16) (by omega) (by omega)

/-- A gap of less than `2^16` milliseconds, as `post_gap` queues it. -/
theorem post_gap_eq (milliseconds : Nat) (t : TZX) (h : milliseconds < 65536) :
    post_gap milliseconds t
      = { t with
          queue := t.queue ++ gap_pulses t.current_level_ milliseconds
          current_level_ :=
            level_after t.current_level_ (gap_pulses t.current_level_ milliseconds).length } := by
  have e1 : (milliseconds * 3500) % 2 ^ 32 = milliseconds * 3500 :=
    Nat.mod_eq_of_lt (by omega)
  have e2 : ((milliseconds - 1) * 3500) % 2 ^ 32 = (milliseconds - 1) * 3500 :=
    Nat.mod_eq_of_lt (by omega)
  unfold post_gap gap_pulses
  by_cases h0 : milliseconds = 0
  · simp [h0, level_after]
  · rw [if_neg h0, if_neg h0]
    by_cases hc : milliseconds > 1 ∧ t.current_level_ = false
    · rw [if_pos hc, if_pos hc]
      simp [post_pulse_time, hc.2, level_after, TZXClockMSMultiplier, StandardTZXClock]
      omega
    · rw [if_neg hc, if_neg hc]
      simp [post_pulse_time, level_after, TZXClockMSMultiplier, StandardTZXClock]
      omega

theorem get_standard_speed_data_block_eq
    (t : TZX) (pause L first : Nat) (f1 f2 f3 : File)
    (h1 : t.file_.fgetc16le = (pause, f1)) (h2 : f1.fgetc16le = (L, f2))
    (h3 : f2.fgetc8 = (first, f3)) (hL : 0 < L) :
    get_standard_speed_data_block t
      = post_gap pause
          { t with
            file_ := after_bytes L (f3.ungetc first)
            queue := t.queue ++ alternating_pulses t.current_level_
              (List.replicate (if first < 128 then 8063 else 3223) 2168
                ++ [667, 735]
                ++ data_pulse_lengths
                    { length_of_zero_bit_pulse := 855, length_of_one_bit_pulse := 1710,
                      number_of_bits_in_final_byte := 8, pause_after_block := pause,
                      data_length := (L : Int) }
                    (data_bits 8 (next_bytes L f2)))
            current_level_ :=
              level_after t.current_level_ ((if first < 128 then 8063 else 3223) + 2) } := by
  have hu : next_bytes L (f3.ungetc first) = next_bytes L f2 := by
    obtain ⟨n, rfl⟩ : ∃ n, L = n + 1 := ⟨L - 1, by omega⟩
    have := next_bytes_ungetc n f2
    rw [h3] at this
    exact this
  unfold get_standard_speed_data_block
  simp only [h1, h2, h3]
  rw [if_neg (by omega)]
  rw [get_data_block_eq _ _ L rfl]
  simp only [hu]

/-- C11: a standard-speed block whose pause field is `pause` and whose length field is
`L > 0`, and whose first data byte is `first`, adds to the queue, from the current level
on and alternating: a pilot tone of 8063 pulses if `first < 128` and of 3223 otherwise,
each of 2168 ticks; sync pulses of 667 and 735 ticks; two pulses per data bit, of 855
ticks for a 0 and 1710 for a 1, over eight bits of each of the `L` bytes that follow the
length field, the first byte (which was peeked at and pushed back) included; and then a
gap of `pause` milliseconds, which starts at the level opposite to the one the block
began with: `pause * 3500` ticks of the 3.5 MHz clock in all, as one pulse, or as a Low
pulse of 1 ms and a High pulse of the rest when the gap starts Low and is longer than
1 ms; no gap pulse when `pause` is 0. The file is left after the `L` bytes. -/
theorem get_standard_speed_data_block_queues_pilot_sync_data_gap
    (t : TZX) (pause L first : Nat) (f1 f2 f3 : File)
    (h1 : t.file_.fgetc16le = (pause, f1)) (h2 : f1.fgetc16le = (L, f2))
    (h3 : f2.fgetc8 = (first, f3)) (hL : 0 < L) :
    (get_standard_speed_data_block t).queue
      = t.queue
        ++ alternating_pulses t.current_level_
            (List.replicate (if first < 128 then 8063 else 3223) 2168
              ++ [667, 735]
              ++ data_pulse_lengths
                  { length_of_zero_bit_pulse := 855, length_of_one_bit_pulse := 1710,
                    number_of_bits_in_final_byte := 8, pause_after_block := pause,
                    data_length := (L : Int) }
                  (data_bits 8 (next_bytes L f2)))
        ++ gap_pulses (!t.current_level_) pause ∧
    (get_standard_speed_data_block t).file_ = after_bytes L (f3.ungetc first) ∧
    (get_standard_speed_data_block t).is_at_end = t.is_at_end ∧
    (get_standard_speed_data_block t).current_level_
      = level_after (!t.current_level_) (gap_pulses (!t.current_level_) pause).length ∧
    (next_bytes L f2).head? = some first ∧
    (next_bytes L f2).length = L ∧
    (data_bits 8 (next_bytes L f2)).length = 8 * L ∧
    ((gap_pulses (!t.current_level_) pause).map (fun p => p.length.length)).sum
      = pause * 3500 ∧
    (∀ p ∈ gap_pulses (!t.current_level_) pause, p.length.clock_rate = 3500000) := by
  have hne : next_bytes L f2 ≠ [] := by
    intro h0
    have := next_bytes_length L f2
    rw [h0] at this
    simp at this
    omega
  have hp : pause < 65536 := by
    have := fgetc16le_lt t.file_
    rw [h1] at this
    exact this
  have hlev : level_after t.current_level_ ((if first < 128 then 8063 else 3223) + 2)
      = !t.current_level_ := by
    by_cases hf : first < 128 <;> simp [hf, level_after]
  have heq := get_standard_speed_data_block_eq t pause L first f1 f2 f3 h1 h2 h3 hL
  rw [post_gap_eq _ _ hp] at heq
  simp only [hlev] at heq
  refine ⟨by rw [heq], by rw [heq], by rw [heq], by rw [heq], ?_, next_bytes_length L f2, ?_,
    ?_, ?_⟩
  · obtain ⟨n, rfl⟩ : ∃ n, L = n + 1 := ⟨L - 1, by omega⟩
    simp [next_bytes, h3]
  · have := data_bits_length 8 _ hne
    rw [next_bytes_length] at this
    omega
  · unfold gap_pulses
    by_cases h0 : pause = 0
    · simp [h0]
    · rw [if_neg h0]
      by_cases hc : pause > 1 ∧ (!t.current_level_) = false
      · rw [if_pos hc]
        simp only [List.map_cons, List.map_nil, List.sum_cons, List.sum_nil]
        omega
      · rw [if_neg hc]
        simp
  · intro p hp'
    unfold gap_pulses at hp'
    split_ifs at hp' <;> simp at hp' <;> (try rcases hp' with rfl | rfl) <;> rfl

/-- A witness of C11: the block `e8 03 02 00 00 ff` has a pause of 1000 ms and the two
data bytes `00` and `ff`, of which the first is below 128. From a low level it queues
8063 pilot pulses, the two sync pulses, sixteen pulses of 855 ticks, sixteen of 1710
ticks, and, the level then being high, one High pulse of 3500000 ticks. -/
theorem get_standard_speed_data_block_queues_pilot_sync_data_gap_witness :
    (0 < 2) ∧
    (get_standard_speed_data_block
      { file_ := { contents := [0xe8, 0x03, 0x02, 0x00, 0x00, 0xff], position := 0,
                   eof := false, pushed_back := none }
        current_level_ := false, queue := [], is_at_end := false }).queue
      = alternating_pulses false
          (List.replicate 8063 2168 ++ [667, 735] ++ List.replicate 16 855
            ++ List.replicate 16 1710)
        ++ [{ type := .High, length := ⟨3500000, 3500000⟩ }] := by
  refine ⟨by decide, ?_⟩
  obtain ⟨h, -⟩ := get_standard_speed_data_block_queues_pilot_sync_data_gap
    { file_ := { contents := [0xe8, 0x03, 0x02, 0x00, 0x00, 0xff], position := 0,
                 eof := false, pushed_back := none }
      current_level_ := false, queue := [], is_at_end := false }
    1000 2 0
    { contents := [0xe8, 0x03, 0x02, 0x00, 0x00, 0xff], position := 2,
      eof := false, pushed_back := none }
    { contents := [0xe8, 0x03, 0x02, 0x00, 0x00, 0xff], position := 4,
      eof := false, pushed_back := none }
    { contents := [0xe8, 0x03, 0x02, 0x00, 0x00, 0xff], position := 5,
      eof := false, pushed_back := none }
    (by decide) (by decide) (by decide) (by decide)
  have hd : data_pulse_lengths
      { length_of_zero_bit_pulse := 855, length_of_one_bit_pulse := 1710,
        number_of_bits_in_final_byte := 8, pause_after_block := 1000, data_length := ((2 : Nat) : Int) }
      (data_bits 8 (next_bytes 2
        { contents := [0xe8, 0x03, 0x02, 0x00, 0x00, 0xff], position := 4,
          eof := false, pushed_back := none }))
      = List.replicate 16 855 ++ List.replicate 16 1710 := by decide
  have hg : gap_pulses (!false) 1000 = [{ type := .High, length := ⟨3500000, 3500000⟩ }] := by
    decide
  rw [h, hd, hg]
  simp only [List.nil_append, List.append_assoc]
  rfl

end Storage.Tape.TZX

namespace Storage.Tape.TZX

theorem post_waves_eq (lengths : List Nat) (t : TZX) :
    post_waves lengths t
      = { t with
          queue := t.queue ++ alternating_pulses t.current_level_
            (lengths.takeWhile (fun length => length ≠ 0))
          current_level_ := level_after t.current_level_
            (lengths.takeWhile (fun length => length ≠ 0)).length } := by
  have e : ∀ b : Bool, level_after b 0 = b := fun b => by simp [level_after]
  induction lengths generalizing t with
  | nil => simp [post_waves, alternating_pulses, e]
  | cons x xs ih =>
    by_cases hx : x = 0
    · simp [post_waves, hx, alternating_pulses, e]
    · rw [post_waves, if_neg hx, ih, post_pulse_eq]
      simp [hx, alternating_pulses, level_after_succ, e]

/-- C12, as the code has it: each occurrence of a symbol in a generalised data block
queues the symbol's pulse lengths up to its first zero length, alternating from a first
level that the low two bits of the flags fix. With 0 the first pulse takes the level
`current_level_` holds, which right after a pulse was queued is the opposite of that
pulse; with 1 it takes the inverse, the level of the pulse queued before; 2 forces a High
first pulse (`current_level_ = true`) and 3 forces a Low one. -/
theorem post_symbol_first_level_from_flags (symbol : Symbol) (count : Nat) (t : TZX) :
    post_symbol symbol (count + 1) t
      = post_symbol symbol count
          { t with
            queue := t.queue ++ alternating_pulses
              (symbol_first_level symbol.flags t.current_level_) (symbol_waves symbol)
            current_level_ := level_after
              (symbol_first_level symbol.flags t.current_level_) (symbol_waves symbol).length } ∧
    (symbol.flags &&& 3 = 0 →
      symbol_first_level symbol.flags t.current_level_ = t.current_level_ ∧
      ∀ length t0, symbol_first_level symbol.flags (post_pulse length t0).current_level_
        = !t0.current_level_) ∧
    (symbol.flags &&& 3 = 1 →
      symbol_first_level symbol.flags t.current_level_ = (!t.current_level_) ∧
      ∀ length t0, symbol_first_level symbol.flags (post_pulse length t0).current_level_
        = t0.current_level_) ∧
    (symbol.flags &&& 3 = 2 → ∀ length rest, symbol_waves symbol = length :: rest →
      alternating_pulses (symbol_first_level symbol.flags t.current_level_) (symbol_waves symbol)
        = { type := .High, length := ⟨length, StandardTZXClock⟩ }
            :: alternating_pulses false rest) ∧
    (symbol.flags &&& 3 = 3 → ∀ length rest, symbol_waves symbol = length :: rest →
      alternating_pulses (symbol_first_level symbol.flags t.current_level_) (symbol_waves symbol)
        = { type := .Low, length := ⟨length, StandardTZXClock⟩ }
            :: alternating_pulses true rest) ∧
    (∀ before after, (∀ x ∈ before, x ≠ 0) →
      symbol.pulse_lengths = before ++ 0 :: after → symbol_waves symbol = before) := by
  refine ⟨?_, ?_, ?_, ?_, ?_, ?_⟩
  · rw [post_symbol, post_waves_eq]
    unfold symbol_first_level symbol_waves
    congr 1
    split_ifs <;> rfl
  · intro h
    simp [symbol_first_level, h, post_pulse, post_pulse_time]
  · intro h
    simp [symbol_first_level, h, post_pulse, post_pulse_time]
  · intro h length rest hw
    rw [hw]
    simp [symbol_first_level, h, alternating_pulses]
  · intro h length rest hw
    rw [hw]
    simp [symbol_first_level, h, alternating_pulses]
  · intro before after hb hp
    unfold symbol_waves
    rw [hp, List.takeWhile_append_of_pos (by simpa using hb)]
    simp [List.takeWhile]

/-- The claim C12 fails as worded: a segment whose one symbol has flags 2 and the single
pulse length 100, output once from a low level, queues a High pulse, and with flags 3
from a high level it queues a Low pulse. The files hold the symbol definition
(`flags`, `64 00`) and then the pilot entry (symbol 0, repeated once). -/
theorem get_generalised_segment_flags_2_forces_high_3_forces_low :
    (get_generalised_segment 1 1 1 false
      { file_ := { contents := [0x02, 0x64, 0x00, 0x00, 0x01, 0x00], position := 0,
                   eof := false, pushed_back := none }
        current_level_ := false, queue := [], is_at_end := false }).queue
      = [{ type := .High, length := ⟨100, 3500000⟩ }] ∧
    (get_generalised_segment 1 1 1 false
      { file_ := { contents := [0x03, 0x64, 0x00, 0x00, 0x01, 0x00], position := 0,
                   eof := false, pushed_back := none }
        current_level_ := true, queue := [], is_at_end := false }).queue
      = [{ type := .Low, length := ⟨100, 3500000⟩ }] := by
  constructor <;> decide

end Storage.Tape.TZX

namespace Storage.Tape.TZX

/-- C13: after `virtual_reset`, whatever the state before, the at-end flag is clear, the
file is positioned at offset `0x0a`, the current level is low, and the queue holds
exactly two pulses: a Low pulse of 3500 ticks of the 3.5 MHz clock (1 ms) followed by a
High pulse of 1746500 ticks (499 ms), 500 ms in all. -/
theorem virtual_reset_queues_initial_gap (t : TZX) :
    (virtual_reset t).is_at_end = false ∧
    (virtual_reset t).file_.position = 0x0a ∧
    (virtual_reset t).file_.pushed_back = none ∧
    (virtual_reset t).file_.contents = t.file_.contents ∧
    (virtual_reset t).queue
      = [{ type := .Low, length := ⟨3500, StandardTZXClock⟩ },
         { type := .High, length := ⟨1746500, StandardTZXClock⟩ }] ∧
    (virtual_reset t).current_level_ = false ∧
    3500 * 1000 = 1 * StandardTZXClock ∧
    1746500 * 1000 = 499 * StandardTZXClock ∧
    (3500 + 1746500) * 1000 = 500 * StandardTZXClock := by
  refine ⟨?_, ?_, ?_, ?_, ?_, ?_, by decide, by decide, by decide⟩ <;>
    simp [virtual_reset, post_gap, post_pulse_time, File.fseek_set, TZXClockMSMultiplier]

end Storage.Tape.TZX

/-! ## Theorems: Amstrad CPC static analyser -/

namespace StaticAnalyser

namespace AmstradCPC

theorem compare_insensitive_iff :
    ∀ (a b : List Char), a.length = b.length →
      (compare_insensitive a b = true ↔ a.map Char.toLower = b.map Char.toLower) := by
  intro a
  induction a with
  | nil =>
    intro b hb
    cases b with
    | nil => simp [compare_insensitive]
    | cons y b => simp at hb
  | cons x a ih =>
    intro b hb
    cases b with
    | nil => simp at hb
    | cons y b =>
      simp only [List.length_cons, Nat.add_right_cancel_iff] at hb
      simp only [compare_insensitive, List.map_cons, List.cons.injEq]
      by_cases hxy : x.toLower = y.toLower
      · simp [hxy, ih b hb]
      · simp [hxy]

theorem strcmp_insensitive_iff (a b : List Char) :
    strcmp_insensitive a b = true ↔ a.map Char.toLower = b.map Char.toLower := by
  unfold strcmp_insensitive
  by_cases h : a.length = b.length
  · simp only [ne_eq, h, not_true_eq_false, if_false]
    exact compare_insensitive_iff a b h
  · simp only [ne_eq, h, not_false_eq_true, if_true, Bool.false_eq_true, false_iff]
    intro hm
    apply h
    have := congrArg List.length hm
    simpa using this

theorem is_basic_eq (file : File) : is_basic file = potentially_basic file := by
  unfold is_basic potentially_basic
  have h : ∀ x : Nat, decide ((x >>> 1) &&& 7 = 0)
      = (!x.testBit 1 && !x.testBit 2 && !x.testBit 3) := by
    intro x
    have e : (x >>> 1) &&& 7 = x / 2 % 8 := by
      rw [Nat.shiftRight_eq_div_pow]
      exact Nat.and_pow_two_sub_one_eq_mod _ 3
    rw [e]
    simp only [Nat.testBit_to_div_mod]
    norm_num only
    by_cases h0 : x / 2 % 8 = 0
    · simp only [h0, decide_True]
      have h1 : x / 2 % 2 ≠ 1 := by omega
      have h2 : x / 4 % 2 ≠ 1 := by omega
      have h3 : x / 8 % 2 ≠ 1 := by omega
      simp [h1, h2, h3]
    · simp only [h0, decide_False]
      by_cases h1 : x / 2 % 2 = 1
      · simp [h1]
      · by_cases h2 : x / 4 % 2 = 1
        · simp [h1, h2]
        · have h3 : x / 8 % 2 = 1 := by omega
          simp [h1, h2, h3]
  rw [h]
  simp [Bool.and_assoc]

end AmstradCPC

end StaticAnalyser

namespace StaticAnalyser

namespace AmstradCPC

theorem takeWhile_map_iff (l t : List Char) (ht : t.length = 3) (hnul : Char.ofNat 0 ∉ t)
    (h : l.length ≤ 3 ∨ Char.ofNat 0 ∉ l) :
    (l.takeWhile (fun c => c ≠ Char.ofNat 0)).map Char.toLower = t
      ↔ l.map Char.toLower = t := by
  have hall : Char.ofNat 0 ∉ l → l.takeWhile (fun c => c ≠ Char.ofNat 0) = l := by
    intro hn
    rw [List.takeWhile_eq_self_iff]
    intro x hx
    simp only [ne_eq, decide_not, Bool.not_eq_true', decide_eq_false_iff_not]
    intro hx0
    exact hn (hx0 ▸ hx)
  constructor
  · intro hm
    rcases h with h | h
    · have hlen : (l.takeWhile (fun c => c ≠ Char.ofNat 0)).length = 3 := by
        have := congrArg List.length hm
        rw [List.length_map, ht] at this
        exact this
      have hpre : l.takeWhile (fun c => c ≠ Char.ofNat 0) <+: l := List.takeWhile_prefix _
      have := hpre.eq_of_length_le (by omega)
      rw [this] at hm
      exact hm
    · rw [hall h] at hm
      exact hm
  · intro hm
    have hn : Char.ofNat 0 ∉ l := by
      intro hmem
      apply hnul
      rw [← hm]
      exact List.mem_map.mpr ⟨Char.ofNat 0, hmem, by decide⟩
    rw [hall hn]
    exact hm

theorem is_implicit_suffixed_eq (file : File)
    (h : file.type.length ≤ 3 ∨ Char.ofNat 0 ∉ file.type.toList) :
    is_implicit_suffixed file = omissible_suffix file := by
  unfold is_implicit_suffixed omissible_suffix
  have h1 : strcmp_insensitive (c_str file.type) ['B', 'A', 'S']
      = decide (file.type.toList.map Char.toLower = ['b', 'a', 's']) := by
    rw [Bool.eq_iff_iff, strcmp_insensitive_iff, decide_eq_true_iff]
    exact takeWhile_map_iff _ _ rfl (by decide) h
  have h2 : strcmp_insensitive (c_str file.type) ['B', 'I', 'N']
      = decide (file.type.toList.map Char.toLower = ['b', 'i', 'n']) := by
    rw [Bool.eq_iff_iff, strcmp_insensitive_iff, decide_eq_true_iff]
    exact takeWhile_map_iff _ _ rfl (by decide) h
  rw [h1, h2]

theorem inspect_loop_eq :
    ∀ (files : List File) (c : Nat) (counts : Counts),
      inspect_loop files c counts
        = { basic_files :=
              (count_and_last is_basic files c
                (counts.basic_files, counts.last_basic_file)).1
            implicit_suffixed_files :=
              (count_and_last is_implicit_suffixed files c
                (counts.implicit_suffixed_files, counts.last_implicit_suffixed_file)).1
            last_basic_file :=
              (count_and_last is_basic files c
                (counts.basic_files, counts.last_basic_file)).2
            last_implicit_suffixed_file :=
              (count_and_last is_implicit_suffixed files c
                (counts.implicit_suffixed_files, counts.last_implicit_suffixed_file)).2 } := by
  intro files
  induction files with
  | nil => intro c counts; rfl
  | cons file rest ih =>
    intro c counts
    unfold inspect_loop
    simp only [count_and_last]
    by_cases hb : is_blank file = true
    · simp only [hb, if_true, Bool.not_true, Bool.false_and, Bool.false_eq_true, if_false]
      exact ih _ _
    · simp only [hb, Bool.false_eq_true, if_false]
      simp only [Bool.not_eq_true] at hb
      simp only [hb, Bool.not_false, Bool.true_and]
      rw [ih]
      by_cases h1 : is_basic file = true <;> by_cases h2 : is_implicit_suffixed file = true <;>
        simp [h1, h2]

/-- The count and the last index that the loop keeps for a test `p`, over the files that
follow the files `before`. -/
theorem count_and_last_spec (p : File → Bool) :
    ∀ (files before : List File) (count last : Nat),
      (count_and_last p files before.length (count, last)).1
        = count + ((files.filter (fun f => !is_blank f)).filter p).length ∧
      (∀ file, ((files.filter (fun f => !is_blank f)).filter p).getLast? = some file →
        (before ++ files)[(count_and_last p files before.length (count, last)).2]?
          = some file) := by
  intro files
  induction files with
  | nil => intro before count last; simp [count_and_last]
  | cons f rest ih =>
    intro before count last
    have hlen : (before ++ [f]).length = before.length + 1 := by simp
    have happ : before ++ f :: rest = (before ++ [f]) ++ rest := by simp
    simp only [count_and_last]
    rw [← hlen, happ]
    by_cases hq : (!is_blank f && p f) = true
    · have hq' : is_blank f = false ∧ p f = true := by simpa using hq
      rw [if_pos hq]
      obtain ⟨i1, i2⟩ := ih (before ++ [f]) (count + 1) before.length
      have hf : (List.filter (fun f => !is_blank f) (f :: rest)).filter p
          = f :: (List.filter (fun f => !is_blank f) rest).filter p := by
        simp [List.filter_cons, hq'.1, hq'.2]
      rw [hf]
      refine ⟨by rw [i1]; simp; omega, fun file hlast => ?_⟩
      cases hB : (List.filter (fun f => !is_blank f) rest).filter p with
      | nil =>
        rw [hB] at hlast
        simp only [List.getLast?_singleton, Option.some.injEq] at hlast
        subst hlast
        have hnone : ∀ (fs bs : List File) (n l : Nat),
            (List.filter (fun f => !is_blank f) fs).filter p = [] →
            (count_and_last p fs bs.length (n, l)).2 = l := by
          intro fs
          induction fs with
          | nil => intro bs n l _; rfl
          | cons g gs ihg =>
            intro bs n l hnil
            have hlen' : (bs ++ [g]).length = bs.length + 1 := by simp
            simp only [count_and_last]
            by_cases hg : (!is_blank g && p g) = true
            · have hg' : is_blank g = false ∧ p g = true := by simpa using hg
              simp [List.filter_cons, hg'.1, hg'.2] at hnil
            · rw [if_neg hg, ← hlen']
              apply ihg
              have hg' : is_blank g = true ∨ p g = false := by
                by_cases hgb : is_blank g = true
                · exact Or.inl hgb
                · right
                  simp only [Bool.not_eq_true] at hgb
                  simpa [hgb] using hg
              rcases hg' with hg' | hg'
              · simpa [List.filter_cons, hg'] using hnil
              · by_cases hgb : is_blank g = true
                · simpa [List.filter_cons, hgb] using hnil
                · simp only [Bool.not_eq_true] at hgb
                  simpa [List.filter_cons, hgb, hg'] using hnil
        rw [hnone rest (before ++ [f]) (count + 1) before.length hB, List.append_assoc,
          List.singleton_append, List.getElem?_append_right (le_refl _)]
        simp
      | cons g gs =>
        rw [hB] at hlast
        rw [List.getLast?_cons_cons] at hlast
        exact i2 file (by rw [hB]; exact hlast)
    · rw [if_neg hq]
      obtain ⟨i1, i2⟩ := ih (before ++ [f]) count last
      have hf : (List.filter (fun f => !is_blank f) (f :: rest)).filter p
          = (List.filter (fun f => !is_blank f) rest).filter p := by
        by_cases hgb : is_blank f = true
        · simp [List.filter_cons, hgb]
        · simp only [Bool.not_eq_true] at hgb
          have : p f = false := by simpa [hgb] using hq
          simp [List.filter_cons, hgb, this]
      rw [hf]
      exact ⟨i1, i2⟩

end AmstradCPC

end StaticAnalyser

namespace StaticAnalyser

namespace AmstradCPC

theorem filter_omissible_eq (files : List File)
    (ht : ∀ f ∈ files, f.type.length ≤ 3 ∨ Char.ofNat 0 ∉ f.type.toList) :
    (files.filter (fun f => !is_blank f)).filter omissible_suffix
      = (files.filter (fun f => !is_blank f)).filter is_implicit_suffixed := by
  apply List.filter_congr
  intro f hf
  exact (is_implicit_suffixed_eq f (ht f (List.mem_of_mem_filter hf))).symm

theorem filter_basic_eq (files : List File) :
    (files.filter (fun f => !is_blank f)).filter potentially_basic
      = (files.filter (fun f => !is_blank f)).filter is_basic := by
  apply List.filter_congr
  intro f _
  exact (is_basic_eq f).symm

theorem singleton_of_length_one {α : Type} (l : List α) (h : l.length = 1) :
    ∃ a, l = [a] ∧ l.getLast? = some a := by
  match l, h with
  | [a], _ => exact ⟨a, rfl, rfl⟩

theorem RunCommandFor_eq_text (file : File) :
    RunCommandFor file = run_command_text file.name := by
  apply String.ext
  simp [RunCommandFor, run_command_text]

/-- C19: for a catalogue that does not hold exactly one file, whose file types are C
strings or of at most the three characters of a CP/M type, `InspectDataCatalogue` gives
the loading command of the rule: over the files counted, the text `run"<name>` and a
newline for the one file that is potentially BASIC if there is exactly one, otherwise
the same text for the one file whose suffix may be omitted if there is exactly one,
otherwise `cat` and a newline. -/
theorem InspectDataCatalogue_follows_the_rule (files : List File) (hn : files.length ≠ 1)
    (ht : ∀ f ∈ files, f.type.length ≤ 3 ∨ Char.ofNat 0 ∉ f.type.toList) :
    InspectDataCatalogue files = some (loading_command_rule files) := by
  unfold InspectDataCatalogue loading_command_rule
  rw [if_neg hn, filter_basic_eq, filter_omissible_eq files ht, inspect_loop_eq]
  dsimp only
  obtain ⟨b1, b2⟩ := count_and_last_spec is_basic files [] 0 0
  obtain ⟨i1, i2⟩ := count_and_last_spec is_implicit_suffixed files [] 0 0
  simp only [List.length_nil, List.nil_append, Nat.zero_add] at b1 b2 i1 i2
  rw [b1, i1]
  by_cases hb : ((files.filter (fun f => !is_blank f)).filter is_basic).length = 1
  · obtain ⟨f, hf, hlast⟩ := singleton_of_length_one _ hb
    rw [if_pos (Or.inl hb), if_pos hb, b2 f hlast, hf, Option.map_some',
      RunCommandFor_eq_text]
  · have hrule : ∀ (x : String),
        (match (files.filter (fun f => !is_blank f)).filter is_basic with
          | [file] => run_command_text file.name
          | _ => x) = x := by
      intro x
      match hB : (files.filter (fun f => !is_blank f)).filter is_basic with
      | [] => rfl
      | [a] => rw [hB] at hb; simp at hb
      | a :: b :: c => rfl
    rw [hrule]
    by_cases hi : ((files.filter (fun f => !is_blank f)).filter is_implicit_suffixed).length = 1
    · obtain ⟨f, hf, hlast⟩ := singleton_of_length_one _ hi
      rw [if_pos (Or.inr hi), if_neg hb, i2 f hlast, hf, Option.map_some',
        RunCommandFor_eq_text]
    · rw [if_neg (by rintro (h | h) <;> contradiction)]
      have hcat : "cat\n" = String.mk ['c', 'a', 't', Char.ofNat 0x0a] := by decide
      rw [hcat]
      match hI : (files.filter (fun f => !is_blank f)).filter is_implicit_suffixed with
      | [] => rfl
      | [a] => rw [hI] at hi; simp at hi
      | a :: b :: c => rfl

/-- A witness of C19: of two files, only `GAME.BAS` has a suffix that may be omitted
(neither has data enough to be BASIC), and the command is `run"GAME    ` and a
newline. -/
theorem InspectDataCatalogue_follows_the_rule_witness :
    InspectDataCatalogue
        [{ name := "GAME    ", type := "BAS", data := [] },
         { name := "DATA    ", type := "DAT", data := [] }]
      = some (String.mk ['r', 'u', 'n', Char.ofNat 0x22, 'G', 'A', 'M', 'E', ' ', ' ', ' ', ' ',
          Char.ofNat 0x0a]) :=
  (InspectDataCatalogue_follows_the_rule
    [{ name := "GAME    ", type := "BAS", data := [] },
     { name := "DATA    ", type := "DAT", data := [] }]
    (by decide) (by decide)).trans (by decide)

/-- C20: for a catalogue of exactly one file `InspectDataCatalogue` sets the loading
command to `run"`, the file's name and a newline, whatever the file's type and data. -/
theorem InspectDataCatalogue_runs_the_only_file (file : File) :
    InspectDataCatalogue [file] = some (RunCommandFor file) ∧
    (RunCommandFor file).toList
      = ['r', 'u', 'n', Char.ofNat 0x22] ++ file.name.toList ++ [Char.ofNat 0x0a] := by
  refine ⟨rfl, ?_⟩
  simp [RunCommandFor]

end AmstradCPC

end StaticAnalyser

namespace StaticAnalyser

namespace AmstradCPC

theorem InspectDataCatalogue_eq (files : List File) (hn : files.length ≠ 1) :
    InspectDataCatalogue files
      = if (catalogue_counts files).basic_files = 1 ∨
            (catalogue_counts files).implicit_suffixed_files = 1 then
          files[selected_file (catalogue_counts files)]?.map RunCommandFor
        else some "cat\n" := by
  unfold InspectDataCatalogue
  rw [if_neg hn]
  rfl

theorem catalogue_counts_eq (files : List File) :
    (catalogue_counts files).basic_files
      = ((files.filter (fun f => !is_blank f)).filter is_basic).length ∧
    (catalogue_counts files).implicit_suffixed_files
      = ((files.filter (fun f => !is_blank f)).filter is_implicit_suffixed).length ∧
    (∀ file, ((files.filter (fun f => !is_blank f)).filter is_basic).getLast? = some file →
      files[(catalogue_counts files).last_basic_file]? = some file) ∧
    (∀ file,
      ((files.filter (fun f => !is_blank f)).filter is_implicit_suffixed).getLast? = some file →
      files[(catalogue_counts files).last_implicit_suffixed_file]? = some file) := by
  unfold catalogue_counts
  rw [inspect_loop_eq]
  obtain ⟨b1, b2⟩ := count_and_last_spec is_basic files [] 0 0
  obtain ⟨i1, i2⟩ := count_and_last_spec is_implicit_suffixed files [] 0 0
  simp only [List.length_nil, List.nil_append, Nat.zero_add] at b1 b2 i1 i2
  exact ⟨b1, i1, b2, i2⟩

theorem not_blank_of_getLast (p : File → Bool) (files : List File) (file : File)
    (h : ((files.filter (fun f => !is_blank f)).filter p).getLast? = some file) :
    is_blank file = false := by
  have hm : file ∈ (files.filter (fun f => !is_blank f)).filter p :=
    List.mem_of_getLast?_eq_some h
  have := (List.mem_filter.mp (List.mem_filter.mp hm).1).2
  simpa using this

/-- C21, for the catalogues that the loop inspects: when the catalogue does not hold
exactly one file, a file whose name is eight spaces and whose type is three spaces
counts neither as BASIC nor as having an omissible suffix (the counts are those of the
other files, and are what they would be with the file taken out of the catalogue), and
the file that the run command is made for, if there is one, is not such a file. -/
theorem InspectDataCatalogue_disregards_blank_files (files : List File)
    (hn : files.length ≠ 1) :
    (catalogue_counts files).basic_files
      = ((files.filter (fun f => !is_blank f)).filter is_basic).length ∧
    (catalogue_counts files).implicit_suffixed_files
      = ((files.filter (fun f => !is_blank f)).filter is_implicit_suffixed).length ∧
    (∀ before blank after, files = before ++ blank :: after → is_blank blank = true →
      (catalogue_counts (before ++ after)).basic_files = (catalogue_counts files).basic_files ∧
      (catalogue_counts (before ++ after)).implicit_suffixed_files
        = (catalogue_counts files).implicit_suffixed_files) ∧
    (InspectDataCatalogue files = some "cat\n" ∨
      ∃ file, files[selected_file (catalogue_counts files)]? = some file ∧
        is_blank file = false ∧ InspectDataCatalogue files = some (RunCommandFor file)) := by
  obtain ⟨c1, c2, c3, c4⟩ := catalogue_counts_eq files
  refine ⟨c1, c2, ?_, ?_⟩
  · intro before blank after hf hb
    obtain ⟨d1, d2, -, -⟩ := catalogue_counts_eq (before ++ after)
    rw [d1, d2, c1, c2, hf]
    simp [List.filter_append, List.filter_cons, hb]
  · rw [InspectDataCatalogue_eq files hn]
    by_cases hb : (catalogue_counts files).basic_files = 1
    · rw [if_pos (Or.inl hb)]
      right
      obtain ⟨f, -, hlast⟩ := singleton_of_length_one _ (c1 ▸ hb)
      refine ⟨f, ?_, not_blank_of_getLast _ _ _ hlast, ?_⟩
      · rw [selected_file, if_pos hb]; exact c3 f hlast
      · rw [selected_file, if_pos hb, c3 f hlast]; rfl
    · by_cases hi : (catalogue_counts files).implicit_suffixed_files = 1
      · rw [if_pos (Or.inr hi)]
        right
        obtain ⟨f, -, hlast⟩ := singleton_of_length_one _ (c2 ▸ hi)
        refine ⟨f, ?_, not_blank_of_getLast _ _ _ hlast, ?_⟩
        · rw [selected_file, if_neg hb]; exact c4 f hlast
        · rw [selected_file, if_neg hb, c4 f hlast]; rfl
      · rw [if_neg (by rintro (h | h) <;> contradiction)]
        exact Or.inl rfl

/-- A witness of C21: in a catalogue of a file with a blank name and `GAME.BAS`, the
latter is the file run. -/
theorem InspectDataCatalogue_disregards_blank_files_witness :
    ([{ name := "        ", type := "   ", data := [] },
      { name := "GAME    ", type := "BAS", data := [] }] : List File).length ≠ 1 ∧
    (catalogue_counts
      [{ name := "        ", type := "   ", data := [] },
       { name := "GAME    ", type := "BAS", data := [] }]).implicit_suffixed_files = 1 :=
  ⟨by decide,
   (InspectDataCatalogue_disregards_blank_files
      [{ name := "        ", type := "   ", data := [] },
       { name := "GAME    ", type := "BAS", data := [] }] (by decide)).2.1.trans (by decide)⟩

/-- The claim C21 fails for a catalogue of one file: a single file whose name is eight
spaces and whose type is three spaces is the file the run command names. -/
theorem InspectDataCatalogue_runs_a_single_blank_file :
    is_blank { name := "        ", type := "   ", data := [] } = true ∧
    InspectDataCatalogue [{ name := "        ", type := "   ", data := [] }]
      = some (RunCommandFor { name := "        ", type := "   ", data := [] }) := by
  constructor <;> decide

end AmstradCPC

end StaticAnalyser

namespace StaticAnalyser

namespace AmstradCPC

theorem first_bytes_match_spec (data : List Nat) (h0 : 0 < data.length) :
    ∀ (remaining c : Nat), c + remaining ≤ data.length →
      first_bytes_match data remaining c
        = some (decide (∀ i, c ≤ i → i < c + remaining → data[i]? = data[0]?)) := by
  intro remaining
  induction remaining with
  | zero =>
    intro c _
    simp only [first_bytes_match, Option.some.injEq]
    symm
    rw [decide_eq_true_iff]
    intro i h1 h2
    omega
  | succ n ih =>
    intro c hc
    have hcl : c < data.length := by omega
    have e0 : data[0]? = some data[0] := List.getElem?_eq_getElem h0
    have ec : data[c]? = some data[c] := List.getElem?_eq_getElem hcl
    unfold first_bytes_match
    rw [ec, e0]
    dsimp only
    by_cases hne : data[c] ≠ data[0]
    · rw [if_pos hne]
      simp only [Option.some.injEq]
      symm
      rw [decide_eq_false_iff_not]
      intro hall
      have := hall c (le_refl _) (by omega)
      rw [ec] at this
      exact hne (Option.some.inj this)
    · rw [if_neg hne, ih (c + 1) (by omega), e0]
      simp only [Option.some.injEq, decide_eq_decide]
      simp only [ne_eq, Decidable.not_not] at hne
      constructor
      · intro hall i h1 h2
        by_cases hi : i = c
        · rw [hi, ec, hne]
        · exact hall i (by omega) (by omega)
      · intro hall i h1 h2
        exact hall i (by omega) (by omega)

theorem RunCommandFor_ne_cpm (file : File) : RunCommandFor file ≠ "|cpm\n" := by
  intro h
  have := congrArg String.toList h
  simp [RunCommandFor] at this

theorem InspectDataCatalogue_ne_cpm (files : List File) :
    InspectDataCatalogue files ≠ some "|cpm\n" := by
  have hmap : ∀ i : Nat, files[i]?.map RunCommandFor ≠ some "|cpm\n" := by
    intro i h
    cases hf : files[i]? with
    | none => rw [hf] at h; simp at h
    | some f =>
      rw [hf] at h
      simp only [Option.map_some', Option.some.injEq] at h
      exact RunCommandFor_ne_cpm f h
  by_cases hn : files.length = 1
  · unfold InspectDataCatalogue
    rw [if_pos hn]
    exact hmap 0
  · rw [InspectDataCatalogue_eq files hn]
    split_ifs
    · exact hmap _
    · intro h
      simp only [Option.some.injEq] at h
      exact absurd h (by decide)

/-- C22: for a boot sector that, when there is one, holds at least 64 bytes,
`InspectSystemCatalogue` sets the loading command to `|cpm` and a newline exactly when
the boot sector exists and one of its bytes 1 to 63 differs from byte 0; when there is
no boot sector, or bytes 1 to 63 all equal byte 0, the loading command is the one
`InspectDataCatalogue` gives for the same catalogue. -/
theorem InspectSystemCatalogue_cpm_iff_boot_sector_written (boot_sector : Option (List Nat))
    (files : List File) (hlen : ∀ data, boot_sector = some data → 64 ≤ data.length) :
    (InspectSystemCatalogue boot_sector files = some "|cpm\n"
      ↔ ∃ data, boot_sector = some data ∧ ∃ c, 1 ≤ c ∧ c < 64 ∧ data[c]? ≠ data[0]?) ∧
    ((boot_sector = none ∨
        ∃ data, boot_sector = some data ∧ ∀ c, 1 ≤ c → c < 64 → data[c]? = data[0]?) →
      InspectSystemCatalogue boot_sector files = InspectDataCatalogue files) := by
  cases boot_sector with
  | none =>
    refine ⟨?_, fun _ => rfl⟩
    constructor
    · intro h
      exact absurd h (InspectDataCatalogue_ne_cpm files)
    · rintro ⟨data, h, -⟩
      exact absurd h (by simp)
  | some data =>
    have h64 := hlen data rfl
    have hspec := first_bytes_match_spec data (by omega) 63 1 (by omega)
    unfold InspectSystemCatalogue
    simp only [hspec]
    by_cases hall : ∀ i, 1 ≤ i → i < 1 + 63 → data[i]? = data[0]?
    · have hd : decide (∀ i, 1 ≤ i → i < 1 + 63 → data[i]? = data[0]?) = true :=
        decide_eq_true hall
      simp only [hd, Bool.not_true, Bool.false_eq_true, if_false]
      refine ⟨?_, fun _ => trivial⟩
      constructor
      · intro h
        exact absurd h (InspectDataCatalogue_ne_cpm files)
      · rintro ⟨d, hd, c, h1, h2, hne⟩
        simp only [Option.some.injEq] at hd
        subst hd
        exact absurd (hall c h1 (by omega)) hne
    · have hd : decide (∀ i, 1 ≤ i → i < 1 + 63 → data[i]? = data[0]?) = false :=
        decide_eq_false hall
      simp only [hd, Bool.not_false, if_true, true_iff]
      refine ⟨?_, ?_⟩
      · push_neg at hall
        obtain ⟨c, h1, h2, hne⟩ := hall
        exact ⟨data, rfl, c, h1, by omega, hne⟩
      · rintro (h | ⟨d, hd', hsame⟩)
        · exact absurd h (by simp)
        · simp only [Option.some.injEq] at hd'
          subst hd'
          exact absurd (fun i h1 h2 => hsame i h1 (by omega)) hall

/-- A witness of C22: a boot sector of 64 bytes of `0xe5` but for one byte is taken for
a system disc. -/
theorem InspectSystemCatalogue_cpm_iff_boot_sector_written_witness :
    InspectSystemCatalogue (some (List.replicate 10 0xe5 ++ 0 :: List.replicate 53 0xe5)) []
      = some "|cpm\n" :=
  (InspectSystemCatalogue_cpm_iff_boot_sector_written
    (some (List.replicate 10 0xe5 ++ 0 :: List.replicate 53 0xe5)) []
    (by intro data h; cases h; decide)).1.mpr ⟨_, rfl, 10, by decide, by decide, by decide⟩

end AmstradCPC

end StaticAnalyser

/-! ## Theorems: M68k instruction descriptions -/

namespace InstructionSet

namespace M68k

/-- C25, as the code has it: for every addressing mode it names `operand_description`
returns without reaching its assertion. For the modes other than `Quick` the text is the
mode's fixed text around the register number in decimal (a single digit for the
registers 0 to 7); for `Quick` it is `Q` when `opcode` is -1 and otherwise the decimal
text of the quick value taken from the opcode. For any other mode value the assertion is
reached and, with assertions compiled out, the empty string is returned. -/
theorem operand_description_of_each_mode (reg opcode quick : Int) :
    operand_description .None reg opcode quick = ("", false) ∧
    operand_description .DataRegisterDirect reg opcode quick = ("D" ++ to_string reg, false) ∧
    operand_description .AddressRegisterDirect reg opcode quick
      = ("A" ++ to_string reg, false) ∧
    operand_description .AddressRegisterIndirect reg opcode quick
      = ("(A" ++ to_string reg ++ ")", false) ∧
    operand_description .AddressRegisterIndirectWithPostincrement reg opcode quick
      = ("(A" ++ to_string reg ++ ")+", false) ∧
    operand_description .AddressRegisterIndirectWithPredecrement reg opcode quick
      = ("-(A" ++ to_string reg ++ ")", false) ∧
    operand_description .AddressRegisterIndirectWithDisplacement reg opcode quick
      = ("(d16, A" ++ to_string reg ++ ")", false) ∧
    operand_description .AddressRegisterIndirectWithIndex8bitDisplacement reg opcode quick
      = ("(d8, A" ++ to_string reg ++ ", Xn)", false) ∧
    operand_description .ProgramCounterIndirectWithDisplacement reg opcode quick
      = ("(d16, PC)", false) ∧
    operand_description .ProgramCounterIndirectWithIndex8bitDisplacement reg opcode quick
      = ("(d8, PC, Xn)", false) ∧
    operand_description .AbsoluteShort reg opcode quick = ("(xxx).w", false) ∧
    operand_description .AbsoluteLong reg opcode quick = ("(xxx).l", false) ∧
    operand_description .ImmediateData reg opcode quick = ("#", false) ∧
    operand_description .Quick reg (-1) quick = ("Q", false) ∧
    (opcode ≠ -1 → operand_description .Quick reg opcode quick = (to_string quick, false)) ∧
    (∀ value, operand_description (.other value) reg opcode quick = ("", true)) ∧
    (∀ r : Fin 8, to_string ((r.val : Nat) : Int) = String.singleton (Char.ofNat (48 + r.val))) := by
  refine ⟨rfl, rfl, rfl, rfl, rfl, rfl, rfl, rfl, rfl, rfl, rfl, rfl, rfl, rfl, ?_,
    fun _ => rfl, by decide⟩
  intro h
  simp [operand_description, h]

/-- The claim C25 fails as worded for `Quick`, whose text is not fixed: with `opcode`
-1 it is `Q`, and for the opcode `0x7005` with the quick value 5 it is `5`. -/
theorem operand_description_of_quick_is_not_fixed :
    operand_description .Quick 0 (-1) 5 = ("Q", false) ∧
    operand_description .Quick 0 0x7005 5 = ("5", false) ∧
    operand_description .Quick 0 (-1) 5 ≠ operand_description .Quick 0 0x7005 5 := by
  refine ⟨by decide, by decide, by decide⟩

end M68k

end InstructionSet
